import Mathlib

/-!
# Cart-Lab: the CART storage driver (`cart_driver.c`)

A shallow embedding of the driver's file table, frame allocator and
byte/frame translation, followed by theorems about it.

Conventions of the embedding

* C `int`, `int16_t`, `int32_t` and `uint32_t` values are `Int`; conversions
  between them are the explicit wrap functions `u32`, `i32`, `i16`, `u64`.
* Arrays are total functions on indices; every indexing of the source is
  guarded by the array's declared size, and an access outside it ends the
  run with `Fault.outOfBounds` (the C behaviour is undefined there).
* `cart_driver.h` is not among the sources, so its two constants
  `CART_MAX_TOTAL_FILES` and `CART_MAX_PATH_LENGTH` are the fields of
  `DriverLimits`, a parameter of every function that uses them.
* The controller behind `cart_io_bus` is not among the sources either; the
  model `cart_io_bus` below is written from the specification's contract.
-/

namespace CartLab

/-! ## Constants of `cart_controller.h` -/

def CART_MAX_CARTRIDGES : Int := 64
def CART_CARTRIDGE_SIZE : Int := 1024
def CART_FRAME_SIZE : Int := 1024

def CART_OP_INITMS : Nat := 0
def CART_OP_BZERO : Nat := 1
def CART_OP_LDCART : Nat := 2
def CART_OP_RDFRME : Nat := 3
def CART_OP_WRFRME : Nat := 4
def CART_OP_POWOFF : Nat := 5

/-- The constants of `cart_driver.h` (a header that is not among the sources). -/
structure DriverLimits where
  CART_MAX_TOTAL_FILES : Nat
  CART_MAX_PATH_LENGTH : Nat

/-! ## Machine integers -/

/-- Conversion to `uint32_t`. -/
def u32 (i : Int) : Int := i % 4294967296

/-- Conversion to `int` / `int32_t` (two's complement). -/
def i32 (i : Int) : Int := (i + 2147483648) % 4294967296 - 2147483648

/-- Conversion to `int16_t` (two's complement). -/
def i16 (i : Int) : Int := (i + 32768) % 65536 - 32768

/-- Conversion to `uint64_t` (`CartXferRegister`). -/
def u64 (i : Int) : Nat := (i % 18446744073709551616).toNat

/-! ## Data model -/

/-- The source's `struct frame_info`. -/
structure frame_info where
  cart_id : Int
  frame_id : Int

/-- The source's `struct file_info`; `fileName` has `CART_MAX_PATH_LENGTH` cells and
`fileFrame` has 100. -/
structure file_info where
  fileName : Nat → Nat
  fileLength : Int
  isOpen : Int
  pos : Int
  frame_num : Int
  fileFrame : Nat → frame_info

/-- Number of cells of `fileFrame`. -/
def FILE_FRAMES : Int := 100

/-- Ways in which a run leaves defined C behaviour or fails to return. -/
inductive Fault where
  | outOfBounds
  | divByZero
  | noProgress
  deriving DecidableEq, Repr

/-- The state of the controller: the loaded cartridge and every frame's bytes. -/
structure Device where
  loaded : Nat
  mem : Nat → Nat → Nat → Nat

/-- One call of `cart_io_bus` as the bus log records it: the register, and for WRFRME
the contents of the frame buffer handed over (for the other commands, whose buffer the
controller does not read, the log records `nullBuf`). -/
structure BusCall where
  reg : Nat
  data : Nat → Nat

/-- The driver's globals, the controller, and the log of bus calls (oldest first). -/
structure State where
  file : Nat → file_info
  nextCartID : Int
  nextFrameID : Int
  initialize_status : Int
  dev : Device
  bus : List BusCall

/-! ## Command encoder -/

/-- The source's `createOpcode`: each shift is taken modulo 2^64. -/
def createOpcode (ky1 ky2 rt1 ct1 fm1 : Nat) : Nat :=
  ((ky1 <<< 56) % 18446744073709551616) ||| ((ky2 <<< 48) % 18446744073709551616)
    ||| ((rt1 <<< 47) % 18446744073709551616) ||| ((ct1 <<< 31) % 18446744073709551616)
    ||| ((fm1 <<< 15) % 18446744073709551616)

/-! ## The bus collaborator -/

/-- Modelled from the spec: the controller behind `cart_io_bus`, whose code is
not among the sources. It decodes the register (opcode in the top 8 bits, cartridge
in 16 bits from bit 31, frame in 16 bits from bit 15); LDCART makes a cartridge
current, BZERO zeroes the current cartridge, RDFRME fills the buffer with the
addressed frame of the current cartridge, WRFRME stores the buffer into it;
INITMS and POWOFF change no frame. Every command succeeds. -/
def cart_io_bus (reg : Nat) (buf : Nat → Nat) (d : Device) : Device × (Nat → Nat) :=
  let ky1 := reg >>> 56
  let ct1 := (reg >>> 31) % 65536
  let fm1 := (reg >>> 15) % 65536
  if ky1 = CART_OP_LDCART then ({ d with loaded := ct1 }, buf)
  else if ky1 = CART_OP_BZERO then
    ({ d with mem := fun c f i => if c = d.loaded then 0 else d.mem c f i }, buf)
  else if ky1 = CART_OP_RDFRME then (d, fun i => d.mem d.loaded fm1 i)
  else if ky1 = CART_OP_WRFRME then
    ({ d with mem := fun c f i => if c = d.loaded ∧ f = fm1 then buf i else d.mem c f i }, buf)
  else (d, buf)

/-- A bus call made by the driver: logged, then performed on the controller. -/
def State.io (s : State) (reg : Nat) (buf : Nat → Nat) : State × (Nat → Nat) :=
  let r := cart_io_bus reg buf s.dev
  ({ s with dev := r.1, bus := s.bus ++ [⟨reg, buf⟩] }, r.2)

/-- Replace record `x` of the file table. -/
def State.setFile (s : State) (x : Nat) (f : file_info) : State :=
  { s with file := fun y => if y = x then f else s.file y }

/-- C `strcpy(dst, src)`: the bytes of `src` before its first NUL, then a NUL. -/
def strcpy (dst : Nat → Nat) (src : List Nat) : Nat → Nat :=
  let str := src.takeWhile (fun c => c != 0)
  fun i => if i < str.length then str.getD i 0 else if i = str.length then 0 else dst i

/-- C `strlen`. -/
def strlen (src : List Nat) : Nat := (src.takeWhile (fun c => c != 0)).length

/-- The buffer used where the source passes NULL to the bus. -/
def nullBuf : Nat → Nat := fun _ => 0

/-! ## Device session -/

/-- The `while (i < CART_MAX_CARTRIDGES)` loop of `cart_poweron`, from `i` for `n` rounds. -/
def cart_poweron_carts : Nat → Nat → State → State
  | 0, _, s => s
  | n + 1, i, s =>
    let s1 := (s.io (createOpcode CART_OP_LDCART 0 0 i 0) nullBuf).1
    let s2 := (s1.io (createOpcode CART_OP_BZERO 0 0 0 0) nullBuf).1
    cart_poweron_carts n (i + 1) s2

/-- The body of the `for` loop of `cart_poweron` on one record. -/
def resetFile (f : file_info) : file_info :=
  { fileName := strcpy f.fileName []
    isOpen := 0
    pos := 0
    fileLength := 0
    frame_num := 0
    fileFrame := fun i => if i = 0 then ⟨0, 0⟩ else f.fileFrame i }

/-- The source's `cart_poweron`. -/
def cart_poweron (L : DriverLimits) (s : State) : Except Fault (Int × State) :=
  let s1 : State :=
    if s.initialize_status = 0 then
      { (s.io (createOpcode CART_OP_INITMS 0 0 0 0) nullBuf).1 with initialize_status := 1 }
    else s
  let s2 := cart_poweron_carts CART_MAX_CARTRIDGES.toNat 0 s1
  if 0 < L.CART_MAX_TOTAL_FILES ∧ L.CART_MAX_PATH_LENGTH = 0 then .error .outOfBounds
  else
    .ok (0, { s2 with file := fun x =>
      if x < L.CART_MAX_TOTAL_FILES then resetFile (s2.file x) else s2.file x })

/-- The source's `cart_poweroff`. -/
def cart_poweroff (s : State) : Int × State :=
  (0, (s.io (createOpcode CART_OP_POWOFF 0 0 0 0) nullBuf).1)

/-! ## File table -/

/-- The `while (x < CART_MAX_TOTAL_FILES)` loop of `cart_open`, from `x` with `n`
slots left: the first `x` with `file[x].fileName[x] == 0`, or `none` when the loop
runs to the end of the table. -/
def cart_open_loop (L : DriverLimits) (file : Nat → file_info) :
    Nat → Nat → Except Fault (Option Nat)
  | 0, _ => .ok none
  | n + 1, x =>
    if L.CART_MAX_PATH_LENGTH ≤ x then .error .outOfBounds
    else if (file x).fileName x = 0 then .ok (some x)
    else cart_open_loop L file n (x + 1)

/-- The source's `cart_open`. After the loop the source writes to
`file[CART_MAX_TOTAL_FILES]`, one record past the table. -/
def cart_open (L : DriverLimits) (path : List Nat) (s : State) : Except Fault (Int × State) :=
  match cart_open_loop L s.file L.CART_MAX_TOTAL_FILES 0 with
  | .error e => .error e
  | .ok (some x) =>
    if L.CART_MAX_PATH_LENGTH < strlen path + 1 then .error .outOfBounds
    else
      let f := s.file x
      .ok (i16 x, s.setFile x
        { f with fileName := strcpy f.fileName path, fileLength := 0, pos := 0, isOpen := 1 })
  | .ok none => .error .outOfBounds

/-- The source's `cart_close`. -/
def cart_close (L : DriverLimits) (fd : Int) (s : State) : Except Fault (Int × State) :=
  if fd < 0 ∨ (L.CART_MAX_TOTAL_FILES : Int) ≤ fd then .error .outOfBounds
  else
    let f := s.file fd.toNat
    if f.isOpen = 0 then .ok (-1, s)
    else .ok (0, s.setFile fd.toNat { f with isOpen := 0 })

/-! ## Position / seek -/

/-- The source's `cart_seek`; `loc` is a `uint32_t`. -/
def cart_seek (L : DriverLimits) (fd : Int) (loc : Nat) (s : State) :
    Except Fault (Int × State) :=
  if fd < 0 ∨ (L.CART_MAX_TOTAL_FILES : Int) ≤ fd then .error .outOfBounds
  else
    let f := s.file fd.toNat
    if f.isOpen = 0 then .ok (-1, s)
    else if fd > (L.CART_MAX_TOTAL_FILES : Int) ∨ fd < 0 then .ok (-1, s)
    else if u32 loc > u32 f.fileLength then .ok (-1, s)
    else .ok (0, s.setFile fd.toNat { f with pos := u32 loc })

/-! ## Byte / frame translator -/

/-- The `while (remainingBytes > 0)` loop of `cart_read`. `out` holds the bytes
stored through `buf` so far; the first argument bounds the number of rounds. -/
def cart_read_loop (L : DriverLimits) (fd : Nat) (count : Int) :
    Nat → State → List Nat → Int → Except Fault (Int × List Nat × State)
  | 0, s, out, remainingBytes =>
    if remainingBytes > 0 then .error .noProgress else .ok (count, out, s)
  | fuel + 1, s, out, remainingBytes =>
    if remainingBytes > 0 then
      let f := s.file fd
      if L.CART_MAX_TOTAL_FILES = 0 then .error .divByZero
      else
        let index := i32 (f.pos / (L.CART_MAX_TOTAL_FILES : Int))
        let offset := i32 (f.pos % (L.CART_MAX_TOTAL_FILES : Int))
        let offsetDiff := CART_FRAME_SIZE - offset
        let size := if offsetDiff < remainingBytes then offsetDiff else remainingBytes
        if index < 0 ∨ FILE_FRAMES ≤ index then .error .outOfBounds
        else
          let frameID := (f.fileFrame index.toNat).frame_id
          let cartID := (f.fileFrame index.toNat).cart_id
          let s1 := (s.io (createOpcode CART_OP_LDCART 0 0 (u64 cartID) 0) nullBuf).1
          let r := s1.io (createOpcode CART_OP_RDFRME 0 0 0 (u64 frameID)) nullBuf
          let temp := r.2
          if size < 0 ∨ offset < 0 ∨ CART_FRAME_SIZE < offset + size then .error .outOfBounds
          else
            let copied := (List.range size.toNat).map (fun i => temp (offset.toNat + i))
            let s2 := r.1.setFile fd { f with pos := u32 (f.pos + size) }
            cart_read_loop L fd count fuel s2 (out ++ copied) (remainingBytes - size)
    else .ok (count, out, s)

/-- The source's `cart_read`: the return value, the bytes stored through `buf`, and
the state. -/
def cart_read (L : DriverLimits) (fd : Int) (count : Int) (s : State) :
    Except Fault (Int × List Nat × State) :=
  if fd < 0 ∨ (L.CART_MAX_TOTAL_FILES : Int) ≤ fd then .error .outOfBounds
  else
    let f := s.file fd.toNat
    let init := i32 (u32 f.fileLength - f.pos)
    if f.isOpen = 0 then .ok (-1, [], s)
    else if fd ≥ (L.CART_MAX_TOTAL_FILES : Int) ∨ fd < 0 then .ok (-1, [], s)
    else if count < 0 then .ok (-1, [], s)
    else
      let count := if count > init then init else count
      cart_read_loop L fd.toNat count count.toNat s [] count

/-- The `while (remainingBytes > 0)` loop of `cart_write`; `buf` is what is left of
the caller's buffer. -/
def cart_write_loop (L : DriverLimits) (fd : Nat) (count : Int) :
    Nat → State → List Nat → Int → Except Fault (Int × State)
  | 0, s, _, remainingBytes =>
    if remainingBytes > 0 then .error .noProgress else .ok (count, s)
  | fuel + 1, s, buf, remainingBytes =>
    if remainingBytes > 0 then
      let f := s.file fd
      if L.CART_MAX_TOTAL_FILES = 0 then .error .divByZero
      else
        let index := i32 (f.pos / (L.CART_MAX_TOTAL_FILES : Int))
        let offset := i32 (f.pos % (L.CART_MAX_TOTAL_FILES : Int))
        if index < 0 ∨ FILE_FRAMES ≤ index then .error .outOfBounds
        else if index ≥ f.frame_num ∧ (f.fileFrame index.toNat).cart_id > 63 then .ok (-1, s)
        else
          let sa : State :=
            if index ≥ f.frame_num then
              { s.setFile fd
                  { f with
                    fileFrame := fun i =>
                      if i = index.toNat then ⟨s.nextCartID, s.nextFrameID⟩ else f.fileFrame i
                    frame_num := f.frame_num + 1 } with
                nextCartID := if s.nextFrameID = 1023 then s.nextCartID + 1 else s.nextCartID
                nextFrameID := if s.nextFrameID = 1023 then 0 else s.nextFrameID + 1 }
            else s
          let fa := sa.file fd
          let offsetDiff := CART_FRAME_SIZE - offset
          let size := if remainingBytes < offsetDiff then remainingBytes else offsetDiff
          let cartID := (fa.fileFrame index.toNat).cart_id
          let frameID := (fa.fileFrame index.toNat).frame_id
          let s1 := (sa.io (createOpcode CART_OP_LDCART 0 0 (u64 cartID) 0) nullBuf).1
          let r := s1.io (createOpcode CART_OP_RDFRME 0 0 0 (u64 frameID)) nullBuf
          let temp := r.2
          if size < 0 ∨ offset < 0 ∨ CART_FRAME_SIZE < offset + size
              ∨ (buf.length : Int) < size then .error .outOfBounds
          else
            let temp1 : Nat → Nat := fun i =>
              if offset.toNat ≤ i ∧ i < offset.toNat + size.toNat
              then buf.getD (i - offset.toNat) 0 else temp i
            let s2 := (r.1.io (createOpcode CART_OP_WRFRME 0 0 0 (u64 frameID)) temp1).1
            let pos1 := u32 (fa.pos + size)
            let s3 := s2.setFile fd
              { fa with
                pos := pos1
                fileLength := if pos1 > u32 fa.fileLength then i32 pos1 else fa.fileLength }
            cart_write_loop L fd count fuel s3 (buf.drop size.toNat) (remainingBytes - size)
    else .ok (count, s)

/-- The source's `cart_write`. -/
def cart_write (L : DriverLimits) (fd : Int) (buf : List Nat) (count : Int) (s : State) :
    Except Fault (Int × State) :=
  if fd < 0 ∨ (L.CART_MAX_TOTAL_FILES : Int) ≤ fd then .error .outOfBounds
  else
    let f := s.file fd.toNat
    if f.isOpen = 0 then .ok (-1, s)
    else if fd ≥ (L.CART_MAX_TOTAL_FILES : Int) ∨ fd < 0 then .ok (-1, s)
    else if count < 0 then .ok (-1, s)
    else cart_write_loop L fd.toNat count count.toNat s buf count

/-! ## Power-on state -/

/-- A record of the file table as the C runtime starts it: every byte zero. -/
def zeroFile : file_info :=
  { fileName := fun _ => 0, fileLength := 0, isOpen := 0, pos := 0, frame_num := 0
    fileFrame := fun _ => ⟨0, 0⟩ }

/-- The globals as the C runtime starts them (all zero), on a controller `d`. -/
def bootState (d : Device) : State :=
  { file := fun _ => zeroFile
    nextCartID := 0
    nextFrameID := 0
    initialize_status := 0
    dev := d
    bus := [] }

/-! ## One round of the transfer loops

The state reached by one round of each `while` loop when `CART_MAX_TOTAL_FILES` is
1024, and the contents of a file as stored on the controller. The theorems below show
that the loops of `cart_read` and `cart_write` are iterations of these rounds. -/

/-- Number of bytes one round moves at cursor `pos` with `remaining` bytes to go. -/
def chunkSize (pos remaining : Int) : Int :=
  if remaining < CART_FRAME_SIZE - pos % 1024 then remaining else CART_FRAME_SIZE - pos % 1024

/-- The allocation branch of `cart_write` (`index >= frame_num`) for record `fd`. -/
def allocRound (fd : Nat) (s : State) : State :=
  let f := s.file fd
  if f.pos / 1024 ≥ f.frame_num then
    { s.setFile fd
        { f with
          fileFrame := fun i =>
            if i = (f.pos / 1024).toNat then ⟨s.nextCartID, s.nextFrameID⟩ else f.fileFrame i
          frame_num := f.frame_num + 1 } with
      nextCartID := if s.nextFrameID = 1023 then s.nextCartID + 1 else s.nextCartID
      nextFrameID := if s.nextFrameID = 1023 then 0 else s.nextFrameID + 1 }
  else s

/-- The frame buffer `temp` of `cart_write` after its `memcpy`. -/
def patchFrame (temp : Nat → Nat) (offset size : Int) (buf : List Nat) : Nat → Nat :=
  fun i =>
    if offset.toNat ≤ i ∧ i < offset.toNat + size.toNat
    then buf.getD (i - offset.toNat) 0 else temp i

/-- State after one round of the loop of `cart_write` on record `fd`. -/
def writeRound (fd : Nat) (s : State) (buf : List Nat) (remaining : Int) : State :=
  let sa := allocRound fd s
  let fa := sa.file fd
  let index := ((s.file fd).pos / 1024).toNat
  let offset := (s.file fd).pos % 1024
  let size := chunkSize (s.file fd).pos remaining
  let cartID := (fa.fileFrame index).cart_id
  let frameID := (fa.fileFrame index).frame_id
  let s1 := (sa.io (createOpcode CART_OP_LDCART 0 0 (u64 cartID) 0) nullBuf).1
  let r := s1.io (createOpcode CART_OP_RDFRME 0 0 0 (u64 frameID)) nullBuf
  let s2 := (r.1.io (createOpcode CART_OP_WRFRME 0 0 0 (u64 frameID))
    (patchFrame r.2 offset size buf)).1
  s2.setFile fd
    { fa with
      pos := u32 (fa.pos + size)
      fileLength :=
        if u32 (fa.pos + size) > u32 fa.fileLength then i32 (u32 (fa.pos + size))
        else fa.fileLength }

/-- State after one round of the loop of `cart_read` on record `fd`. -/
def readRound (fd : Nat) (s : State) (remaining : Int) : State :=
  let f := s.file fd
  let index := (f.pos / 1024).toNat
  let cartID := (f.fileFrame index).cart_id
  let frameID := (f.fileFrame index).frame_id
  let s1 := (s.io (createOpcode CART_OP_LDCART 0 0 (u64 cartID) 0) nullBuf).1
  let r := s1.io (createOpcode CART_OP_RDFRME 0 0 0 (u64 frameID)) nullBuf
  r.1.setFile fd { f with pos := u32 (f.pos + chunkSize f.pos remaining) }

/-- Bytes one round of the loop of `cart_read` stores through `buf`. -/
def readRoundBytes (fd : Nat) (s : State) (remaining : Int) : List Nat :=
  let f := s.file fd
  let index := (f.pos / 1024).toNat
  let cartID := (f.fileFrame index).cart_id
  let frameID := (f.fileFrame index).frame_id
  let s1 := (s.io (createOpcode CART_OP_LDCART 0 0 (u64 cartID) 0) nullBuf).1
  let r := s1.io (createOpcode CART_OP_RDFRME 0 0 0 (u64 frameID)) nullBuf
  (List.range (chunkSize f.pos remaining).toNat).map (fun i => r.2 ((f.pos % 1024).toNat + i))

/-- The cursor of record `fd` lies within the frames of its extent map. -/
def NoHole (fd : Nat) (s : State) : Prop :=
  0 ≤ (s.file fd).frame_num ∧ (s.file fd).pos ≤ (s.file fd).frame_num * 1024

/-- Every cell of `fileFrame` of record `fd` beyond its extent map holds a cartridge
number of at most 63, so the test of `cart_write` before an allocation passes. -/
def FreeCellsOk (fd : Nat) (s : State) : Prop :=
  ∀ i : Nat, (s.file fd).frame_num ≤ i → i < 100 → ((s.file fd).fileFrame i).cart_id ≤ 63

/-! ## Stored bytes and the invariant of the write loop -/

/-- Byte `p` of the file in record `fd`, as stored on the controller: byte `p % 1024` of
the frame that `fileFrame[p / 1024]` names. -/
def fileByte (fd : Nat) (s : State) (p : Int) : Nat :=
  s.dev.mem ((s.file fd).fileFrame (p / 1024).toNat).cart_id.toNat
    ((s.file fd).fileFrame (p / 1024).toNat).frame_id.toNat (p % 1024).toNat

/-- Position of a placement in allocation order. -/
def frame_info.lin (p : frame_info) : Int := p.cart_id * 1024 + p.frame_id

/-- The extent map of record `fd` names frames of the device (cartridge below 64, frame
below 1024), each handed out before the allocator's present position, no two the same. -/
def ExtentOk (fd : Nat) (s : State) : Prop :=
  0 ≤ s.nextCartID ∧ 0 ≤ s.nextFrameID ∧ s.nextFrameID ≤ 1023
    ∧ (∀ i : Nat, (i : Int) < (s.file fd).frame_num →
        0 ≤ ((s.file fd).fileFrame i).cart_id ∧ ((s.file fd).fileFrame i).cart_id ≤ 63
          ∧ 0 ≤ ((s.file fd).fileFrame i).frame_id ∧ ((s.file fd).fileFrame i).frame_id ≤ 1023
          ∧ ((s.file fd).fileFrame i).lin < s.nextCartID * 1024 + s.nextFrameID)
    ∧ (∀ i j : Nat, (i : Int) < (s.file fd).frame_num → (j : Int) < (s.file fd).frame_num →
        i ≠ j → ((s.file fd).fileFrame i).lin ≠ ((s.file fd).fileFrame j).lin)

/-- What the loop of `cart_write` relies on when it has `remaining` bytes to store into
record `fd`: the cursor lies within the extent map and within the length, the write ends
within the 100 cells of `fileFrame`, and the allocator can hand out the frames still to
be allocated without leaving the 64 cartridges. -/
def WriteInv (fd : Nat) (s : State) (remaining : Int) : Prop :=
  NoHole fd s ∧ FreeCellsOk fd s ∧ ExtentOk fd s
    ∧ 0 ≤ (s.file fd).pos ∧ (s.file fd).pos ≤ (s.file fd).fileLength
    ∧ (s.file fd).fileLength ≤ 102400 ∧ (s.file fd).pos + remaining ≤ 102400
    ∧ s.nextCartID * 1024 + s.nextFrameID + ((s.file fd).pos + remaining + 1023) / 1024
        ≤ 65536 + (s.file fd).frame_num

/-! ## Bring-up commands -/

/-- The bus calls of `n` rounds of the cartridge loop of `cart_poweron` starting at
cartridge `i`: LDCART for the cartridge, then BZERO, for `i`, `i + 1`, ... -/
def cartCommands : Nat → Nat → List BusCall
  | 0, _ => []
  | n + 1, i =>
    ⟨createOpcode CART_OP_LDCART 0 0 i 0, nullBuf⟩
      :: ⟨createOpcode CART_OP_BZERO 0 0 0 0, nullBuf⟩ :: cartCommands n (i + 1)

/-! ## Sequences of calls -/

/-- A call on one file: `cart_write(fd, buf, len buf)`, `cart_seek(fd, loc)` or
`cart_read(fd, _, count)`. -/
inductive FileOp where
  | write (buf : List Nat)
  | seek (loc : Nat)
  | read (count : Int)

/-- Run a sequence of calls on file `fd`, keeping with the state the greatest cursor
position that a write has reached so far. The result is `none` when a call leaves
defined behaviour or a write does not return its `count`. -/
def runOps (L : DriverLimits) (fd : Nat) : List FileOp → State × Int → Option (State × Int)
  | [], x => some x
  | FileOp.write buf :: ops, (s, m) =>
    match cart_write L fd buf buf.length s with
    | .ok (r, s1) =>
      if r = buf.length then runOps L fd ops (s1, max m (s1.file fd).pos) else none
    | .error _ => none
  | FileOp.seek loc :: ops, (s, m) =>
    match cart_seek L fd loc s with
    | .ok (_, s1) => runOps L fd ops (s1, m)
    | .error _ => none
  | FileOp.read count :: ops, (s, m) =>
    match cart_read L fd count s with
    | .ok (_, _, s1) => runOps L fd ops (s1, m)
    | .error _ => none

/-! ## Reachable states and the invariant of the driver -/

/-- The states the driver passes through: the state in which the process starts (on any
controller), and the state after every call of the driver that returns. Every state
reached from a power-on by calls of the driver is among them. The counters `nextCartID`
and `frame_num` are incremented as integers: a run of the C program that overflows an
`int` leaves defined behaviour, so the states of its defined runs are all among these. -/
inductive Reachable (L : DriverLimits) : State → Prop
  | start (d : Device) : Reachable L (bootState d)
  | poweron (s s1 : State) (r : Int) :
      Reachable L s → cart_poweron L s = .ok (r, s1) → Reachable L s1
  | poweroff (s : State) : Reachable L s → Reachable L (cart_poweroff s).2
  | open (s s1 : State) (path : List Nat) (h : Int) :
      Reachable L s → cart_open L path s = .ok (h, s1) → Reachable L s1
  | close (s s1 : State) (fd r : Int) :
      Reachable L s → cart_close L fd s = .ok (r, s1) → Reachable L s1
  | read (s s1 : State) (fd count r : Int) (bytes : List Nat) :
      Reachable L s → cart_read L fd count s = .ok (r, bytes, s1) → Reachable L s1
  | write (s s1 : State) (fd : Int) (buf : List Nat) (count r : Int) :
      Reachable L s → cart_write L fd buf count s = .ok (r, s1) → Reachable L s1
  | seek (s s1 : State) (fd : Int) (loc : Nat) (r : Int) :
      Reachable L s → cart_seek L fd loc s = .ok (r, s1) → Reachable L s1

/-- The invariant of the driver's globals: the allocator's frame counter is within a
cartridge; in every record the cursor lies within the length and the length within the
frames of the extent map (at most 100); every placement of an extent map was handed out
before the allocator's present position; no two placements, of one file or of two, are
the same; and within a file the placements are in allocation order. -/
def DriverInv (s : State) : Prop :=
  0 ≤ s.nextCartID ∧ 0 ≤ s.nextFrameID ∧ s.nextFrameID ≤ 1023
    ∧ (∀ x, 0 ≤ (s.file x).pos ∧ (s.file x).pos ≤ (s.file x).fileLength
        ∧ (s.file x).fileLength ≤ (s.file x).frame_num * 1024
        ∧ (s.file x).fileLength ≤ 102400)
    ∧ (∀ x (i : Nat), (i : Int) < (s.file x).frame_num →
        0 ≤ ((s.file x).fileFrame i).cart_id ∧ 0 ≤ ((s.file x).fileFrame i).frame_id
          ∧ ((s.file x).fileFrame i).frame_id ≤ 1023
          ∧ ((s.file x).fileFrame i).lin < s.nextCartID * 1024 + s.nextFrameID)
    ∧ (∀ x y (i j : Nat), (i : Int) < (s.file x).frame_num → (j : Int) < (s.file y).frame_num →
        (x ≠ y ∨ i ≠ j) → ((s.file x).fileFrame i).lin ≠ ((s.file y).fileFrame j).lin)
    ∧ (∀ x (i j : Nat), i < j → (j : Int) < (s.file x).frame_num →
        ((s.file x).fileFrame i).lin < ((s.file x).fileFrame j).lin)

/-! ## Concrete runs -/

/-- A table of 1024 records with 128-byte names. -/
def demoLimits : DriverLimits := ⟨1024, 128⟩

/-- A table of two records with 8-byte names. -/
def tinyLimits : DriverLimits := ⟨2, 8⟩

/-- A controller whose frames are all zero. -/
def zeroDevice : Device := ⟨0, fun _ _ _ => 0⟩

/-- The state a run ends in (the boot state when the run faults). -/
def stateOf {α : Type} : Except Fault (α × State) → State
  | .ok r => r.2
  | .error _ => bootState zeroDevice

/-- State after `cart_poweron()`. -/
def poweredOn (L : DriverLimits) : State := stateOf (cart_poweron L (bootState zeroDevice))

/-- State after `cart_poweron(); cart_open("a")`. -/
def openedA (L : DriverLimits) : State := stateOf (cart_open L [97] (poweredOn L))

/-- State after `cart_poweron(); cart_open("a"); cart_write(0, "x", 1)`. -/
def wroteA (L : DriverLimits) : State := stateOf (cart_write L 0 [120] 1 (openedA L))

/-- State after `cart_poweron(); cart_open("a"); cart_open("b")`. -/
def openedAB (L : DriverLimits) : State := stateOf (cart_open L [98] (openedA L))

/-- State after `cart_poweron(); cart_open("ab"); cart_open("cd")`. -/
def openedTwoLong (L : DriverLimits) : State :=
  stateOf (cart_open L [99, 100] (stateOf (cart_open L [97, 98] (poweredOn L))))

/-- The state `openedA` once 65536 frames have been handed out: the allocator stands
at cartridge 64, frame 0. -/
def exhaustedA (L : DriverLimits) : State :=
  { openedA L with nextCartID := 64, nextFrameID := 0 }

/-- State after `cart_poweron(); cart_open("a"); cart_write(0, "x", 1); cart_seek(0, 0)`. -/
def rewoundA (L : DriverLimits) : State := stateOf (cart_seek L 0 0 (wroteA L))

/-! ## Basic facts -/

theorem setFile_file_same (s : State) (x : Nat) (f : file_info) : (s.setFile x f).file x = f := by
  simp [State.setFile]

theorem setFile_file_other (s : State) (x y : Nat) (f : file_info) (h : y ≠ x) :
    (s.setFile x f).file y = s.file y := by
  simp [State.setFile, h]

theorem u32_of_range (i : Int) (h0 : 0 ≤ i) (h1 : i < 4294967296) : u32 i = i := by
  unfold u32; omega

theorem cart_open_loop_some (L : DriverLimits) (file : Nat → file_info) :
    ∀ n x y, cart_open_loop L file n x = .ok (some y) →
      x ≤ y ∧ y < x + n ∧ y < L.CART_MAX_PATH_LENGTH ∧ (file y).fileName y = 0
        ∧ ∀ z, x ≤ z → z < y → (file z).fileName z ≠ 0 := by
  intro n
  induction n with
  | zero => intro x y h; simp [cart_open_loop] at h
  | succ n ih =>
    intro x y h
    unfold cart_open_loop at h
    by_cases hp : L.CART_MAX_PATH_LENGTH ≤ x
    · simp [hp] at h
    · by_cases hz : (file x).fileName x = 0
      · simp only [hp, hz, if_true, if_false] at h
        have hxy : x = y := by
          injection h with h; injection h
        subst hxy
        exact ⟨le_refl _, by omega, by omega, hz, fun z h1 h2 => by omega⟩
      · simp only [hp, hz, if_false] at h
        obtain ⟨h1, h2, h3, h4, h5⟩ := ih (x + 1) y h
        refine ⟨by omega, by omega, h3, h4, ?_⟩
        intro z hz1 hz2
        by_cases hzx : z = x
        · subst hzx; exact hz
        · exact h5 z (by omega) hz2

theorem cart_open_loop_none (L : DriverLimits) (file : Nat → file_info) :
    ∀ n x, (∀ z, x ≤ z → z < x + n → z < L.CART_MAX_PATH_LENGTH ∧ (file z).fileName z ≠ 0) →
      cart_open_loop L file n x = .ok none := by
  intro n
  induction n with
  | zero => intro x _; rfl
  | succ n ih =>
    intro x h
    unfold cart_open_loop
    have hx := h x (le_refl _) (by omega)
    have hp : ¬ L.CART_MAX_PATH_LENGTH ≤ x := by omega
    simp only [hp, hx.2, if_false]
    exact ih (x + 1) (fun z h1 h2 => h z (by omega) (by omega))

theorem i16_of_range (i : Int) (h0 : 0 ≤ i) (h1 : i < 32768) : i16 i = i := by
  unfold i16; omega

/-! ## Position / seek -/

/-- C5 (seek bounds). On an in-range handle whose record has a length in the range of
`int`, `cart_seek` returns 0 or -1; it returns 0 exactly when the file is open and
`loc <= fileLength`, and then the cursor is `loc`; on failure the whole state is
unchanged; in every case the bus log, the controller, the allocator, the length and the
extent map are unchanged. -/
theorem cart_seek_bounds (L : DriverLimits) (fd : Nat) (loc : Nat) (s : State)
    (hfd : fd < L.CART_MAX_TOTAL_FILES) (hloc : loc < 4294967296)
    (hlen : 0 ≤ (s.file fd).fileLength ∧ (s.file fd).fileLength < 2147483648) :
    ∃ r s1, cart_seek L fd loc s = .ok (r, s1)
      ∧ (r = 0 ∨ r = -1)
      ∧ (r = 0 ↔ (s.file fd).isOpen ≠ 0 ∧ (loc : Int) ≤ (s.file fd).fileLength)
      ∧ (r = 0 → (s1.file fd).pos = loc ∧ (s1.file fd).isOpen = (s.file fd).isOpen
            ∧ (s1.file fd).fileName = (s.file fd).fileName
            ∧ ∀ y, y ≠ fd → s1.file y = s.file y)
      ∧ (r ≠ 0 → s1 = s)
      ∧ s1.bus = s.bus ∧ s1.dev = s.dev
      ∧ s1.nextCartID = s.nextCartID ∧ s1.nextFrameID = s.nextFrameID
      ∧ (s1.file fd).fileLength = (s.file fd).fileLength
      ∧ (s1.file fd).frame_num = (s.file fd).frame_num
      ∧ (s1.file fd).fileFrame = (s.file fd).fileFrame := by
  have h1 : ¬ ((fd : Int) < 0 ∨ (L.CART_MAX_TOTAL_FILES : Int) ≤ (fd : Int)) := by omega
  have h2 : ¬ ((fd : Int) > (L.CART_MAX_TOTAL_FILES : Int) ∨ (fd : Int) < 0) := by omega
  have hu : u32 (s.file fd).fileLength = (s.file fd).fileLength :=
    u32_of_range _ hlen.1 (by omega)
  have hl : u32 (loc : Int) = loc := u32_of_range _ (by omega) (by omega)
  unfold cart_seek
  simp only [h1, h2, if_false, Int.toNat_ofNat, hu, hl]
  by_cases ho : (s.file fd).isOpen = 0
  · simp only [ho, if_true]
    refine ⟨-1, s, rfl, Or.inr rfl, ?_, ?_, ?_, rfl, rfl, rfl, rfl, rfl, rfl, rfl⟩
    · constructor
      · intro h; omega
      · intro h; exact absurd rfl h.1
    · intro h; omega
    · intro _; rfl
  · by_cases hb : (loc : Int) > (s.file fd).fileLength
    · simp only [ho, hb, if_true, if_false]
      refine ⟨-1, s, rfl, Or.inr rfl, ?_, ?_, ?_, rfl, rfl, rfl, rfl, rfl, rfl, rfl⟩
      · constructor
        · intro h; omega
        · intro h; omega
      · intro h; omega
      · intro _; rfl
    · simp only [ho, hb, if_false]
      refine ⟨0, _, rfl, Or.inl rfl, ?_, ?_, ?_, rfl, rfl, rfl, rfl, ?_, ?_, ?_⟩
      · constructor
        · intro _; exact ⟨ho, by omega⟩
        · intro _; rfl
      · intro _
        refine ⟨?_, ?_, ?_, ?_⟩
        · simp [State.setFile]
        · simp [State.setFile]
        · simp [State.setFile]
        · intro y hy; simp [State.setFile, hy]
      · intro h; exact absurd rfl h
      · simp [State.setFile]
      · simp [State.setFile]
      · simp [State.setFile]

/-- C5, at a concrete input: on the open one-byte file, seeking to the end of file
succeeds. -/
theorem cart_seek_bounds_witness :
    ∃ s1, cart_seek demoLimits (0 : Nat) 1 (wroteA demoLimits) = .ok (0, s1)
      ∧ (s1.file 0).pos = 1 := by
  obtain ⟨r, s1, h, _, hiff, hpos, _⟩ :=
    cart_seek_bounds demoLimits 0 1 (wroteA demoLimits) (by decide) (by decide) (by decide)
  have hr : r = 0 := hiff.2 (by decide)
  subst hr
  exact ⟨s1, h, by simpa using (hpos rfl).1⟩

/-! ## File table -/

/-- C6 (reopen). After `cart_poweron(); cart_open("a"); cart_write(0, "x", 1)`, record 0
holds the name "a" with length 1 and cursor 1. A second `cart_open("a")` does not return
handle 0: it returns 1, leaves record 0 as it was (cursor still 1) and turns record 1
into a second file named "a" of length 0. -/
theorem cart_open_reopen_takes_other_record :
    ((wroteA demoLimits).file 0).fileName 0 = 97 ∧ ((wroteA demoLimits).file 0).fileName 1 = 0
      ∧ ((wroteA demoLimits).file 0).fileLength = 1
      ∧ ∃ s1, cart_open demoLimits [97] (wroteA demoLimits) = .ok (1, s1)
          ∧ (s1.file 0).pos = 1 ∧ (s1.file 0).fileLength = 1
          ∧ (s1.file 1).fileName 0 = 97 ∧ (s1.file 1).fileName 1 = 0
          ∧ (s1.file 1).isOpen = 1 ∧ (s1.file 1).fileLength = 0 := by
  refine ⟨by decide, by decide, by decide, _, rfl, ?_⟩
  decide

/-- C7 (create). After `cart_poweron(); cart_open("a"); cart_open("b")` records 0 and 1
hold the names "a" and "b" and record 2 is the lowest one with an empty name. Then
`cart_open("c")` returns 1, not 2, and overwrites the name "b" of record 1. -/
theorem cart_open_create_overwrites_named_record :
    ((openedAB demoLimits).file 0).fileName 0 = 97 ∧ ((openedAB demoLimits).file 1).fileName 0 = 98
      ∧ ((openedAB demoLimits).file 2).fileName 0 = 0
      ∧ ∃ s1, cart_open demoLimits [99] (openedAB demoLimits) = .ok (1, s1)
          ∧ (s1.file 1).fileName 0 = 99 ∧ (s1.file 2).fileName 0 = 0 := by
  refine ⟨by decide, by decide, by decide, _, rfl, ?_⟩
  decide

/-- C8, as stated, fails: after `cart_poweron()`, `cart_open("a")` creates the file in
record 0 and returns handle 0 with the open flag set, and the `cart_close` that follows
succeeds. -/
theorem cart_open_create_closed_counterexample :
    ((poweredOn demoLimits).file 0).fileName 0 = 0
      ∧ ∃ s1, cart_open demoLimits [97] (poweredOn demoLimits) = .ok (0, s1)
          ∧ (s1.file 0).isOpen = 1
          ∧ ∃ s2, cart_close demoLimits 0 s1 = .ok (0, s2) := by
  refine ⟨by decide, _, rfl, by decide, _, rfl⟩

/-- C8, amended (create leaves the file open). Whenever `cart_open` returns a handle
(the table having at most 32768 records, so that the handle fits `int16_t`), the handle
is in range, the record it names is marked open with cursor 0 and length 0, and an
immediately following `cart_close` or `cart_seek` to 0 returns 0, `cart_read` of any
`count >= 0` returns 0 bytes, and `cart_write` of 0 bytes returns 0. -/
theorem cart_open_marks_open (L : DriverLimits) (path : List Nat) (s s1 : State) (h : Int)
    (hM : L.CART_MAX_TOTAL_FILES ≤ 32768) (ho : cart_open L path s = .ok (h, s1)) :
    0 ≤ h ∧ h < L.CART_MAX_TOTAL_FILES
      ∧ (s.file h.toNat).fileName h.toNat = 0
      ∧ (s1.file h.toNat).isOpen = 1 ∧ (s1.file h.toNat).pos = 0
      ∧ (s1.file h.toNat).fileLength = 0
      ∧ (∃ s2, cart_close L h s1 = .ok (0, s2))
      ∧ (∃ s2, cart_seek L h 0 s1 = .ok (0, s2))
      ∧ (∀ count, 0 ≤ count → cart_read L h count s1 = .ok (0, [], s1))
      ∧ cart_write L h [] 0 s1 = .ok (0, s1) := by
  unfold cart_open at ho
  cases hl : cart_open_loop L s.file L.CART_MAX_TOTAL_FILES 0 with
  | error e => simp [hl] at ho
  | ok r =>
    cases r with
    | none => simp [hl] at ho
    | some x =>
      simp only [hl] at ho
      obtain ⟨_, hx, _, hz, _⟩ := cart_open_loop_some L s.file _ _ _ hl
      by_cases hp : L.CART_MAX_PATH_LENGTH < strlen path + 1
      · simp [hp] at ho
      · simp only [hp, if_false] at ho
        injection ho with ho
        injection ho with hh hs
        have hhx : h = (x : Int) := by rw [← hh]; exact i16_of_range _ (by omega) (by omega)
        subst hs
        subst hhx
        have h1 : ¬ ((x : Int) < 0 ∨ (L.CART_MAX_TOTAL_FILES : Int) ≤ (x : Int)) := by omega
        have h2 : ¬ ((x : Int) ≥ (L.CART_MAX_TOTAL_FILES : Int) ∨ (x : Int) < 0) := by omega
        have h3 : ¬ ((x : Int) > (L.CART_MAX_TOTAL_FILES : Int) ∨ (x : Int) < 0) := by omega
        have h4 : ¬ ((x : Int) < 0) := by omega
        have h5 : ¬ (L.CART_MAX_TOTAL_FILES ≤ x) := by omega
        have h6 : ¬ (L.CART_MAX_TOTAL_FILES < x) := by omega
        refine ⟨by omega, by omega, ?_, ?_, ?_, ?_, ?_, ?_, ?_, ?_⟩
        · simpa using hz
        · simp [State.setFile]
        · simp [State.setFile]
        · simp [State.setFile]
        · simp [cart_close, h4, h5, State.setFile]
        · simp [cart_seek, h4, h5, h6, State.setFile, u32]
        · intro count hc
          have : (if count > 0 then (0 : Int) else count) = 0 := by
            split <;> omega
          simp [cart_read, h4, h5, State.setFile, u32, i32, hc, this, cart_read_loop]
        · simp [cart_write, h4, h5, State.setFile, cart_write_loop]

/-- C8 amended, at a concrete input: `cart_open("a")` after power-on. -/
theorem cart_open_marks_open_witness :
    ((stateOf (cart_open demoLimits [97] (poweredOn demoLimits))).file 0).isOpen = 1
      ∧ ∃ s2, cart_close demoLimits 0
          (stateOf (cart_open demoLimits [97] (poweredOn demoLimits))) = .ok (0, s2) := by
  have h := cart_open_marks_open demoLimits [97] (poweredOn demoLimits)
    (stateOf (cart_open demoLimits [97] (poweredOn demoLimits))) 0 (by decide) rfl
  exact ⟨h.2.2.2.1, h.2.2.2.2.2.2.1⟩

/-- The statements after the loop of `cart_open`. When `file[x].fileName[x]` is non-zero
for every record `x` of the table (which needs a name array at least as long as the
table), the loop runs off the end of the table and the statements after it index
`file[CART_MAX_TOTAL_FILES]`, outside the table. -/
theorem cart_open_full_table (L : DriverLimits) (path : List Nat) (s : State)
    (hfull : ∀ x, x < L.CART_MAX_TOTAL_FILES →
      x < L.CART_MAX_PATH_LENGTH ∧ (s.file x).fileName x ≠ 0) :
    cart_open L path s = .error .outOfBounds := by
  have h := cart_open_loop_none L s.file L.CART_MAX_TOTAL_FILES 0
    (fun z _ h2 => hfull z (by omega))
  simp [cart_open, h]

/-- The statements after the loop of `cart_open` at a concrete input: a table of two
records with 8-byte names, both in use after `cart_open("ab"); cart_open("cd")`; then
`cart_open("e")`. -/
theorem cart_open_full_table_witness :
    ((openedTwoLong tinyLimits).file 0).fileName 0 ≠ 0
      ∧ ((openedTwoLong tinyLimits).file 1).fileName 0 ≠ 0
      ∧ cart_open tinyLimits [101] (openedTwoLong tinyLimits) = .error .outOfBounds := by
  refine ⟨by decide, by decide, ?_⟩
  apply cart_open_full_table
  intro x hx
  have hx2 : x < 2 := hx
  interval_cases x
  · exact ⟨by decide, by decide⟩
  · exact ⟨by decide, by decide⟩

/-! ## Frame allocator -/

/-- C10 (exhaustion). With the allocator at cartridge 64, frame 0 (65536 frames handed
out), a one-byte `cart_write` to the new, empty file 0 needs a frame; it does not stop:
it returns 1, assigns the placement (64, 0) and advances the allocator to (64, 1). -/
theorem cart_write_ignores_exhaustion :
    (exhaustedA demoLimits).nextCartID = 64 ∧ (exhaustedA demoLimits).nextFrameID = 0
      ∧ ((exhaustedA demoLimits).file 0).frame_num = 0
      ∧ ∃ s1, cart_write demoLimits 0 [120] 1 (exhaustedA demoLimits) = .ok (1, s1)
          ∧ ((s1.file 0).fileFrame 0).cart_id = 64 ∧ ((s1.file 0).fileFrame 0).frame_id = 0
          ∧ (s1.file 0).frame_num = 1
          ∧ s1.nextCartID = 64 ∧ s1.nextFrameID = 1 := by
  refine ⟨by decide, by decide, by decide, _, rfl, ?_⟩
  decide

/-! ## The transfer loops, round by round -/

theorem i32_of_range (i : Int) (h0 : -2147483648 ≤ i) (h1 : i < 2147483648) : i32 i = i := by
  unfold i32; omega

theorem chunkSize_pos (pos remaining : Int) (hr : 0 < remaining) :
    0 < chunkSize pos remaining ∧ chunkSize pos remaining ≤ remaining
      ∧ pos % 1024 + chunkSize pos remaining ≤ 1024 := by
  unfold chunkSize CART_FRAME_SIZE
  split <;> omega

theorem write_step (L : DriverLimits) (fd : Nat) (count : Int) (fuel : Nat) (s : State)
    (buf : List Nat) (remaining : Int)
    (hM : L.CART_MAX_TOTAL_FILES = 1024)
    (hr : 0 < remaining) (hbuf : remaining ≤ buf.length)
    (hp0 : 0 ≤ (s.file fd).pos) (hp1 : (s.file fd).pos < 102400)
    (hok : ¬ ((s.file fd).pos / 1024 ≥ (s.file fd).frame_num
      ∧ ((s.file fd).fileFrame ((s.file fd).pos / 1024).toNat).cart_id > 63)) :
    cart_write_loop L fd count (fuel + 1) s buf remaining
      = cart_write_loop L fd count fuel (writeRound fd s buf remaining)
          (buf.drop (chunkSize (s.file fd).pos remaining).toNat)
          (remaining - chunkSize (s.file fd).pos remaining) := by
  obtain ⟨hc0, hc1, hc2⟩ := chunkSize_pos (s.file fd).pos remaining hr
  have hidx : i32 ((s.file fd).pos / 1024) = (s.file fd).pos / 1024 :=
    i32_of_range _ (by omega) (by omega)
  have hoff : i32 ((s.file fd).pos % 1024) = (s.file fd).pos % 1024 :=
    i32_of_range _ (by omega) (by omega)
  have hb : ¬ ((s.file fd).pos / 1024 < 0 ∨ FILE_FRAMES ≤ (s.file fd).pos / 1024) := by
    unfold FILE_FRAMES; omega
  have hcs : (if remaining < CART_FRAME_SIZE - (s.file fd).pos % 1024 then remaining
      else CART_FRAME_SIZE - (s.file fd).pos % 1024) = chunkSize (s.file fd).pos remaining := rfl
  have hsz : ¬ (chunkSize (s.file fd).pos remaining < 0 ∨ (s.file fd).pos % 1024 < 0
      ∨ CART_FRAME_SIZE < (s.file fd).pos % 1024 + chunkSize (s.file fd).pos remaining
      ∨ (buf.length : Int) < chunkSize (s.file fd).pos remaining) := by
    unfold CART_FRAME_SIZE; omega
  rw [cart_write_loop]
  simp only [hM, hr, if_true, Nat.cast_ofNat, hidx, hoff, hcs]
  rw [if_neg (by decide), if_neg hb, if_neg hok, if_neg hsz]
  rfl

theorem io_file (s : State) (reg : Nat) (buf : Nat → Nat) : (s.io reg buf).1.file = s.file := rfl

theorem io_nextCartID (s : State) (reg : Nat) (buf : Nat → Nat) :
    (s.io reg buf).1.nextCartID = s.nextCartID := rfl

theorem io_nextFrameID (s : State) (reg : Nat) (buf : Nat → Nat) :
    (s.io reg buf).1.nextFrameID = s.nextFrameID := rfl

theorem io_bus (s : State) (reg : Nat) (buf : Nat → Nat) :
    (s.io reg buf).1.bus = s.bus ++ [⟨reg, buf⟩] := rfl

theorem allocRound_file_other (fd y : Nat) (s : State) (h : y ≠ fd) :
    (allocRound fd s).file y = s.file y := by
  by_cases hc : (s.file fd).pos / 1024 ≥ (s.file fd).frame_num
  · simp [allocRound, hc, State.setFile, h]
  · simp [allocRound, hc]

theorem allocRound_fields (fd : Nat) (s : State) :
    ((allocRound fd s).file fd).pos = (s.file fd).pos
      ∧ ((allocRound fd s).file fd).fileLength = (s.file fd).fileLength
      ∧ ((allocRound fd s).file fd).isOpen = (s.file fd).isOpen
      ∧ ((allocRound fd s).file fd).fileName = (s.file fd).fileName
      ∧ (allocRound fd s).dev = s.dev ∧ (allocRound fd s).bus = s.bus
      ∧ (allocRound fd s).initialize_status = s.initialize_status := by
  by_cases hc : (s.file fd).pos / 1024 ≥ (s.file fd).frame_num
  · simp [allocRound, hc, State.setFile]
  · simp [allocRound, hc]

theorem writeRound_file_other (fd y : Nat) (s : State) (buf : List Nat) (remaining : Int)
    (h : y ≠ fd) : (writeRound fd s buf remaining).file y = s.file y := by
  unfold writeRound
  simp only [State.setFile, io_file, h, if_false]
  exact allocRound_file_other fd y s h

theorem writeRound_fields (fd : Nat) (s : State) (buf : List Nat) (remaining : Int)
    (hr : 0 < remaining)
    (hp0 : 0 ≤ (s.file fd).pos) (hp1 : (s.file fd).pos < 102400)
    (hl0 : 0 ≤ (s.file fd).fileLength) (hl1 : (s.file fd).fileLength ≤ 102400) :
    ((writeRound fd s buf remaining).file fd).pos
        = (s.file fd).pos + chunkSize (s.file fd).pos remaining
      ∧ ((writeRound fd s buf remaining).file fd).fileLength
        = max (s.file fd).fileLength ((s.file fd).pos + chunkSize (s.file fd).pos remaining)
      ∧ ((writeRound fd s buf remaining).file fd).isOpen = (s.file fd).isOpen
      ∧ ((writeRound fd s buf remaining).file fd).fileName = (s.file fd).fileName
      ∧ ((writeRound fd s buf remaining).file fd).frame_num
          = ((allocRound fd s).file fd).frame_num
      ∧ ((writeRound fd s buf remaining).file fd).fileFrame
          = ((allocRound fd s).file fd).fileFrame
      ∧ (writeRound fd s buf remaining).nextCartID = (allocRound fd s).nextCartID
      ∧ (writeRound fd s buf remaining).nextFrameID = (allocRound fd s).nextFrameID
      ∧ (writeRound fd s buf remaining).initialize_status = s.initialize_status := by
  obtain ⟨hc0, hc1, hc2⟩ := chunkSize_pos (s.file fd).pos remaining hr
  obtain ⟨a1, a2, a3, a4, _, _, a7⟩ := allocRound_fields fd s
  have hu : u32 ((s.file fd).pos + chunkSize (s.file fd).pos remaining)
      = (s.file fd).pos + chunkSize (s.file fd).pos remaining :=
    u32_of_range _ (by omega) (by omega)
  have hul : u32 (s.file fd).fileLength = (s.file fd).fileLength :=
    u32_of_range _ (by omega) (by omega)
  have hi : i32 ((s.file fd).pos + chunkSize (s.file fd).pos remaining)
      = (s.file fd).pos + chunkSize (s.file fd).pos remaining :=
    i32_of_range _ (by omega) (by omega)
  unfold writeRound
  simp only [State.setFile, io_file, if_true, a1, a2, a3, a4, hu, hul, hi]
  refine ⟨trivial, ?_, trivial, trivial, trivial, trivial, rfl, rfl, ?_⟩
  · split <;> omega
  · exact a7

theorem allocRound_frames (fd : Nat) (s : State) :
    ((allocRound fd s).file fd).frame_num
        = (if (s.file fd).pos / 1024 ≥ (s.file fd).frame_num then (s.file fd).frame_num + 1
            else (s.file fd).frame_num)
      ∧ (∀ i, ((allocRound fd s).file fd).fileFrame i
          = if (s.file fd).pos / 1024 ≥ (s.file fd).frame_num ∧ i = ((s.file fd).pos / 1024).toNat
            then ⟨s.nextCartID, s.nextFrameID⟩ else (s.file fd).fileFrame i) := by
  by_cases hc : (s.file fd).pos / 1024 ≥ (s.file fd).frame_num
  · simp [allocRound, hc, State.setFile]
  · simp [allocRound, hc]

theorem write_step_stop (L : DriverLimits) (fd : Nat) (count : Int) (fuel : Nat) (s : State)
    (buf : List Nat) (remaining : Int)
    (hM : L.CART_MAX_TOTAL_FILES = 1024) (hr : 0 < remaining)
    (hp0 : 0 ≤ (s.file fd).pos) (hp1 : (s.file fd).pos < 102400)
    (hstop : (s.file fd).pos / 1024 ≥ (s.file fd).frame_num
      ∧ ((s.file fd).fileFrame ((s.file fd).pos / 1024).toNat).cart_id > 63) :
    cart_write_loop L fd count (fuel + 1) s buf remaining = .ok (-1, s) := by
  have hidx : i32 ((s.file fd).pos / 1024) = (s.file fd).pos / 1024 :=
    i32_of_range _ (by omega) (by omega)
  have hb : ¬ ((s.file fd).pos / 1024 < 0 ∨ FILE_FRAMES ≤ (s.file fd).pos / 1024) := by
    unfold FILE_FRAMES; omega
  rw [cart_write_loop]
  simp only [hM, hr, if_true, Nat.cast_ofNat, hidx]
  rw [if_neg (by decide), if_neg hb, if_pos hstop]

theorem writeRound_invariants (fd : Nat) (s : State) (buf : List Nat) (remaining : Int)
    (hr : 0 < remaining)
    (hp0 : 0 ≤ (s.file fd).pos) (hp1 : (s.file fd).pos < 102400)
    (hl0 : 0 ≤ (s.file fd).fileLength) (hl1 : (s.file fd).fileLength ≤ 102400)
    (hn : NoHole fd s) (hf : FreeCellsOk fd s) :
    NoHole fd (writeRound fd s buf remaining) ∧ FreeCellsOk fd (writeRound fd s buf remaining) := by
  obtain ⟨hc0, hc1, hc2⟩ := chunkSize_pos (s.file fd).pos remaining hr
  obtain ⟨w1, _, _, _, w5, w6, _⟩ := writeRound_fields fd s buf remaining hr hp0 hp1 hl0 hl1
  obtain ⟨f1, f2⟩ := allocRound_frames fd s
  unfold NoHole FreeCellsOk at *
  rw [w1, w5, w6, f1]
  constructor
  · split <;> omega
  · intro i hi1 hi2
    rw [f2 i]
    by_cases hc : (s.file fd).pos / 1024 ≥ (s.file fd).frame_num
    · rw [if_pos hc] at hi1
      have hne : ¬ (i = ((s.file fd).pos / 1024).toNat) := by omega
      simp only [hne, and_false, if_false]
      exact hf i (by omega) hi2
    · rw [if_neg hc] at hi1
      simp only [hc, false_and, if_false]
      exact hf i hi1 hi2

theorem write_loop_numeric (L : DriverLimits) (fd : Nat) (count : Int)
    (hM : L.CART_MAX_TOTAL_FILES = 1024) :
    ∀ (fuel : Nat) (s : State) (buf : List Nat) (remaining : Int),
      0 ≤ remaining → remaining.toNat ≤ fuel → remaining ≤ buf.length →
      0 ≤ (s.file fd).pos → (s.file fd).pos ≤ (s.file fd).fileLength →
      (s.file fd).pos + remaining ≤ 102400 → (s.file fd).fileLength ≤ 102400 →
      ∃ r s1, cart_write_loop L fd count fuel s buf remaining = .ok (r, s1)
        ∧ (r = -1 ∨ (r = count ∧ (s1.file fd).pos = (s.file fd).pos + remaining
            ∧ (s1.file fd).fileLength
                = max (s.file fd).fileLength ((s.file fd).pos + remaining)))
        ∧ (NoHole fd s → FreeCellsOk fd s → r = count)
        ∧ (s.file fd).fileLength ≤ (s1.file fd).fileLength
        ∧ (s1.file fd).isOpen = (s.file fd).isOpen
        ∧ (s1.file fd).fileName = (s.file fd).fileName
        ∧ (∀ y, y ≠ fd → s1.file y = s.file y)
        ∧ s1.initialize_status = s.initialize_status := by
  intro fuel
  induction fuel with
  | zero =>
    intro s buf remaining h0 hfuel _ _ hpl _ _
    have hz : remaining = 0 := by omega
    subst hz
    refine ⟨count, s, by simp [cart_write_loop], Or.inr ⟨rfl, by simp, ?_⟩, fun _ _ => rfl,
      le_refl _, rfl, rfl, fun _ _ => rfl, rfl⟩
    rw [add_zero, max_eq_left hpl]
  | succ fuel ih =>
    intro s buf remaining h0 hfuel hbuf hp0 hpl hend hl1
    by_cases hr : 0 < remaining
    · have hp1 : (s.file fd).pos < 102400 := by omega
      by_cases hstop : (s.file fd).pos / 1024 ≥ (s.file fd).frame_num
          ∧ ((s.file fd).fileFrame ((s.file fd).pos / 1024).toNat).cart_id > 63
      · refine ⟨-1, s, write_step_stop L fd count fuel s buf remaining hM hr hp0 hp1 hstop,
          Or.inl rfl, ?_, le_refl _, rfl, rfl, fun _ _ => rfl, rfl⟩
        intro _ hf
        have := hf ((s.file fd).pos / 1024).toNat (by omega) (by omega)
        omega
      · rw [write_step L fd count fuel s buf remaining hM hr hbuf hp0 hp1 hstop]
        obtain ⟨hc0, hc1, hc2⟩ := chunkSize_pos (s.file fd).pos remaining hr
        obtain ⟨w1, w2, w3, w4, _, _, _, _, w9⟩ :=
          writeRound_fields fd s buf remaining hr hp0 hp1 (by omega) hl1
        obtain ⟨r, s1, e, hres, hsucc, hmono, ho, hname, hoth, hini⟩ :=
          ih (writeRound fd s buf remaining)
            (buf.drop (chunkSize (s.file fd).pos remaining).toNat)
            (remaining - chunkSize (s.file fd).pos remaining)
            (by omega) (by omega) (by rw [List.length_drop]; omega)
            (by rw [w1]; omega) (by rw [w1, w2]; exact le_max_right _ _)
            (by rw [w1]; omega) (by rw [w2]; exact max_le hl1 (by omega))
        refine ⟨r, s1, e, ?_, ?_, ?_, ?_, ?_, ?_, ?_⟩
        · rcases hres with h | ⟨h1, h2, h3⟩
          · exact Or.inl h
          · refine Or.inr ⟨h1, ?_, ?_⟩
            · rw [h2, w1]; omega
            · rw [h3, w1, w2]
              simp only [max_def]
              split_ifs <;> omega
        · intro hn hf
          obtain ⟨hn1, hf1⟩ :=
            writeRound_invariants fd s buf remaining hr hp0 hp1 (by omega) hl1 hn hf
          exact hsucc hn1 hf1
        · rw [w2] at hmono; exact le_trans (le_max_left _ _) hmono
        · rw [ho, w3]
        · rw [hname, w4]
        · intro y hy; rw [hoth y hy, writeRound_file_other fd y s buf remaining hy]
        · rw [hini, w9]
    · have hz : remaining = 0 := by omega
      subst hz
      refine ⟨count, s, by simp [cart_write_loop], Or.inr ⟨rfl, by simp, ?_⟩, fun _ _ => rfl,
        le_refl _, rfl, rfl, fun _ _ => rfl, rfl⟩
      rw [add_zero, max_eq_left hpl]

theorem read_step (L : DriverLimits) (fd : Nat) (count : Int) (fuel : Nat) (s : State)
    (out : List Nat) (remaining : Int)
    (hM : L.CART_MAX_TOTAL_FILES = 1024) (hr : 0 < remaining)
    (hp0 : 0 ≤ (s.file fd).pos) (hp1 : (s.file fd).pos < 102400) :
    cart_read_loop L fd count (fuel + 1) s out remaining
      = cart_read_loop L fd count fuel (readRound fd s remaining)
          (out ++ readRoundBytes fd s remaining)
          (remaining - chunkSize (s.file fd).pos remaining) := by
  obtain ⟨hc0, hc1, hc2⟩ := chunkSize_pos (s.file fd).pos remaining hr
  have hidx : i32 ((s.file fd).pos / 1024) = (s.file fd).pos / 1024 :=
    i32_of_range _ (by omega) (by omega)
  have hoff : i32 ((s.file fd).pos % 1024) = (s.file fd).pos % 1024 :=
    i32_of_range _ (by omega) (by omega)
  have hb : ¬ ((s.file fd).pos / 1024 < 0 ∨ FILE_FRAMES ≤ (s.file fd).pos / 1024) := by
    unfold FILE_FRAMES; omega
  have hcs : (if CART_FRAME_SIZE - (s.file fd).pos % 1024 < remaining
      then CART_FRAME_SIZE - (s.file fd).pos % 1024 else remaining)
      = chunkSize (s.file fd).pos remaining := by
    unfold chunkSize; split_ifs <;> omega
  have hsz : ¬ (chunkSize (s.file fd).pos remaining < 0 ∨ (s.file fd).pos % 1024 < 0
      ∨ CART_FRAME_SIZE < (s.file fd).pos % 1024 + chunkSize (s.file fd).pos remaining) := by
    unfold CART_FRAME_SIZE; omega
  rw [cart_read_loop]
  simp only [hM, hr, if_true, Nat.cast_ofNat, hidx, hoff, hcs]
  rw [if_neg (by decide), if_neg hb, if_neg hsz]
  rfl

theorem readRound_file_other (fd y : Nat) (s : State) (remaining : Int) (h : y ≠ fd) :
    (readRound fd s remaining).file y = s.file y := by
  unfold readRound
  simp only [State.setFile, io_file, h, if_false]

theorem readRound_fields (fd : Nat) (s : State) (remaining : Int) (hr : 0 < remaining)
    (hp0 : 0 ≤ (s.file fd).pos) (hp1 : (s.file fd).pos < 102400) :
    ((readRound fd s remaining).file fd).pos
        = (s.file fd).pos + chunkSize (s.file fd).pos remaining
      ∧ ((readRound fd s remaining).file fd).fileLength = (s.file fd).fileLength
      ∧ ((readRound fd s remaining).file fd).isOpen = (s.file fd).isOpen
      ∧ ((readRound fd s remaining).file fd).fileName = (s.file fd).fileName
      ∧ ((readRound fd s remaining).file fd).frame_num = (s.file fd).frame_num
      ∧ ((readRound fd s remaining).file fd).fileFrame = (s.file fd).fileFrame
      ∧ (readRound fd s remaining).nextCartID = s.nextCartID
      ∧ (readRound fd s remaining).nextFrameID = s.nextFrameID
      ∧ (readRound fd s remaining).initialize_status = s.initialize_status := by
  obtain ⟨hc0, hc1, hc2⟩ := chunkSize_pos (s.file fd).pos remaining hr
  have hu : u32 ((s.file fd).pos + chunkSize (s.file fd).pos remaining)
      = (s.file fd).pos + chunkSize (s.file fd).pos remaining :=
    u32_of_range _ (by omega) (by omega)
  unfold readRound
  simp only [State.setFile, io_file, if_true, hu]
  exact ⟨trivial, trivial, trivial, trivial, trivial, trivial, rfl, rfl, rfl⟩

theorem readRoundBytes_length (fd : Nat) (s : State) (remaining : Int) :
    (readRoundBytes fd s remaining).length = (chunkSize (s.file fd).pos remaining).toNat := by
  simp [readRoundBytes]

theorem read_loop_numeric (L : DriverLimits) (fd : Nat) (count : Int)
    (hM : L.CART_MAX_TOTAL_FILES = 1024) :
    ∀ (fuel : Nat) (s : State) (out : List Nat) (remaining : Int),
      0 ≤ remaining → remaining.toNat ≤ fuel →
      0 ≤ (s.file fd).pos → (s.file fd).pos + remaining ≤ 102400 →
      ∃ bytes s1, cart_read_loop L fd count fuel s out remaining = .ok (count, out ++ bytes, s1)
        ∧ (bytes.length : Int) = remaining
        ∧ (s1.file fd).pos = (s.file fd).pos + remaining
        ∧ (s1.file fd).fileLength = (s.file fd).fileLength
        ∧ (s1.file fd).isOpen = (s.file fd).isOpen
        ∧ (s1.file fd).fileName = (s.file fd).fileName
        ∧ (s1.file fd).frame_num = (s.file fd).frame_num
        ∧ (s1.file fd).fileFrame = (s.file fd).fileFrame
        ∧ (∀ y, y ≠ fd → s1.file y = s.file y)
        ∧ s1.nextCartID = s.nextCartID ∧ s1.nextFrameID = s.nextFrameID
        ∧ s1.initialize_status = s.initialize_status
        ∧ (remaining = 0 → s1 = s) := by
  intro fuel
  induction fuel with
  | zero =>
    intro s out remaining h0 hfuel _ _
    have hz : remaining = 0 := by omega
    subst hz
    exact ⟨[], s, by simp [cart_read_loop], by simp, by simp, rfl, rfl, rfl, rfl, rfl,
      fun _ _ => rfl, rfl, rfl, rfl, fun _ => rfl⟩
  | succ fuel ih =>
    intro s out remaining h0 hfuel hp0 hend
    by_cases hr : 0 < remaining
    · have hp1 : (s.file fd).pos < 102400 := by omega
      rw [read_step L fd count fuel s out remaining hM hr hp0 hp1]
      obtain ⟨hc0, hc1, hc2⟩ := chunkSize_pos (s.file fd).pos remaining hr
      obtain ⟨w1, w2, w3, w4, w5, w6, w7, w8, w9⟩ := readRound_fields fd s remaining hr hp0 hp1
      obtain ⟨bytes, s1, e, hlen, hpos, h2, h3, h4, h5, h6, hoth, h7, h8, h9, _⟩ :=
        ih (readRound fd s remaining) (out ++ readRoundBytes fd s remaining)
          (remaining - chunkSize (s.file fd).pos remaining)
          (by omega) (by omega) (by rw [w1]; omega) (by rw [w1]; omega)
      refine ⟨readRoundBytes fd s remaining ++ bytes, s1, ?_, ?_, ?_, ?_, ?_, ?_, ?_, ?_, ?_,
        ?_, ?_, ?_, ?_⟩
      · rw [e, List.append_assoc]
      · rw [List.length_append, readRoundBytes_length]
        push_cast
        rw [hlen, Int.toNat_of_nonneg (by omega)]
        omega
      · rw [hpos, w1]; omega
      · rw [h2, w2]
      · rw [h3, w3]
      · rw [h4, w4]
      · rw [h5, w5]
      · rw [h6, w6]
      · intro y hy; rw [hoth y hy, readRound_file_other fd y s remaining hy]
      · rw [h7, w7]
      · rw [h8, w8]
      · rw [h9, w9]
      · intro hz; omega
    · have hz : remaining = 0 := by omega
      subst hz
      exact ⟨[], s, by simp [cart_read_loop], by simp, by simp, rfl, rfl, rfl, rfl, rfl,
        fun _ _ => rfl, rfl, rfl, rfl, fun _ => rfl⟩

/-! ## Byte / frame translator: cursor and length -/

/-- C3 (read clamps at end of file). With `CART_MAX_TOTAL_FILES` equal to the frame size,
on an open record with cursor `c`, length `L`, `0 <= c <= L`, `L` within the 100 frames
of `fileFrame`, and `count >= 0`, `cart_read` returns `min count (L - c)`, stores that many
bytes, moves the cursor to `c + min count (L - c)`, and leaves the length, the extent map,
the open flag, the other records and the allocator unchanged; when `c = L` the state,
and so the bus log, is unchanged. -/
theorem cart_read_clamps (L : DriverLimits) (fd : Nat) (count : Int) (s : State)
    (hM : L.CART_MAX_TOTAL_FILES = 1024) (hfd : fd < L.CART_MAX_TOTAL_FILES)
    (hopen : (s.file fd).isOpen ≠ 0) (hcount : 0 ≤ count)
    (hc0 : 0 ≤ (s.file fd).pos) (hcl : (s.file fd).pos ≤ (s.file fd).fileLength)
    (hl : (s.file fd).fileLength ≤ 102400) :
    ∃ bytes s1,
      cart_read L fd count s
          = .ok (min count ((s.file fd).fileLength - (s.file fd).pos), bytes, s1)
        ∧ (bytes.length : Int) = min count ((s.file fd).fileLength - (s.file fd).pos)
        ∧ (s1.file fd).pos
            = (s.file fd).pos + min count ((s.file fd).fileLength - (s.file fd).pos)
        ∧ (s1.file fd).fileLength = (s.file fd).fileLength
        ∧ (s1.file fd).frame_num = (s.file fd).frame_num
        ∧ (s1.file fd).fileFrame = (s.file fd).fileFrame
        ∧ (s1.file fd).isOpen = (s.file fd).isOpen
        ∧ (∀ y, y ≠ fd → s1.file y = s.file y)
        ∧ s1.nextCartID = s.nextCartID ∧ s1.nextFrameID = s.nextFrameID
        ∧ ((s.file fd).pos = (s.file fd).fileLength → s1 = s) := by
  have h4 : ¬ ((fd : Int) < 0 ∨ (L.CART_MAX_TOTAL_FILES : Int) ≤ (fd : Int)) := by omega
  have h5 : ¬ ((fd : Int) ≥ (L.CART_MAX_TOTAL_FILES : Int) ∨ (fd : Int) < 0) := by omega
  have hneg : ¬ count < 0 := by omega
  have hinit : i32 (u32 (s.file fd).fileLength - (s.file fd).pos)
      = (s.file fd).fileLength - (s.file fd).pos := by
    rw [u32_of_range _ (by omega) (by omega)]
    exact i32_of_range _ (by omega) (by omega)
  have hclamp : (if count > (s.file fd).fileLength - (s.file fd).pos
      then (s.file fd).fileLength - (s.file fd).pos else count)
      = min count ((s.file fd).fileLength - (s.file fd).pos) := by
    simp only [min_def]; split_ifs <;> omega
  obtain ⟨bytes, s1, e, h1, h2, h3, ho, _, hn, hf, hoth, hc, hfr, _, hz⟩ :=
    read_loop_numeric L fd (min count ((s.file fd).fileLength - (s.file fd).pos)) hM
      (min count ((s.file fd).fileLength - (s.file fd).pos)).toNat s []
      (min count ((s.file fd).fileLength - (s.file fd).pos))
      (le_min hcount (by omega)) (le_refl _) hc0
      (by have := min_le_right count ((s.file fd).fileLength - (s.file fd).pos); omega)
  refine ⟨bytes, s1, ?_, h1, h2, h3, hn, hf, ho, hoth, hc, hfr, ?_⟩
  · unfold cart_read
    simp only [Int.toNat_ofNat, hinit, hclamp]
    rw [if_neg h4, if_neg hopen, if_neg h5, if_neg hneg, e]
    simp
  · intro hend
    apply hz
    rw [hend]
    simp [hcount]

theorem cart_write_single (L : DriverLimits) (fd : Nat) (buf : List Nat) (count : Int)
    (s : State)
    (hM : L.CART_MAX_TOTAL_FILES = 1024) (hfd : fd < L.CART_MAX_TOTAL_FILES)
    (hopen : (s.file fd).isOpen ≠ 0) (hcount : 0 ≤ count) (hbuf : count ≤ buf.length)
    (hc0 : 0 ≤ (s.file fd).pos) (hcl : (s.file fd).pos ≤ (s.file fd).fileLength)
    (hend : (s.file fd).pos + count ≤ 102400) (hl : (s.file fd).fileLength ≤ 102400) :
    ∃ r s1,
      cart_write L fd buf count s = .ok (r, s1)
        ∧ (r = count ∨ r = -1)
        ∧ (r ≠ -1 → (s1.file fd).pos = (s.file fd).pos + count
            ∧ (s1.file fd).fileLength = max (s.file fd).fileLength ((s.file fd).pos + count))
        ∧ (r ≠ -1 → (s.file fd).pos + count ≤ (s.file fd).fileLength →
            (s1.file fd).fileLength = (s.file fd).fileLength)
        ∧ (s.file fd).fileLength ≤ (s1.file fd).fileLength
        ∧ (NoHole fd s → FreeCellsOk fd s → r = count) := by
  have h4 : ¬ ((fd : Int) < 0 ∨ (L.CART_MAX_TOTAL_FILES : Int) ≤ (fd : Int)) := by omega
  have h5 : ¬ ((fd : Int) ≥ (L.CART_MAX_TOTAL_FILES : Int) ∨ (fd : Int) < 0) := by omega
  have hneg : ¬ count < 0 := by omega
  obtain ⟨r, s1, e, hres, hsucc, hmono, _⟩ :=
    write_loop_numeric L fd count hM count.toNat s buf count hcount (le_refl _) hbuf hc0 hcl
      hend hl
  have hfacts : r ≠ -1 → (s1.file fd).pos = (s.file fd).pos + count
      ∧ (s1.file fd).fileLength = max (s.file fd).fileLength ((s.file fd).pos + count) := by
    intro hr
    rcases hres with h | ⟨_, h2, h3⟩
    · exact absurd h hr
    · exact ⟨h2, h3⟩
  refine ⟨r, s1, ?_, ?_, hfacts, ?_, hmono, hsucc⟩
  · unfold cart_write
    simp only [Int.toNat_ofNat]
    rw [if_neg h4, if_neg hopen, if_neg h5, if_neg hneg, e]
  · rcases hres with h | ⟨h1, _⟩
    · exact Or.inr h
    · exact Or.inl h1
  · intro hr hle
    rw [(hfacts hr).2, max_eq_left hle]

/-! ## The power-on state -/

theorem cart_poweron_carts_file : ∀ (n i : Nat) (s : State),
    (cart_poweron_carts n i s).file = s.file
      ∧ (cart_poweron_carts n i s).nextCartID = s.nextCartID
      ∧ (cart_poweron_carts n i s).nextFrameID = s.nextFrameID := by
  intro n
  induction n with
  | zero => intro i s; exact ⟨rfl, rfl, rfl⟩
  | succ n ih =>
    intro i s
    unfold cart_poweron_carts
    obtain ⟨h1, h2, h3⟩ := ih (i + 1)
      (((s.io (createOpcode CART_OP_LDCART 0 0 i 0) nullBuf).1.io
        (createOpcode CART_OP_BZERO 0 0 0 0) nullBuf).1)
    exact ⟨h1, h2, h3⟩

theorem resetFile_zeroFile : resetFile zeroFile = zeroFile := by
  unfold resetFile zeroFile strcpy
  simp only [List.takeWhile_nil, List.length_nil, Nat.not_lt_zero, if_false]
  congr 1
  · funext i; split <;> rfl
  · funext i; split <;> rfl

theorem poweredOn_state (L : DriverLimits) (hP : 0 < L.CART_MAX_PATH_LENGTH) :
    (∀ x, (poweredOn L).file x = zeroFile)
      ∧ (poweredOn L).nextCartID = 0 ∧ (poweredOn L).nextFrameID = 0 := by
  have hc : ¬ (0 < L.CART_MAX_TOTAL_FILES ∧ L.CART_MAX_PATH_LENGTH = 0) := by omega
  unfold poweredOn cart_poweron
  simp only [hc, if_false, stateOf]
  obtain ⟨h1, h2, h3⟩ := cart_poweron_carts_file CART_MAX_CARTRIDGES.toNat 0
    (if (bootState zeroDevice).initialize_status = 0 then
      { ((bootState zeroDevice).io (createOpcode CART_OP_INITMS 0 0 0 0) nullBuf).1 with
        initialize_status := 1 }
    else bootState zeroDevice)
  refine ⟨?_, ?_, ?_⟩
  · intro x
    simp only [h1]
    have hb : ∀ y, (if (bootState zeroDevice).initialize_status = 0 then
        { ((bootState zeroDevice).io (createOpcode CART_OP_INITMS 0 0 0 0) nullBuf).1 with
          initialize_status := 1 }
      else bootState zeroDevice).file y = zeroFile := by
      intro y; rfl
    rw [hb x]
    split
    · exact resetFile_zeroFile
    · rfl
  · simp only [h2]; rfl
  · simp only [h3]; rfl

theorem openedA_state (L : DriverLimits) (hM : 0 < L.CART_MAX_TOTAL_FILES)
    (hP : 2 ≤ L.CART_MAX_PATH_LENGTH) :
    cart_open L [97] (poweredOn L) = .ok (0, openedA L)
      ∧ (openedA L).file 0
          = { zeroFile with fileName := strcpy zeroFile.fileName [97], isOpen := 1 }
      ∧ (∀ y, y ≠ 0 → (openedA L).file y = zeroFile)
      ∧ (openedA L).nextCartID = 0 ∧ (openedA L).nextFrameID = 0 := by
  obtain ⟨hf, hc, hn⟩ := poweredOn_state L (by omega)
  obtain ⟨m, hm⟩ : ∃ m, L.CART_MAX_TOTAL_FILES = m + 1 := ⟨L.CART_MAX_TOTAL_FILES - 1, by omega⟩
  have hloop : cart_open_loop L (poweredOn L).file L.CART_MAX_TOTAL_FILES 0 = .ok (some 0) := by
    rw [hm, cart_open_loop]
    have h0 : ¬ L.CART_MAX_PATH_LENGTH ≤ 0 := by omega
    have hz : ((poweredOn L).file 0).fileName 0 = 0 := by rw [hf 0]; rfl
    simp only [h0, hz, if_true, if_false]
  have hlen : ¬ L.CART_MAX_PATH_LENGTH < strlen [97] + 1 := by
    have : strlen [97] = 1 := by decide
    omega
  have hop : cart_open L [97] (poweredOn L)
      = .ok (0, (poweredOn L).setFile 0
          { (poweredOn L).file 0 with
            fileName := strcpy ((poweredOn L).file 0).fileName [97]
            fileLength := 0, pos := 0, isOpen := 1 }) := by
    unfold cart_open
    simp only [hloop, hlen, if_false]
    rfl
  have hst : openedA L = (poweredOn L).setFile 0
      { (poweredOn L).file 0 with
        fileName := strcpy ((poweredOn L).file 0).fileName [97]
        fileLength := 0, pos := 0, isOpen := 1 } := by
    unfold openedA
    rw [hop]
    rfl
  refine ⟨by rw [hop, hst], ?_, ?_, ?_, ?_⟩
  · rw [hst, setFile_file_same, hf 0]
    rfl
  · intro y hy
    rw [hst, setFile_file_other _ _ _ _ hy, hf y]
  · rw [hst]; exact hc
  · rw [hst]; exact hn

/-- C3, at a concrete input: a read of 5 bytes at the start of the one-byte file returns
1 byte. -/
theorem cart_read_clamps_witness :
    ∃ bytes s1, cart_read demoLimits (0 : Nat) 5 (rewoundA demoLimits) = .ok (1, bytes, s1)
      ∧ bytes.length = 1 ∧ (s1.file 0).pos = 1 := by
  obtain ⟨bytes, s1, e, hlen, hpos, _⟩ :=
    cart_read_clamps demoLimits 0 5 (rewoundA demoLimits) rfl (by decide) (by decide)
      (by decide) (by decide) (by decide) (by decide)
  have hmin : min (5 : Int) (((rewoundA demoLimits).file 0).fileLength
      - ((rewoundA demoLimits).file 0).pos) = 1 := by decide
  have hp : ((rewoundA demoLimits).file 0).pos = 0 := by decide
  rw [hmin] at e hlen hpos
  rw [hp] at hpos
  exact ⟨bytes, s1, e, by exact_mod_cast hlen, by simpa using hpos⟩

/-! ## The bus commands of the transfer loops -/

theorem createOpcode_decode (k a b : Nat) (ha : a < 65536) (hb : b < 65536) (hk : k < 256) :
    createOpcode k 0 0 a b >>> 56 = k ∧ (createOpcode k 0 0 a b >>> 31) % 65536 = a
      ∧ (createOpcode k 0 0 a b >>> 15) % 65536 = b := by
  have e : createOpcode k 0 0 a b = k * 2 ^ 56 + a * 2 ^ 31 + b * 2 ^ 15 := by
    unfold createOpcode
    have h1 : (k <<< 56) % 18446744073709551616 = k * 2 ^ 56 := by
      rw [Nat.shiftLeft_eq]; omega
    have h2 : (a <<< 31) % 18446744073709551616 = a * 2 ^ 31 := by
      rw [Nat.shiftLeft_eq]; omega
    have h3 : (b <<< 15) % 18446744073709551616 = b * 2 ^ 15 := by
      rw [Nat.shiftLeft_eq]; omega
    rw [h1, h2, h3]
    simp only [Nat.zero_shiftLeft, Nat.zero_mod, Nat.or_zero]
    have s1 : k * 2 ^ 56 ||| a * 2 ^ 31 = k * 2 ^ 56 + a * 2 ^ 31 := by
      have := Nat.mul_add_lt_is_or (i := 56) (b := a * 2 ^ 31) (by omega) k
      rw [Nat.mul_comm (2 ^ 56) k] at this
      exact this.symm
    have s2 : (k * 2 ^ 56 + a * 2 ^ 31) ||| b * 2 ^ 15 = k * 2 ^ 56 + a * 2 ^ 31 + b * 2 ^ 15 := by
      have := Nat.mul_add_lt_is_or (i := 31) (b := b * 2 ^ 15) (by omega) (k * 2 ^ 25 + a)
      have e1 : 2 ^ 31 * (k * 2 ^ 25 + a) = k * 2 ^ 56 + a * 2 ^ 31 := by ring
      rw [e1] at this
      exact this.symm
    rw [s1, s2]
  rw [e]
  simp only [Nat.shiftRight_eq_div_pow]
  refine ⟨?_, ?_, ?_⟩ <;> omega

theorem bus_ldcart (c : Nat) (hc : c < 65536) (buf : Nat → Nat) (d : Device) :
    cart_io_bus (createOpcode CART_OP_LDCART 0 0 c 0) buf d = ({ d with loaded := c }, buf) := by
  obtain ⟨h1, h2, _⟩ := createOpcode_decode CART_OP_LDCART c 0 hc (by decide) (by decide)
  unfold cart_io_bus
  simp only [h1, h2, if_true]

theorem bus_rdfrme (f : Nat) (hf : f < 65536) (buf : Nat → Nat) (d : Device) :
    cart_io_bus (createOpcode CART_OP_RDFRME 0 0 0 f) buf d
      = (d, fun i => d.mem d.loaded f i) := by
  obtain ⟨h1, _, h3⟩ := createOpcode_decode CART_OP_RDFRME 0 f (by decide) hf (by decide)
  unfold cart_io_bus
  simp only [h1, h3]
  rw [if_neg (by decide), if_neg (by decide), if_pos trivial]

theorem bus_wrfrme (f : Nat) (hf : f < 65536) (buf : Nat → Nat) (d : Device) :
    cart_io_bus (createOpcode CART_OP_WRFRME 0 0 0 f) buf d
      = ({ d with mem := fun c g i => if c = d.loaded ∧ g = f then buf i else d.mem c g i },
          buf) := by
  obtain ⟨h1, _, h3⟩ := createOpcode_decode CART_OP_WRFRME 0 f (by decide) hf (by decide)
  unfold cart_io_bus
  simp only [h1, h3]
  rw [if_neg (by decide), if_neg (by decide), if_neg (by decide), if_pos trivial]

theorem u64_of_range (i : Int) (h0 : 0 ≤ i) (h1 : i < 65536) :
    u64 i = i.toNat ∧ i.toNat < 65536 := by
  unfold u64
  constructor
  · congr 1; omega
  · omega

theorem io_ldcart (s : State) (c : Nat) (hc : c < 65536) (buf : Nat → Nat) :
    s.io (createOpcode CART_OP_LDCART 0 0 c 0) buf
      = ({ s with dev := { s.dev with loaded := c }
                  bus := s.bus ++ [⟨createOpcode CART_OP_LDCART 0 0 c 0, buf⟩] }, buf) := by
  unfold State.io
  rw [bus_ldcart c hc]

theorem io_rdfrme (s : State) (f : Nat) (hf : f < 65536) (buf : Nat → Nat) :
    s.io (createOpcode CART_OP_RDFRME 0 0 0 f) buf
      = ({ s with bus := s.bus ++ [⟨createOpcode CART_OP_RDFRME 0 0 0 f, buf⟩] },
          fun i => s.dev.mem s.dev.loaded f i) := by
  unfold State.io
  rw [bus_rdfrme f hf]

theorem io_wrfrme (s : State) (f : Nat) (hf : f < 65536) (buf : Nat → Nat) :
    s.io (createOpcode CART_OP_WRFRME 0 0 0 f) buf
      = ({ s with
            dev := { s.dev with
              mem := fun c g i => if c = s.dev.loaded ∧ g = f then buf i else s.dev.mem c g i }
            bus := s.bus ++ [⟨createOpcode CART_OP_WRFRME 0 0 0 f, buf⟩] }, buf) := by
  unfold State.io
  rw [bus_wrfrme f hf]

theorem readRound_device (fd : Nat) (s : State) (remaining : Int)
    (hc : 0 ≤ ((s.file fd).fileFrame ((s.file fd).pos / 1024).toNat).cart_id
      ∧ ((s.file fd).fileFrame ((s.file fd).pos / 1024).toNat).cart_id < 65536)
    (hf : 0 ≤ ((s.file fd).fileFrame ((s.file fd).pos / 1024).toNat).frame_id
      ∧ ((s.file fd).fileFrame ((s.file fd).pos / 1024).toNat).frame_id < 65536) :
    (readRound fd s remaining).dev.mem = s.dev.mem
      ∧ readRoundBytes fd s remaining
          = (List.range (chunkSize (s.file fd).pos remaining).toNat).map
              (fun i => s.dev.mem
                ((s.file fd).fileFrame ((s.file fd).pos / 1024).toNat).cart_id.toNat
                ((s.file fd).fileFrame ((s.file fd).pos / 1024).toNat).frame_id.toNat
                (((s.file fd).pos % 1024).toNat + i)) := by
  obtain ⟨uc, uc1⟩ := u64_of_range _ hc.1 hc.2
  obtain ⟨uf, uf1⟩ := u64_of_range _ hf.1 hf.2
  unfold readRound readRoundBytes
  simp only [uc, uf, io_ldcart _ _ uc1, io_rdfrme _ _ uf1, State.setFile]
  exact ⟨trivial, trivial⟩

theorem writeRound_device (fd : Nat) (s : State) (buf : List Nat) (remaining : Int)
    (hc : 0 ≤ (((allocRound fd s).file fd).fileFrame ((s.file fd).pos / 1024).toNat).cart_id
      ∧ (((allocRound fd s).file fd).fileFrame ((s.file fd).pos / 1024).toNat).cart_id < 65536)
    (hf : 0 ≤ (((allocRound fd s).file fd).fileFrame ((s.file fd).pos / 1024).toNat).frame_id
      ∧ (((allocRound fd s).file fd).fileFrame ((s.file fd).pos / 1024).toNat).frame_id
          < 65536) :
    (writeRound fd s buf remaining).dev.mem
        = (fun c g i =>
            if c = (((allocRound fd s).file fd).fileFrame
                  ((s.file fd).pos / 1024).toNat).cart_id.toNat
                ∧ g = (((allocRound fd s).file fd).fileFrame
                  ((s.file fd).pos / 1024).toNat).frame_id.toNat
            then patchFrame
              (fun i => s.dev.mem
                (((allocRound fd s).file fd).fileFrame
                  ((s.file fd).pos / 1024).toNat).cart_id.toNat
                (((allocRound fd s).file fd).fileFrame
                  ((s.file fd).pos / 1024).toNat).frame_id.toNat i)
              ((s.file fd).pos % 1024) (chunkSize (s.file fd).pos remaining) buf i
            else s.dev.mem c g i)
      ∧ (writeRound fd s buf remaining).bus
        = s.bus ++
          [⟨createOpcode CART_OP_LDCART 0 0 (((allocRound fd s).file fd).fileFrame
              ((s.file fd).pos / 1024).toNat).cart_id.toNat 0, nullBuf⟩,
           ⟨createOpcode CART_OP_RDFRME 0 0 0 (((allocRound fd s).file fd).fileFrame
              ((s.file fd).pos / 1024).toNat).frame_id.toNat, nullBuf⟩,
           ⟨createOpcode CART_OP_WRFRME 0 0 0 (((allocRound fd s).file fd).fileFrame
              ((s.file fd).pos / 1024).toNat).frame_id.toNat,
            patchFrame
              (fun i => s.dev.mem
                (((allocRound fd s).file fd).fileFrame
                  ((s.file fd).pos / 1024).toNat).cart_id.toNat
                (((allocRound fd s).file fd).fileFrame
                  ((s.file fd).pos / 1024).toNat).frame_id.toNat i)
              ((s.file fd).pos % 1024) (chunkSize (s.file fd).pos remaining) buf⟩] := by
  obtain ⟨uc, uc1⟩ := u64_of_range _ hc.1 hc.2
  obtain ⟨uf, uf1⟩ := u64_of_range _ hf.1 hf.2
  obtain ⟨_, _, _, _, a5, a6, _⟩ := allocRound_fields fd s
  unfold writeRound
  simp only [uc, uf, io_ldcart _ _ uc1, io_rdfrme _ _ uf1, io_wrfrme _ _ uf1, State.setFile,
    a5, a6, List.append_assoc, List.singleton_append, List.cons_append, List.nil_append]
  exact ⟨trivial, trivial⟩

/-! ## The transfer loops and the stored bytes -/

theorem map_range_split (f : Int → Nat) (a b : Nat) :
    (List.range (a + b)).map (fun k : Nat => f (k : Int))
      = (List.range a).map (fun k : Nat => f (k : Int))
        ++ (List.range b).map (fun k : Nat => f ((a : Int) + (k : Int))) := by
  rw [List.range_add, List.map_append, List.map_map]
  congr 1

theorem read_loop_content (L : DriverLimits) (fd : Nat) (count : Int)
    (hM : L.CART_MAX_TOTAL_FILES = 1024) :
    ∀ (fuel : Nat) (s : State) (out : List Nat) (remaining : Int),
      0 ≤ remaining → remaining.toNat ≤ fuel →
      0 ≤ (s.file fd).pos → (s.file fd).pos + remaining ≤ 102400 →
      (s.file fd).pos + remaining ≤ (s.file fd).frame_num * 1024 →
      (∀ i : Nat, (i : Int) < (s.file fd).frame_num →
        0 ≤ ((s.file fd).fileFrame i).cart_id ∧ ((s.file fd).fileFrame i).cart_id < 65536
          ∧ 0 ≤ ((s.file fd).fileFrame i).frame_id
          ∧ ((s.file fd).fileFrame i).frame_id < 65536) →
      ∃ s1, cart_read_loop L fd count fuel s out remaining
        = .ok (count,
            out ++ (List.range remaining.toNat).map
              (fun k : Nat => fileByte fd s ((s.file fd).pos + (k : Int))), s1) := by
  intro fuel
  induction fuel with
  | zero =>
    intro s out remaining h0 hfuel _ _ _ _
    have hz : remaining = 0 := by omega
    subst hz
    exact ⟨s, by simp [cart_read_loop]⟩
  | succ fuel ih =>
    intro s out remaining h0 hfuel hp0 hend hin hdec
    by_cases hr : 0 < remaining
    · have hp1 : (s.file fd).pos < 102400 := by omega
      rw [read_step L fd count fuel s out remaining hM hr hp0 hp1]
      obtain ⟨hc0, hc1, hc2⟩ := chunkSize_pos (s.file fd).pos remaining hr
      obtain ⟨w1, _, _, _, w5, w6, _⟩ := readRound_fields fd s remaining hr hp0 hp1
      have hidx : (((s.file fd).pos / 1024).toNat : Int) < (s.file fd).frame_num := by omega
      obtain ⟨d1, d2, d3, d4⟩ := hdec _ hidx
      obtain ⟨hmem, hbytes⟩ := readRound_device fd s remaining ⟨d1, d2⟩ ⟨d3, d4⟩
      have hsame : ∀ q, fileByte fd (readRound fd s remaining) q = fileByte fd s q := by
        intro q
        unfold fileByte
        rw [hmem, w6]
      obtain ⟨s1, e⟩ :=
        ih (readRound fd s remaining) (out ++ readRoundBytes fd s remaining)
          (remaining - chunkSize (s.file fd).pos remaining)
          (by omega) (by omega) (by rw [w1]; omega) (by rw [w1]; omega)
          (by rw [w1, w5]; omega) (by rw [w5, w6]; exact hdec)
      have hsplit : remaining.toNat = (chunkSize (s.file fd).pos remaining).toNat
          + (remaining - chunkSize (s.file fd).pos remaining).toNat := by omega
      have hlist : readRoundBytes fd s remaining
          ++ (List.range (remaining - chunkSize (s.file fd).pos remaining).toNat).map
              (fun k : Nat => fileByte fd (readRound fd s remaining)
                (((readRound fd s remaining).file fd).pos + (k : Int)))
          = (List.range remaining.toNat).map
              (fun k : Nat => fileByte fd s ((s.file fd).pos + (k : Int))) := by
        rw [hsplit, map_range_split (fun q => fileByte fd s ((s.file fd).pos + q)), hbytes]
        refine congrArg₂ (fun a b => a ++ b) ?_ ?_
        · apply List.map_congr_left
          intro k hk
          rw [List.mem_range] at hk
          unfold fileByte
          have e1 : ((s.file fd).pos + (k : Int)) / 1024 = (s.file fd).pos / 1024 := by omega
          have e2 : (((s.file fd).pos + (k : Int)) % 1024).toNat
              = ((s.file fd).pos % 1024).toNat + k := by omega
          rw [e1, e2]
        · apply List.map_congr_left
          intro k _
          rw [hsame, w1]
          congr 1
          rw [Int.toNat_of_nonneg (by omega)]
          ring
      exact ⟨s1, by rw [e, List.append_assoc, hlist]⟩
    · have hz : remaining = 0 := by omega
      subst hz
      exact ⟨s, by simp [cart_read_loop]⟩

theorem allocRound_next (fd : Nat) (s : State) :
    (allocRound fd s).nextCartID
        = (if (s.file fd).pos / 1024 ≥ (s.file fd).frame_num
            then (if s.nextFrameID = 1023 then s.nextCartID + 1 else s.nextCartID)
            else s.nextCartID)
      ∧ (allocRound fd s).nextFrameID
        = (if (s.file fd).pos / 1024 ≥ (s.file fd).frame_num
            then (if s.nextFrameID = 1023 then 0 else s.nextFrameID + 1)
            else s.nextFrameID) := by
  by_cases hc : (s.file fd).pos / 1024 ≥ (s.file fd).frame_num
  · simp [allocRound, hc, State.setFile]
  · simp [allocRound, hc]

theorem writeRound_inv (fd : Nat) (s : State) (buf : List Nat) (remaining : Int)
    (hr : 0 < remaining) (hinv : WriteInv fd s remaining) :
    WriteInv fd (writeRound fd s buf remaining)
        (remaining - chunkSize (s.file fd).pos remaining)
      ∧ ((writeRound fd s buf remaining).file fd).frame_num
          = max (s.file fd).frame_num ((s.file fd).pos / 1024 + 1) := by
  obtain ⟨hn, hfree, ⟨ha0, ha1, ha2, hent, hdist⟩, hp0, hpl, hl1, hend, hroom⟩ := hinv
  have hp1 : (s.file fd).pos < 102400 := by omega
  obtain ⟨hc0, hc1, hc2⟩ := chunkSize_pos (s.file fd).pos remaining hr
  obtain ⟨w1, w2, _, _, w5, w6, w7, w8, _⟩ :=
    writeRound_fields fd s buf remaining hr hp0 hp1 (by omega) hl1
  obtain ⟨f1, f2⟩ := allocRound_frames fd s
  obtain ⟨n1, n2⟩ := allocRound_next fd s
  obtain ⟨hn', hfree'⟩ :=
    writeRound_invariants fd s buf remaining hr hp0 hp1 (by omega) hl1 hn hfree
  obtain ⟨hn0, hn1⟩ := hn
  have hfn : ((writeRound fd s buf remaining).file fd).frame_num
      = max (s.file fd).frame_num ((s.file fd).pos / 1024 + 1) := by
    rw [w5, f1]
    simp only [max_def]
    split_ifs <;> omega
  refine ⟨⟨hn', hfree', ?_, ?_, ?_, ?_, ?_, ?_⟩, hfn⟩
  · -- ExtentOk
    unfold ExtentOk
    rw [w7, w8, n1, n2, w5, w6, f1]
    refine ⟨?_, ?_, ?_, ?_, ?_⟩
    · split_ifs <;> omega
    · split_ifs <;> omega
    · split_ifs <;> omega
    · intro i hi
      rw [f2 i]
      by_cases hc : (s.file fd).pos / 1024 ≥ (s.file fd).frame_num
      · simp only [hc, if_true, true_and] at hi ⊢
        by_cases hidx : i = ((s.file fd).pos / 1024).toNat
        · simp only [hidx, if_true, frame_info.lin]
          refine ⟨ha0, ?_, ha1, ha2, ?_⟩
          · omega
          · split_ifs <;> omega
        · simp only [hidx, if_false]
          obtain ⟨e1, e2, e3, e4, e5⟩ := hent i (by omega)
          refine ⟨e1, e2, e3, e4, ?_⟩
          split_ifs <;> omega
      · simp only [hc, if_false, false_and] at hi ⊢
        exact hent i hi
    · intro i j hi hj hij
      rw [f2 i, f2 j]
      by_cases hc : (s.file fd).pos / 1024 ≥ (s.file fd).frame_num
      · simp only [hc, if_true, true_and] at hi hj ⊢
        by_cases hidx : i = ((s.file fd).pos / 1024).toNat
        · have hjdx : ¬ j = ((s.file fd).pos / 1024).toNat := by omega
          simp only [hidx, hjdx, if_true, if_false, frame_info.lin]
          have := (hent j (by omega)).2.2.2.2
          simp only [frame_info.lin] at this
          omega
        · by_cases hjdx : j = ((s.file fd).pos / 1024).toNat
          · simp only [hidx, hjdx, if_true, if_false, frame_info.lin]
            have := (hent i (by omega)).2.2.2.2
            simp only [frame_info.lin] at this
            omega
          · simp only [hidx, hjdx, if_false]
            exact hdist i j (by omega) (by omega) hij
      · simp only [hc, if_false, false_and] at hi hj ⊢
        exact hdist i j hi hj hij
  · rw [w1]; omega
  · rw [w1, w2]; exact le_max_right _ _
  · rw [w2]; exact max_le hl1 (by omega)
  · rw [w1]; omega
  · rw [w7, w8, n1, n2, w1, w5, f1]
    have e : (s.file fd).pos + chunkSize (s.file fd).pos remaining
        + (remaining - chunkSize (s.file fd).pos remaining) = (s.file fd).pos + remaining := by
      ring
    rw [e]
    split_ifs <;> omega

theorem writeRound_entry (fd : Nat) (s : State) (remaining : Int)
    (hr : 0 < remaining) (hinv : WriteInv fd s remaining) :
    0 ≤ (((allocRound fd s).file fd).fileFrame ((s.file fd).pos / 1024).toNat).cart_id
      ∧ (((allocRound fd s).file fd).fileFrame ((s.file fd).pos / 1024).toNat).cart_id ≤ 63
      ∧ 0 ≤ (((allocRound fd s).file fd).fileFrame ((s.file fd).pos / 1024).toNat).frame_id
      ∧ (((allocRound fd s).file fd).fileFrame ((s.file fd).pos / 1024).toNat).frame_id
          ≤ 1023 := by
  obtain ⟨⟨hn0, hn1⟩, _, ⟨ha0, ha1, ha2, hent, _⟩, hp0, _, _, hend, hroom⟩ := hinv
  obtain ⟨_, f2⟩ := allocRound_frames fd s
  rw [f2]
  by_cases hc : (s.file fd).pos / 1024 ≥ (s.file fd).frame_num
  · simp only [hc, true_and, if_true]
    exact ⟨ha0, by omega, ha1, ha2⟩
  · simp only [hc, false_and, if_false]
    obtain ⟨e1, e2, e3, e4, _⟩ := hent ((s.file fd).pos / 1024).toNat (by omega)
    exact ⟨e1, e2, e3, e4⟩

theorem writeRound_bytes (fd : Nat) (s : State) (buf : List Nat) (remaining : Int)
    (hr : 0 < remaining) (hinv : WriteInv fd s remaining) :
    (∀ q, (s.file fd).pos ≤ q → q < (s.file fd).pos + chunkSize (s.file fd).pos remaining →
        fileByte fd (writeRound fd s buf remaining) q
          = buf.getD (q - (s.file fd).pos).toNat 0)
      ∧ (∀ q, 0 ≤ q → q / 1024 < (s.file fd).frame_num →
          ¬ ((s.file fd).pos ≤ q ∧ q < (s.file fd).pos + chunkSize (s.file fd).pos remaining) →
          fileByte fd (writeRound fd s buf remaining) q = fileByte fd s q) := by
  obtain ⟨E1, E2, E3, E4⟩ := writeRound_entry fd s remaining hr hinv
  obtain ⟨⟨hn0, hn1⟩, _, ⟨ha0, ha1, ha2, hent, hdist⟩, hp0, hpl, hl1, hend, hroom⟩ := hinv
  have hp1 : (s.file fd).pos < 102400 := by omega
  obtain ⟨hc0, hc1, hc2⟩ := chunkSize_pos (s.file fd).pos remaining hr
  obtain ⟨_, _, _, _, _, w6, _⟩ :=
    writeRound_fields fd s buf remaining hr hp0 hp1 (by omega) hl1
  obtain ⟨_, f2⟩ := allocRound_frames fd s
  obtain ⟨hmem, _⟩ := writeRound_device fd s buf remaining ⟨E1, by omega⟩ ⟨E3, by omega⟩
  constructor
  · intro q hq1 hq2
    have e1 : q / 1024 = (s.file fd).pos / 1024 := by omega
    unfold fileByte
    simp only [hmem, w6, e1, and_self, if_true]
    unfold patchFrame
    rw [if_pos (by constructor <;> omega)]
    congr 1
    omega
  · intro q hq0 hqf hout
    unfold fileByte
    simp only [hmem, w6]
    by_cases hj : q / 1024 = (s.file fd).pos / 1024
    · have hnc : ¬ ((s.file fd).pos / 1024 ≥ (s.file fd).frame_num) := by omega
      simp only [hj, and_self, if_true]
      unfold patchFrame
      rw [if_neg (by omega)]
      rw [f2]
      simp only [hnc, false_and, if_false]
    · have hne : ¬ ((q / 1024).toNat = ((s.file fd).pos / 1024).toNat) := by omega
      have hold : ((allocRound fd s).file fd).fileFrame (q / 1024).toNat
          = (s.file fd).fileFrame (q / 1024).toNat := by
        rw [f2]; simp only [hne, and_false, if_false]
      rw [hold]
      obtain ⟨e1, e2, e3, e4, e5⟩ := hent (q / 1024).toNat (by omega)
      have hdiff : ¬ (((s.file fd).fileFrame (q / 1024).toNat).cart_id.toNat
            = (((allocRound fd s).file fd).fileFrame
                ((s.file fd).pos / 1024).toNat).cart_id.toNat
          ∧ ((s.file fd).fileFrame (q / 1024).toNat).frame_id.toNat
            = (((allocRound fd s).file fd).fileFrame
                ((s.file fd).pos / 1024).toNat).frame_id.toNat) := by
        rw [f2]
        by_cases hc : (s.file fd).pos / 1024 ≥ (s.file fd).frame_num
        · simp only [hc, true_and, if_true]
          simp only [frame_info.lin] at e5
          omega
        · simp only [hc, false_and, if_false]
          have hd := hdist (q / 1024).toNat ((s.file fd).pos / 1024).toNat (by omega)
            (by omega) hne
          obtain ⟨g1, g2, g3, g4, _⟩ := hent ((s.file fd).pos / 1024).toNat (by omega)
          simp only [frame_info.lin] at hd
          omega
      rw [if_neg hdiff]

theorem getD_drop (l : List Nat) (n i : Nat) : (l.drop n).getD i 0 = l.getD (n + i) 0 := by
  simp [List.getD_eq_getElem?_getD, List.getElem?_drop]

theorem write_loop_content (L : DriverLimits) (fd : Nat) (count : Int)
    (hM : L.CART_MAX_TOTAL_FILES = 1024) :
    ∀ (fuel : Nat) (s : State) (buf : List Nat) (remaining : Int),
      0 ≤ remaining → remaining.toNat ≤ fuel → remaining ≤ buf.length →
      WriteInv fd s remaining →
      ∃ s1, cart_write_loop L fd count fuel s buf remaining = .ok (count, s1)
        ∧ WriteInv fd s1 0
        ∧ (s1.file fd).pos = (s.file fd).pos + remaining
        ∧ (s1.file fd).frame_num
            = max (s.file fd).frame_num (((s.file fd).pos + remaining + 1023) / 1024)
        ∧ (∀ q, (s.file fd).pos ≤ q → q < (s.file fd).pos + remaining →
            fileByte fd s1 q = buf.getD (q - (s.file fd).pos).toNat 0)
        ∧ (∀ q, 0 ≤ q → q / 1024 < (s.file fd).frame_num →
            ¬ ((s.file fd).pos ≤ q ∧ q < (s.file fd).pos + remaining) →
            fileByte fd s1 q = fileByte fd s q) := by
  intro fuel
  induction fuel with
  | zero =>
    intro s buf remaining h0 hfuel _ hinv
    have hz : remaining = 0 := by omega
    subst hz
    obtain ⟨hn0, hn1⟩ := hinv.1
    refine ⟨s, by simp [cart_write_loop], hinv, by simp, ?_, ?_, fun _ _ _ _ => rfl⟩
    · rw [max_def]; split_ifs <;> omega
    · intro q h1 h2; omega
  | succ fuel ih =>
    intro s buf remaining h0 hfuel hbuf hinv
    by_cases hr : 0 < remaining
    · obtain ⟨hinv', hfn⟩ := writeRound_inv fd s buf remaining hr hinv
      obtain ⟨hb1, hb2⟩ := writeRound_bytes fd s buf remaining hr hinv
      obtain ⟨⟨hn0, hn1⟩, hfree, _, hp0, hpl, hl1, hend, _⟩ := hinv
      have hp1 : (s.file fd).pos < 102400 := by omega
      have hok : ¬ ((s.file fd).pos / 1024 ≥ (s.file fd).frame_num
          ∧ ((s.file fd).fileFrame ((s.file fd).pos / 1024).toNat).cart_id > 63) := by
        intro h
        have := hfree ((s.file fd).pos / 1024).toNat (by omega) (by omega)
        omega
      rw [write_step L fd count fuel s buf remaining hM hr hbuf hp0 hp1 hok]
      obtain ⟨hc0, hc1, hc2⟩ := chunkSize_pos (s.file fd).pos remaining hr
      obtain ⟨w1, _⟩ := writeRound_fields fd s buf remaining hr hp0 hp1 (by omega) hl1
      obtain ⟨s1, e, hinv1, hpos1, hfn1, hin1, hout1⟩ :=
        ih (writeRound fd s buf remaining)
          (buf.drop (chunkSize (s.file fd).pos remaining).toNat)
          (remaining - chunkSize (s.file fd).pos remaining)
          (by omega) (by omega) (by rw [List.length_drop]; omega) hinv'
      rw [w1] at hpos1 hfn1 hin1 hout1
      rw [hfn] at hfn1 hout1
      refine ⟨s1, e, hinv1, ?_, ?_, ?_, ?_⟩
      · rw [hpos1]; ring
      · rw [hfn1]
        have e2 : (s.file fd).pos + chunkSize (s.file fd).pos remaining
            + (remaining - chunkSize (s.file fd).pos remaining) = (s.file fd).pos + remaining := by
          ring
        rw [e2]
        simp only [max_def]
        split_ifs <;> omega
      · intro q hq1 hq2
        by_cases hq : q < (s.file fd).pos + chunkSize (s.file fd).pos remaining
        · rw [hout1 q (by omega) (by rw [max_def]; split_ifs <;> omega) (by omega)]
          exact hb1 q hq1 hq
        · rw [hin1 q (by omega) (by omega), getD_drop]
          congr 1
          omega
      · intro q hq0 hqf hout
        rw [hout1 q hq0 (by rw [max_def]; split_ifs <;> omega) (by omega)]
        exact hb2 q hq0 hqf (by omega)
    · have hz : remaining = 0 := by omega
      subst hz
      obtain ⟨hn0, hn1⟩ := hinv.1
      refine ⟨s, by simp [cart_write_loop], hinv, by simp, ?_, ?_, fun _ _ _ _ => rfl⟩
      · rw [max_def]; split_ifs <;> omega
      · intro q h1 h2; omega

/-! ## Round trips -/

theorem cart_write_eq_loop (L : DriverLimits) (fd : Nat) (buf : List Nat) (count : Int)
    (s : State) (hfd : fd < L.CART_MAX_TOTAL_FILES) (hopen : (s.file fd).isOpen ≠ 0)
    (hcount : 0 ≤ count) :
    cart_write L fd buf count s = cart_write_loop L fd count count.toNat s buf count := by
  have h4 : ¬ ((fd : Int) < 0 ∨ (L.CART_MAX_TOTAL_FILES : Int) ≤ (fd : Int)) := by omega
  have h5 : ¬ ((fd : Int) ≥ (L.CART_MAX_TOTAL_FILES : Int) ∨ (fd : Int) < 0) := by omega
  have hneg : ¬ count < 0 := by omega
  unfold cart_write
  simp only [Int.toNat_ofNat]
  rw [if_neg h4, if_neg hopen, if_neg h5, if_neg hneg]

theorem cart_read_eq_loop (L : DriverLimits) (fd : Nat) (count : Int) (s : State)
    (hfd : fd < L.CART_MAX_TOTAL_FILES) (hopen : (s.file fd).isOpen ≠ 0)
    (hcount : 0 ≤ count) (hc0 : 0 ≤ (s.file fd).pos)
    (hcl : (s.file fd).pos + count ≤ (s.file fd).fileLength)
    (hl : (s.file fd).fileLength ≤ 102400) :
    cart_read L fd count s = cart_read_loop L fd count count.toNat s [] count := by
  have h4 : ¬ ((fd : Int) < 0 ∨ (L.CART_MAX_TOTAL_FILES : Int) ≤ (fd : Int)) := by omega
  have h5 : ¬ ((fd : Int) ≥ (L.CART_MAX_TOTAL_FILES : Int) ∨ (fd : Int) < 0) := by omega
  have hneg : ¬ count < 0 := by omega
  have hinit : i32 (u32 (s.file fd).fileLength - (s.file fd).pos)
      = (s.file fd).fileLength - (s.file fd).pos := by
    rw [u32_of_range _ (by omega) (by omega)]
    exact i32_of_range _ (by omega) (by omega)
  have hclamp : (if count > (s.file fd).fileLength - (s.file fd).pos
      then (s.file fd).fileLength - (s.file fd).pos else count) = count := by
    split_ifs <;> omega
  unfold cart_read
  simp only [Int.toNat_ofNat, hinit, hclamp]
  rw [if_neg h4, if_neg hopen, if_neg h5, if_neg hneg]

theorem cart_seek_ok (L : DriverLimits) (fd : Nat) (loc : Nat) (s : State)
    (hfd : fd < L.CART_MAX_TOTAL_FILES) (hopen : (s.file fd).isOpen ≠ 0)
    (hloc : (loc : Int) ≤ (s.file fd).fileLength) (hl : (s.file fd).fileLength ≤ 102400) :
    cart_seek L fd loc s = .ok (0, s.setFile fd { s.file fd with pos := loc }) := by
  have h1 : ¬ ((fd : Int) < 0 ∨ (L.CART_MAX_TOTAL_FILES : Int) ≤ (fd : Int)) := by omega
  have h2 : ¬ ((fd : Int) > (L.CART_MAX_TOTAL_FILES : Int) ∨ (fd : Int) < 0) := by omega
  have hu : u32 (s.file fd).fileLength = (s.file fd).fileLength :=
    u32_of_range _ (by omega) (by omega)
  have hlo : u32 (loc : Int) = loc := u32_of_range _ (by omega) (by omega)
  have hb : ¬ ((loc : Int) > (s.file fd).fileLength) := by omega
  unfold cart_seek
  simp only [Int.toNat_ofNat, hu, hlo]
  rw [if_neg h1, if_neg hopen, if_neg h2, if_neg hb]

theorem fileByte_setPos (fd : Nat) (s : State) (p : Int) (q : Int) :
    fileByte fd (s.setFile fd { s.file fd with pos := p }) q = fileByte fd s q := by
  unfold fileByte
  simp [State.setFile]

theorem bytes_eq_of_fileByte (B : List Nat) (f : Int → Nat)
    (h : ∀ q : Int, 0 ≤ q → q < B.length → f q = B.getD q.toNat 0) :
    (List.range B.length).map (fun k : Nat => f (0 + (k : Int))) = B := by
  apply List.ext_getElem
  · simp
  · intro i h1 h2
    simp only [List.getElem_map, List.getElem_range]
    rw [zero_add, h i (by omega) (by omega)]
    simp [List.getD_eq_getElem?_getD, h2]

theorem cart_write_full (L : DriverLimits) (fd : Nat) (buf : List Nat) (count : Int)
    (s : State) (hM : L.CART_MAX_TOTAL_FILES = 1024) (hfd : fd < L.CART_MAX_TOTAL_FILES)
    (hopen : (s.file fd).isOpen ≠ 0) (hcount : 0 ≤ count) (hbuf : count ≤ buf.length)
    (hinv : WriteInv fd s count) :
    ∃ s1, cart_write L fd buf count s = .ok (count, s1)
      ∧ WriteInv fd s1 0
      ∧ (s1.file fd).pos = (s.file fd).pos + count
      ∧ (s1.file fd).fileLength = max (s.file fd).fileLength ((s.file fd).pos + count)
      ∧ (s1.file fd).frame_num
          = max (s.file fd).frame_num (((s.file fd).pos + count + 1023) / 1024)
      ∧ (s1.file fd).isOpen = (s.file fd).isOpen
      ∧ (∀ q, (s.file fd).pos ≤ q → q < (s.file fd).pos + count →
          fileByte fd s1 q = buf.getD (q - (s.file fd).pos).toNat 0)
      ∧ (∀ q, 0 ≤ q → q / 1024 < (s.file fd).frame_num →
          ¬ ((s.file fd).pos ≤ q ∧ q < (s.file fd).pos + count) →
          fileByte fd s1 q = fileByte fd s q) := by
  obtain ⟨s1, e, hinv1, hpos, hfn, hin, hout⟩ :=
    write_loop_content L fd count hM count.toNat s buf count hcount (le_refl _) hbuf hinv
  obtain ⟨_, _, _, hp0, hpl, hl1, hend, _⟩ := hinv
  obtain ⟨r, s1', e', hres, _, _, ho, _⟩ :=
    write_loop_numeric L fd count hM count.toNat s buf count hcount (le_refl _) hbuf hp0 hpl
      hend hl1
  rw [e] at e'
  injection e' with e'
  injection e' with er es
  subst es
  subst er
  have hlen : (s1.file fd).fileLength
      = max (s.file fd).fileLength ((s.file fd).pos + count) := by
    rcases hres with h | ⟨_, _, h3⟩
    · omega
    · exact h3
  refine ⟨s1, ?_, hinv1, hpos, hlen, hfn, ho, hin, hout⟩
  rw [cart_write_eq_loop L fd buf count s hfd hopen hcount, e]

theorem cart_read_full (L : DriverLimits) (fd : Nat) (count : Int) (s : State)
    (hM : L.CART_MAX_TOTAL_FILES = 1024) (hfd : fd < L.CART_MAX_TOTAL_FILES)
    (hopen : (s.file fd).isOpen ≠ 0) (hcount : 0 ≤ count) (hc0 : 0 ≤ (s.file fd).pos)
    (hcl : (s.file fd).pos + count ≤ (s.file fd).fileLength)
    (hl : (s.file fd).fileLength ≤ 102400)
    (hin : (s.file fd).pos + count ≤ (s.file fd).frame_num * 1024)
    (hext : ExtentOk fd s) :
    ∃ s1, cart_read L fd count s
      = .ok (count,
          (List.range count.toNat).map
            (fun k : Nat => fileByte fd s ((s.file fd).pos + (k : Int))), s1) := by
  obtain ⟨_, _, _, hent, _⟩ := hext
  obtain ⟨s1, e⟩ := read_loop_content L fd count hM count.toNat s [] count hcount (le_refl _)
    hc0 (by omega) hin
    (by
      intro i hi
      obtain ⟨e1, e2, e3, e4, _⟩ := hent i hi
      exact ⟨e1, by omega, e3, by omega⟩)
  refine ⟨s1, ?_⟩
  rw [cart_read_eq_loop L fd count s hfd hopen hcount hc0 hcl hl, e, List.nil_append]

/-- C1 (write/read round trip). With `CART_MAX_TOTAL_FILES` equal to the frame size, let
record `fd` be open and new (cursor 0, length 0, no frame in its extent map, free cells
of `fileFrame` holding cartridge numbers of at most 63) and let the allocator have ten
frames left. Then for every byte string `B` of at most 10 * 1024 bytes,
`cart_write(fd, B, len B)` returns `len B`, `cart_seek(fd, 0)` returns 0, and
`cart_read(fd, buf, len B)` returns `len B` with `buf` equal to `B`; the extent map then
has `ceil(len B / 1024)` placements, 3 when `len B` is 2500. -/
theorem cart_write_read_roundtrip (L : DriverLimits) (fd : Nat) (B : List Nat) (s : State)
    (hM : L.CART_MAX_TOTAL_FILES = 1024) (hfd : fd < L.CART_MAX_TOTAL_FILES)
    (hB : B.length ≤ 10 * 1024)
    (hopen : (s.file fd).isOpen ≠ 0) (hpos : (s.file fd).pos = 0)
    (hlen : (s.file fd).fileLength = 0) (hnum : (s.file fd).frame_num = 0)
    (hfree : FreeCellsOk fd s)
    (halloc : 0 ≤ s.nextCartID ∧ 0 ≤ s.nextFrameID ∧ s.nextFrameID ≤ 1023
      ∧ s.nextCartID * 1024 + s.nextFrameID + 10 ≤ 65536) :
    ∃ s1 s2 s3,
      cart_write L fd B B.length s = .ok (B.length, s1)
        ∧ cart_seek L fd 0 s1 = .ok (0, s2)
        ∧ cart_read L fd B.length s2 = .ok (B.length, B, s3)
        ∧ (s1.file fd).frame_num = ((B.length : Int) + 1023) / 1024
        ∧ (B.length = 2500 → (s1.file fd).frame_num = 3) := by
  obtain ⟨a0, a1, a2, a3⟩ := halloc
  have hinv : WriteInv fd s B.length := by
    refine ⟨⟨by omega, by omega⟩, hfree, ⟨a0, a1, a2, ?_, ?_⟩, by omega, by omega, by omega,
      by omega, by omega⟩
    · intro i hi; omega
    · intro i j hi; omega
  obtain ⟨s1, ew, hinv1, hpos1, hlen1, hfn1, hopen1, hin1, _⟩ :=
    cart_write_full L fd B B.length s hM hfd hopen (by omega) (le_refl _) hinv
  rw [hpos] at hpos1 hlen1 hfn1 hin1
  rw [hlen] at hlen1
  rw [hnum] at hfn1
  have hlen1' : (s1.file fd).fileLength = B.length := by
    rw [hlen1, max_def]; split_ifs <;> omega
  have hfn1' : (s1.file fd).frame_num = ((B.length : Int) + 1023) / 1024 := by
    rw [hfn1, max_def]; split_ifs <;> omega
  have hopen1' : (s1.file fd).isOpen ≠ 0 := by rw [hopen1]; exact hopen
  have es := cart_seek_ok L fd 0 s1 hfd hopen1' (by rw [hlen1']; omega) (by omega)
  obtain ⟨_, _, hext1, _⟩ := hinv1
  have hext2 : ExtentOk fd (s1.setFile fd { s1.file fd with pos := ((0 : Nat) : Int) }) := by
    unfold ExtentOk at hext1 ⊢
    simpa [State.setFile] using hext1
  obtain ⟨s3, er⟩ := cart_read_full L fd B.length
    (s1.setFile fd { s1.file fd with pos := ((0 : Nat) : Int) }) hM hfd
    (by simpa [State.setFile] using hopen1') (by omega) (by simp [State.setFile])
    (by simp [State.setFile, hlen1'])
    (by simp only [State.setFile, if_true, hlen1']; omega)
    (by simp only [State.setFile, if_true, hfn1']; push_cast; omega) hext2
  refine ⟨s1, _, s3, ew, es, ?_, hfn1', ?_⟩
  · have hp2 : ((s1.setFile fd { s1.file fd with pos := ((0 : Nat) : Int) }).file fd).pos = 0 := by
      simp [State.setFile]
    have hb : (List.range ((B.length : Int)).toNat).map
        (fun k : Nat => fileByte fd (s1.setFile fd { s1.file fd with pos := ((0 : Nat) : Int) })
          (((s1.setFile fd { s1.file fd with pos := ((0 : Nat) : Int) }).file fd).pos
            + (k : Int))) = B := by
      rw [hp2, Int.toNat_ofNat]
      apply bytes_eq_of_fileByte B
        (fun q => fileByte fd (s1.setFile fd { s1.file fd with pos := ((0 : Nat) : Int) }) q)
      intro q hq0 hq1
      rw [fileByte_setPos, hin1 q (by omega) (by omega), sub_zero]
    rw [er, hb]
  · intro h
    rw [hfn1', h]
    norm_num

/-- C1, at a concrete input: 2500 bytes of value 0xAA written to the new file "a" after
power-on, then read back; the extent map has 3 placements. -/
theorem cart_write_read_roundtrip_witness :
    ∃ s1 s2 s3,
      cart_write demoLimits (0 : Nat) (List.replicate 2500 170) 2500 (openedA demoLimits)
          = .ok (2500, s1)
        ∧ cart_seek demoLimits (0 : Nat) 0 s1 = .ok (0, s2)
        ∧ cart_read demoLimits (0 : Nat) 2500 s2 = .ok (2500, List.replicate 2500 170, s3)
        ∧ (s1.file 0).frame_num = 3 := by
  have hf0 := (openedA_state demoLimits (by decide) (by decide)).2.1
  obtain ⟨s1, s2, s3, h1, h2, h3, _, h5⟩ :=
    cart_write_read_roundtrip demoLimits 0 (List.replicate 2500 170) (openedA demoLimits) rfl
      (by decide) (by rw [List.length_replicate]; omega) (by decide) (by decide) (by decide) (by decide)
      (by intro i _ _; rw [hf0]; simp [zeroFile]) (by decide)
  simp only [List.length_replicate, Nat.cast_ofNat] at h1 h3 h5
  exact ⟨s1, s2, s3, h1, h2, h3, h5 trivial⟩

theorem WriteInv_setPos (fd : Nat) (s : State) (p remaining : Int)
    (hinv : WriteInv fd s 0) (hp0 : 0 ≤ p) (hpl : p + remaining ≤ (s.file fd).fileLength)
    (hr : 0 ≤ remaining)
    (hin : (p + remaining + 1023) / 1024 ≤ ((s.file fd).pos + 1023) / 1024) :
    WriteInv fd (s.setFile fd { s.file fd with pos := p }) remaining := by
  obtain ⟨⟨hn0, hn1⟩, hfree, hext, h0, h1, h2, h3, h4⟩ := hinv
  unfold WriteInv NoHole FreeCellsOk ExtentOk at *
  simp only [State.setFile, if_true]
  refine ⟨⟨hn0, by omega⟩, hfree, hext, hp0, by omega, h2, by omega, ?_⟩
  obtain ⟨e0, e1, e2, _, _⟩ := hext
  omega

theorem getD_set (P : List Nat) (k q : Nat) (v : Nat) (hk : k < P.length) :
    (P.set k v).getD q 0 = if q = k then v else P.getD q 0 := by
  simp only [List.getD_eq_getElem?_getD, List.getElem?_set]
  by_cases h : k = q
  · subst h; simp [hk]
  · have h' : ¬ q = k := fun e => h e.symm
    simp [h, h']

theorem write_loop_zero (L : DriverLimits) (fd : Nat) (count : Int) (fuel : Nat) (s : State)
    (buf : List Nat) : cart_write_loop L fd count fuel s buf 0 = .ok (count, s) := by
  cases fuel <;> simp [cart_write_loop]

theorem cart_write_one_round (L : DriverLimits) (fd : Nat) (buf : List Nat) (count : Int)
    (s : State) (hM : L.CART_MAX_TOTAL_FILES = 1024) (hfd : fd < L.CART_MAX_TOTAL_FILES)
    (hopen : (s.file fd).isOpen ≠ 0) (hc : 0 < count)
    (hfit : count ≤ 1024 - (s.file fd).pos % 1024) (hbuf : count ≤ buf.length)
    (hinv : WriteInv fd s count) :
    cart_write L fd buf count s = .ok (count, writeRound fd s buf count) := by
  obtain ⟨_, hfree, _, hp0, _, _, hend, _⟩ := hinv
  have hp1 : (s.file fd).pos < 102400 := by omega
  have hok : ¬ ((s.file fd).pos / 1024 ≥ (s.file fd).frame_num
      ∧ ((s.file fd).fileFrame ((s.file fd).pos / 1024).toNat).cart_id > 63) := by
    intro h
    have := hfree ((s.file fd).pos / 1024).toNat (by omega) (by omega)
    omega
  obtain ⟨n, hn⟩ : ∃ n, count.toNat = n + 1 := ⟨count.toNat - 1, by omega⟩
  have hcs : chunkSize (s.file fd).pos count = count := by
    unfold chunkSize CART_FRAME_SIZE; split_ifs <;> omega
  rw [cart_write_eq_loop L fd buf count s hfd hopen (by omega), hn,
    write_step L fd count n s buf count hM hc hbuf hp0 hp1 hok, hcs, sub_self, write_loop_zero]

/-- C2 (partial-frame preservation). With `CART_MAX_TOTAL_FILES` equal to the frame size,
let record `fd` be open with its cursor at 0 in a state where `cart_write` can store
1024 bytes (`WriteInv`). Writing the 1024-byte pattern `P`, seeking to `k` with
`0 < k < 1024`, writing the single byte `v`, seeking to 0 and reading 1024 bytes returns
`P` with byte `k` replaced by `v`. The one-byte write makes exactly three bus calls:
LDCART for the cartridge of the file's first placement, RDFRME for its frame, and WRFRME
for the same frame, whose buffer holds the patched frame. -/
theorem cart_write_partial_frame (L : DriverLimits) (fd : Nat) (P : List Nat) (k v : Nat)
    (s : State) (hM : L.CART_MAX_TOTAL_FILES = 1024) (hfd : fd < L.CART_MAX_TOTAL_FILES)
    (hP : P.length = 1024) (hk0 : 0 < k) (hk1 : k < 1024)
    (hopen : (s.file fd).isOpen ≠ 0) (hpos : (s.file fd).pos = 0)
    (hinv : WriteInv fd s 1024) :
    ∃ s1 s2 s3 s4 s5 payload,
      cart_write L fd P 1024 s = .ok (1024, s1)
        ∧ cart_seek L fd k s1 = .ok (0, s2)
        ∧ cart_write L fd [v] 1 s2 = .ok (1, s3)
        ∧ cart_seek L fd 0 s3 = .ok (0, s4)
        ∧ cart_read L fd 1024 s4 = .ok (1024, P.set k v, s5)
        ∧ s3.bus = s2.bus ++
            [⟨createOpcode CART_OP_LDCART 0 0 ((s1.file fd).fileFrame 0).cart_id.toNat 0,
                nullBuf⟩,
             ⟨createOpcode CART_OP_RDFRME 0 0 0 ((s1.file fd).fileFrame 0).frame_id.toNat,
                nullBuf⟩,
             ⟨createOpcode CART_OP_WRFRME 0 0 0 ((s1.file fd).fileFrame 0).frame_id.toNat,
                payload⟩]
        ∧ ∀ i, i < 1024 → payload i = (P.set k v).getD i 0 := by
  -- the first write
  obtain ⟨s1, ew1, hinv1, hpos1, hlen1, hfn1, hopen1, hin1, _⟩ :=
    cart_write_full L fd P 1024 s hM hfd hopen (by omega) (by omega) hinv
  rw [hpos] at hpos1 hlen1 hfn1 hin1
  have hl1 : (s1.file fd).fileLength ≤ 102400 := hinv1.2.2.2.2.2.1
  have hlen1' : 1024 ≤ (s1.file fd).fileLength := by
    rw [hlen1]; exact le_max_right _ _
  have hfn1' : 1 ≤ (s1.file fd).frame_num := by
    rw [hfn1]; exact le_max_right _ _
  have hopen1' : (s1.file fd).isOpen ≠ 0 := by rw [hopen1]; exact hopen
  -- seek to k
  have es2 := cart_seek_ok L fd k s1 hfd hopen1' (by omega) hl1
  have hinv2 : WriteInv fd (s1.setFile fd { s1.file fd with pos := (k : Int) }) 1 :=
    WriteInv_setPos fd s1 k 1 hinv1 (by omega) (by omega) (by omega) (by rw [hpos1]; omega)
  have hopen2 : ((s1.setFile fd { s1.file fd with pos := (k : Int) }).file fd).isOpen ≠ 0 := by
    simpa [State.setFile] using hopen1'
  have hpos2 : ((s1.setFile fd { s1.file fd with pos := (k : Int) }).file fd).pos = k := by
    simp [State.setFile]
  have hlen2 : ((s1.setFile fd { s1.file fd with pos := (k : Int) }).file fd).fileLength
      = (s1.file fd).fileLength := by simp [State.setFile]
  have hfn2 : ((s1.setFile fd { s1.file fd with pos := (k : Int) }).file fd).frame_num
      = (s1.file fd).frame_num := by simp [State.setFile]
  have hff2 : ((s1.setFile fd { s1.file fd with pos := (k : Int) }).file fd).fileFrame
      = (s1.file fd).fileFrame := by simp [State.setFile]
  -- the one-byte write
  obtain ⟨s3, ew3, hinv3, hpos3, hlen3, hfn3, hopen3, hin3, hout3⟩ :=
    cart_write_full L fd [v] 1 _ hM hfd hopen2 (by omega) (by simp) hinv2
  rw [hpos2] at hpos3 hlen3 hfn3 hin3 hout3
  rw [hlen2] at hlen3
  rw [hfn2] at hfn3 hout3
  have ew3' := cart_write_one_round L fd [v] 1 _ hM hfd hopen2 (by omega)
    (by rw [hpos2]; omega) (by simp) hinv2
  rw [ew3] at ew3'
  injection ew3' with ew3'
  injection ew3' with _ hs3
  have hl3 : (s3.file fd).fileLength ≤ 102400 := hinv3.2.2.2.2.2.1
  have hlen3' : 1024 ≤ (s3.file fd).fileLength := by
    rw [hlen3]; exact le_trans hlen1' (le_max_left _ _)
  have hfn3' : 1 ≤ (s3.file fd).frame_num := by
    rw [hfn3]; exact le_trans hfn1' (le_max_left _ _)
  have hopen3' : (s3.file fd).isOpen ≠ 0 := by rw [hopen3]; exact hopen2
  -- the bytes of the first frame after the one-byte write
  have hbytes : ∀ q : Int, 0 ≤ q → q < 1024 → fileByte fd s3 q = (P.set k v).getD q.toNat 0 := by
    intro q hq0 hq1
    rw [getD_set P k q.toNat v (by omega)]
    by_cases hqk : q = k
    · rw [hin3 q (by omega) (by omega), if_pos (by omega)]
      have : (q - (k : Int)).toNat = 0 := by omega
      rw [this]; rfl
    · rw [hout3 q hq0 (by omega) (by omega), fileByte_setPos, hin1 q hq0 (by omega),
        if_neg (by omega), sub_zero]
  -- seek to 0 and read
  have es4 := cart_seek_ok L fd 0 s3 hfd hopen3' (by omega) hl3
  have hext4 : ExtentOk fd (s3.setFile fd { s3.file fd with pos := ((0 : Nat) : Int) }) := by
    have hext3 := hinv3.2.2.1
    unfold ExtentOk at hext3 ⊢
    simpa [State.setFile] using hext3
  obtain ⟨s5, er⟩ := cart_read_full L fd 1024
    (s3.setFile fd { s3.file fd with pos := ((0 : Nat) : Int) }) hM hfd
    (by simpa [State.setFile] using hopen3') (by omega) (by simp [State.setFile])
    (by simp only [State.setFile, if_true]; push_cast; omega)
    (by simp only [State.setFile, if_true]; omega)
    (by simp only [State.setFile, if_true]; push_cast; omega) hext4
  have hp4 : ((s3.setFile fd { s3.file fd with pos := ((0 : Nat) : Int) }).file fd).pos = 0 := by
    simp [State.setFile]
  have hb : (List.range ((1024 : Int)).toNat).map
      (fun j : Nat => fileByte fd (s3.setFile fd { s3.file fd with pos := ((0 : Nat) : Int) })
        (((s3.setFile fd { s3.file fd with pos := ((0 : Nat) : Int) }).file fd).pos
          + (j : Int))) = P.set k v := by
    rw [hp4]
    have hl : (P.set k v).length = 1024 := by rw [List.length_set, hP]
    have h1024 : ((1024 : Int)).toNat = (P.set k v).length := by rw [hl]; rfl
    rw [h1024]
    apply bytes_eq_of_fileByte (P.set k v)
      (fun q => fileByte fd (s3.setFile fd { s3.file fd with pos := ((0 : Nat) : Int) }) q)
    intro q hq0 hq1
    rw [hl] at hq1
    rw [fileByte_setPos]
    exact hbytes q hq0 (by exact_mod_cast hq1)
  -- the bus calls of the one-byte write
  obtain ⟨E1, E2, E3, E4⟩ := writeRound_entry fd _ 1 (by omega) hinv2
  obtain ⟨hmem, hbus⟩ := writeRound_device fd _ [v] 1 ⟨E1, by omega⟩ ⟨E3, by omega⟩
  obtain ⟨_, f2⟩ := allocRound_frames fd (s1.setFile fd { s1.file fd with pos := (k : Int) })
  have hidx : ((k : Int) / 1024).toNat = 0 := by omega
  have hnc : ¬ ((k : Int) / 1024 ≥ (s1.file fd).frame_num) := by omega
  have hentry : ((allocRound fd (s1.setFile fd { s1.file fd with pos := (k : Int) })).file
      fd).fileFrame 0 = (s1.file fd).fileFrame 0 := by
    rw [f2, hpos2, hfn2, hff2]
    simp only [hnc, false_and, if_false]
  rw [hpos2, hidx, hentry] at hbus hmem
  rw [← hs3] at hbus hmem
  refine ⟨s1, _, s3, _, s5, _, ew1, es2, ew3, es4, ?_, hbus, ?_⟩
  · rw [er, hb]
  · intro i hi
    have hq := hbytes i (by omega) (by omega)
    rw [Int.toNat_ofNat] at hq
    rw [← hq]
    unfold fileByte
    have hff3 : (s3.file fd).fileFrame 0 = (s1.file fd).fileFrame 0 := by
      rw [hs3]
      obtain ⟨_, _, _, _, _, w6, _⟩ := writeRound_fields fd
        (s1.setFile fd { s1.file fd with pos := (k : Int) }) [v] 1 (by omega)
        (by rw [hpos2]; omega) (by rw [hpos2]; omega) (by rw [hlen2]; omega)
        (by rw [hlen2]; exact hl1)
      rw [w6, hentry]
    have hi0 : ((i : Int) / 1024).toNat = 0 := by omega
    have hi1 : ((i : Int) % 1024).toNat = i := by omega
    rw [hi0, hi1, hff3, hmem]
    simp only [and_self, if_true]

theorem WriteInv_fresh (fd : Nat) (s : State) (n : Int) (hn0 : 0 ≤ n) (hn1 : n ≤ 10240)
    (hpos : (s.file fd).pos = 0) (hlen : (s.file fd).fileLength = 0)
    (hnum : (s.file fd).frame_num = 0) (hfree : FreeCellsOk fd s)
    (halloc : 0 ≤ s.nextCartID ∧ 0 ≤ s.nextFrameID ∧ s.nextFrameID ≤ 1023
      ∧ s.nextCartID * 1024 + s.nextFrameID + 10 ≤ 65536) :
    WriteInv fd s n := by
  obtain ⟨a0, a1, a2, a3⟩ := halloc
  refine ⟨⟨by omega, by omega⟩, hfree, ⟨a0, a1, a2, ?_, ?_⟩, by omega, by omega, by omega,
    by omega, by omega⟩
  · intro i hi; omega
  · intro i j hi; omega

/-- C2, at a concrete input: in the new file "a" after power-on, a frame of 1024 bytes of
value 7 in which byte 5 is then overwritten by 9. -/
theorem cart_write_partial_frame_witness :
    ∃ s1 s2 s3 s4 s5,
      cart_write demoLimits (0 : Nat) (List.replicate 1024 7) 1024 (openedA demoLimits)
          = .ok (1024, s1)
        ∧ cart_seek demoLimits (0 : Nat) 5 s1 = .ok (0, s2)
        ∧ cart_write demoLimits (0 : Nat) [9] 1 s2 = .ok (1, s3)
        ∧ cart_seek demoLimits (0 : Nat) 0 s3 = .ok (0, s4)
        ∧ cart_read demoLimits (0 : Nat) 1024 s4
            = .ok (1024, (List.replicate 1024 7).set 5 9, s5)
        ∧ s3.bus.length = s2.bus.length + 3 := by
  have hf0 := (openedA_state demoLimits (by decide) (by decide)).2.1
  obtain ⟨s1, s2, s3, s4, s5, payload, h1, h2, h3, h4, h5, h6, _⟩ :=
    cart_write_partial_frame demoLimits 0 (List.replicate 1024 7) 5 9 (openedA demoLimits) rfl
      (by decide) (by rw [List.length_replicate]) (by decide) (by decide) (by decide)
      (by decide)
      (WriteInv_fresh 0 (openedA demoLimits) 1024 (by decide) (by decide) (by decide)
        (by decide) (by decide) (by intro i _ _; rw [hf0]; simp [zeroFile]) (by decide))
  exact ⟨s1, s2, s3, s4, s5, h1, h2, h3, h4, h5, by rw [h6]; simp⟩

/-! ## Sequences of calls -/

theorem write_step_oob (L : DriverLimits) (fd : Nat) (count : Int) (fuel : Nat) (s : State)
    (buf : List Nat) (remaining : Int)
    (hM : L.CART_MAX_TOTAL_FILES = 1024) (hr : 0 < remaining)
    (hp : (s.file fd).pos = 102400) :
    cart_write_loop L fd count (fuel + 1) s buf remaining = .error .outOfBounds := by
  have hidx : i32 ((s.file fd).pos / 1024) = 100 := by
    rw [hp]; decide
  rw [cart_write_loop]
  simp only [hM, hr, if_true, Nat.cast_ofNat, hidx]
  rw [if_neg (by decide), if_pos (by unfold FILE_FRAMES; omega)]

theorem write_loop_within (L : DriverLimits) (fd : Nat) (count : Int)
    (hM : L.CART_MAX_TOTAL_FILES = 1024) :
    ∀ (fuel : Nat) (s : State) (buf : List Nat) (remaining : Int),
      0 ≤ remaining → remaining ≤ buf.length →
      0 ≤ (s.file fd).pos → (s.file fd).pos ≤ (s.file fd).fileLength →
      (s.file fd).fileLength ≤ 102400 →
      ∀ r s1, cart_write_loop L fd count fuel s buf remaining = .ok (r, s1) →
        r = -1 ∨ (s.file fd).pos + remaining ≤ 102400 := by
  intro fuel
  induction fuel with
  | zero =>
    intro s buf remaining h0 _ _ hpl hl r s1 e
    by_cases hr : 0 < remaining
    · simp [cart_write_loop, hr] at e
    · right; omega
  | succ fuel ih =>
    intro s buf remaining h0 hbuf hp0 hpl hl r s1 e
    by_cases hr : 0 < remaining
    · by_cases hp : (s.file fd).pos = 102400
      · rw [write_step_oob L fd count fuel s buf remaining hM hr hp] at e
        cases e
      · have hp1 : (s.file fd).pos < 102400 := by omega
        by_cases hstop : (s.file fd).pos / 1024 ≥ (s.file fd).frame_num
            ∧ ((s.file fd).fileFrame ((s.file fd).pos / 1024).toNat).cart_id > 63
        · rw [write_step_stop L fd count fuel s buf remaining hM hr hp0 hp1 hstop] at e
          injection e with e
          injection e with e1 _
          exact Or.inl e1.symm
        · rw [write_step L fd count fuel s buf remaining hM hr hbuf hp0 hp1 hstop] at e
          obtain ⟨hc0, hc1, hc2⟩ := chunkSize_pos (s.file fd).pos remaining hr
          obtain ⟨w1, w2, _⟩ := writeRound_fields fd s buf remaining hr hp0 hp1 (by omega) hl
          rcases ih (writeRound fd s buf remaining)
            (buf.drop (chunkSize (s.file fd).pos remaining).toNat)
            (remaining - chunkSize (s.file fd).pos remaining)
            (by omega) (by rw [List.length_drop]; omega)
            (by rw [w1]; omega) (by rw [w1, w2]; exact le_max_right _ _)
            (by rw [w2]; exact max_le hl (by omega)) r s1 e with h | h
          · exact Or.inl h
          · right; rw [w1] at h; omega
    · right; omega

theorem cart_write_returns (L : DriverLimits) (fd : Nat) (buf : List Nat) (s : State)
    (hM : L.CART_MAX_TOTAL_FILES = 1024) (hfd : fd < L.CART_MAX_TOTAL_FILES)
    (hc0 : 0 ≤ (s.file fd).pos) (hcl : (s.file fd).pos ≤ (s.file fd).fileLength)
    (hl : (s.file fd).fileLength ≤ 102400) (s1 : State)
    (e : cart_write L fd buf buf.length s = .ok ((buf.length : Int), s1)) :
    (s1.file fd).pos = (s.file fd).pos + buf.length
      ∧ (s1.file fd).fileLength = max (s.file fd).fileLength (s1.file fd).pos
      ∧ (s1.file fd).fileLength ≤ 102400 := by
  have hopen : (s.file fd).isOpen ≠ 0 := by
    intro h
    have h4 : ¬ ((fd : Int) < 0 ∨ (L.CART_MAX_TOTAL_FILES : Int) ≤ (fd : Int)) := by omega
    unfold cart_write at e
    simp only [Int.toNat_ofNat] at e
    rw [if_neg h4, if_pos h] at e
    injection e with e
    injection e with e1 _
    omega
  rw [cart_write_eq_loop L fd buf buf.length s hfd hopen (by omega)] at e
  have hend : (s.file fd).pos + (buf.length : Int) ≤ 102400 := by
    rcases write_loop_within L fd buf.length hM _ s buf buf.length (by omega) (le_refl _) hc0
      hcl hl _ s1 e with h | h
    · omega
    · exact h
  obtain ⟨r, s1', e', hres, _⟩ :=
    write_loop_numeric L fd buf.length hM (buf.length : Int).toNat s buf buf.length (by omega)
      (le_refl _) (le_refl _) hc0 hcl hend hl
  rw [e] at e'
  injection e' with e'
  injection e' with er es
  subst es
  rcases hres with h | ⟨_, h2, h3⟩
  · omega
  · refine ⟨h2, by rw [h3, h2], ?_⟩
    rw [h3]; exact max_le hl hend

theorem cart_seek_returns (L : DriverLimits) (fd : Nat) (loc : Nat) (s : State)
    (hfd : fd < L.CART_MAX_TOTAL_FILES)
    (hc0 : 0 ≤ (s.file fd).pos) (hcl : (s.file fd).pos ≤ (s.file fd).fileLength)
    (hl : (s.file fd).fileLength ≤ 102400) (r : Int) (s1 : State)
    (e : cart_seek L fd loc s = .ok (r, s1)) :
    0 ≤ (s1.file fd).pos ∧ (s1.file fd).pos ≤ (s1.file fd).fileLength
      ∧ (s1.file fd).fileLength = (s.file fd).fileLength := by
  have h1 : ¬ ((fd : Int) < 0 ∨ (L.CART_MAX_TOTAL_FILES : Int) ≤ (fd : Int)) := by omega
  have h2 : ¬ ((fd : Int) > (L.CART_MAX_TOTAL_FILES : Int) ∨ (fd : Int) < 0) := by omega
  have hu : u32 (s.file fd).fileLength = (s.file fd).fileLength :=
    u32_of_range _ (by omega) (by omega)
  unfold cart_seek at e
  simp only [Int.toNat_ofNat, hu] at e
  rw [if_neg h1] at e
  by_cases ho : (s.file fd).isOpen = 0
  · rw [if_pos ho] at e
    injection e with e; injection e with _ es
    subst es
    exact ⟨hc0, hcl, rfl⟩
  · rw [if_neg ho, if_neg h2] at e
    by_cases hb : u32 (loc : Int) > (s.file fd).fileLength
    · rw [if_pos hb] at e
      injection e with e; injection e with _ es
      subst es
      exact ⟨hc0, hcl, rfl⟩
    · rw [if_neg hb] at e
      injection e with e; injection e with _ es
      subst es
      have hu0 : 0 ≤ u32 (loc : Int) := by unfold u32; omega
      simp only [State.setFile, if_true]
      exact ⟨hu0, by omega, trivial⟩

theorem cart_read_returns (L : DriverLimits) (fd : Nat) (count : Int) (s : State)
    (hM : L.CART_MAX_TOTAL_FILES = 1024) (hfd : fd < L.CART_MAX_TOTAL_FILES)
    (hc0 : 0 ≤ (s.file fd).pos) (hcl : (s.file fd).pos ≤ (s.file fd).fileLength)
    (hl : (s.file fd).fileLength ≤ 102400) (r : Int) (bytes : List Nat) (s1 : State)
    (e : cart_read L fd count s = .ok (r, bytes, s1)) :
    0 ≤ (s1.file fd).pos ∧ (s1.file fd).pos ≤ (s1.file fd).fileLength
      ∧ (s1.file fd).fileLength = (s.file fd).fileLength := by
  have h4 : ¬ ((fd : Int) < 0 ∨ (L.CART_MAX_TOTAL_FILES : Int) ≤ (fd : Int)) := by omega
  have h5 : ¬ ((fd : Int) ≥ (L.CART_MAX_TOTAL_FILES : Int) ∨ (fd : Int) < 0) := by omega
  have hinit : i32 (u32 (s.file fd).fileLength - (s.file fd).pos)
      = (s.file fd).fileLength - (s.file fd).pos := by
    rw [u32_of_range _ (by omega) (by omega)]
    exact i32_of_range _ (by omega) (by omega)
  unfold cart_read at e
  simp only [Int.toNat_ofNat, hinit] at e
  rw [if_neg h4] at e
  by_cases ho : (s.file fd).isOpen = 0
  · rw [if_pos ho] at e
    injection e with e; injection e with _ e; injection e with _ es
    subst es
    exact ⟨hc0, hcl, rfl⟩
  · rw [if_neg ho, if_neg h5] at e
    by_cases hn : count < 0
    · rw [if_pos hn] at e
      injection e with e; injection e with _ e; injection e with _ es
      subst es
      exact ⟨hc0, hcl, rfl⟩
    · rw [if_neg hn] at e
      have hm0 : 0 ≤ (if count > (s.file fd).fileLength - (s.file fd).pos
          then (s.file fd).fileLength - (s.file fd).pos else count) := by
        split_ifs <;> omega
      have hm1 : (if count > (s.file fd).fileLength - (s.file fd).pos
          then (s.file fd).fileLength - (s.file fd).pos else count)
          ≤ (s.file fd).fileLength - (s.file fd).pos := by
        split_ifs <;> omega
      obtain ⟨bytes', s1', e', _, hpos, hlen, _⟩ :=
        read_loop_numeric L fd _ hM _ s [] _ hm0 (le_refl _) hc0 (by omega)
      rw [e'] at e
      injection e with e; injection e with _ e; injection e with _ es
      subst es
      rw [hpos, hlen]
      exact ⟨by omega, by omega, rfl⟩

theorem runOps_length (L : DriverLimits) (fd : Nat) (L0 : Int)
    (hM : L.CART_MAX_TOTAL_FILES = 1024) (hfd : fd < L.CART_MAX_TOTAL_FILES) :
    ∀ (ops : List FileOp) (s : State) (m : Int) (s1 : State) (m1 : Int),
      0 ≤ (s.file fd).pos → (s.file fd).pos ≤ (s.file fd).fileLength →
      (s.file fd).fileLength ≤ 102400 → (s.file fd).fileLength = max L0 m →
      runOps L fd ops (s, m) = some (s1, m1) →
      (s1.file fd).fileLength = max L0 m1 ∧ m ≤ m1 := by
  intro ops
  induction ops with
  | nil =>
    intro s m s1 m1 _ _ _ hlen e
    simp only [runOps, Option.some.injEq, Prod.mk.injEq] at e
    obtain ⟨e1, e2⟩ := e
    subst e1; subst e2
    exact ⟨hlen, le_refl _⟩
  | cons op ops ih =>
    intro s m s1 m1 hc0 hcl hl hlen e
    cases op with
    | write buf =>
      unfold runOps at e
      cases hw : cart_write L fd buf buf.length s with
      | error err => simp [hw] at e
      | ok res =>
        obtain ⟨r, s2⟩ := res
        simp only [hw] at e
        by_cases hr : r = buf.length
        · rw [if_pos hr] at e
          subst hr
          obtain ⟨hp2, hl2, hb2⟩ := cart_write_returns L fd buf s hM hfd hc0 hcl hl s2 hw
          obtain ⟨g1, g2⟩ := ih s2 (max m (s2.file fd).pos) s1 m1 (by omega)
            (by rw [hl2]; exact le_max_right _ _) hb2
            (by rw [hl2, hlen, max_assoc]) e
          exact ⟨g1, le_trans (le_max_left _ _) g2⟩
        · rw [if_neg hr] at e
          cases e
    | seek loc =>
      unfold runOps at e
      cases hw : cart_seek L fd loc s with
      | error err => simp [hw] at e
      | ok res =>
        obtain ⟨r, s2⟩ := res
        simp only [hw] at e
        obtain ⟨q0, q1, q2⟩ := cart_seek_returns L fd loc s hfd hc0 hcl hl r s2 hw
        exact ih s2 m s1 m1 q0 q1 (by rw [q2]; exact hl) (by rw [q2]; exact hlen) e
    | read count =>
      unfold runOps at e
      cases hw : cart_read L fd count s with
      | error err => simp [hw] at e
      | ok res =>
        obtain ⟨r, bytes, s2⟩ := res
        simp only [hw] at e
        obtain ⟨q0, q1, q2⟩ := cart_read_returns L fd count s hM hfd hc0 hcl hl r bytes s2 hw
        exact ih s2 m s1 m1 q0 q1 (by rw [q2]; exact hl) (by rw [q2]; exact hlen) e

/-- C4 (length monotonicity of write). With `CART_MAX_TOTAL_FILES` equal to the frame
size, take record `fd` with cursor `c` and length `L`, `0 <= c <= L`, `L` within the 100
frames of `fileFrame`.
(1) If the file is open, every `cart_write` of `count >= 0` bytes that ends within the 100
frames returns either `count` or -1 (the allocation test stopped it); when it does not
return -1 the cursor is `c + count` and the length is `max L (c + count)`, hence unchanged
when `c + count <= L`; the length never decreases; and the write is not stopped when the
cursor lies within the extent map and the free cells of `fileFrame` hold cartridge numbers
of at most 63.
(2) After any sequence of writes, seeks and reads on the file in which every write
returned its `count`, the length is the greater of `L` and the greatest cursor position
reached by a write; for a file of length 0 it is that position. -/
theorem cart_write_length (L : DriverLimits) (fd : Nat) (s : State)
    (hM : L.CART_MAX_TOTAL_FILES = 1024) (hfd : fd < L.CART_MAX_TOTAL_FILES)
    (hc0 : 0 ≤ (s.file fd).pos) (hcl : (s.file fd).pos ≤ (s.file fd).fileLength)
    (hl : (s.file fd).fileLength ≤ 102400) :
    (∀ (buf : List Nat) (count : Int), (s.file fd).isOpen ≠ 0 → 0 ≤ count →
        count ≤ buf.length → (s.file fd).pos + count ≤ 102400 →
        ∃ r s1,
          cart_write L fd buf count s = .ok (r, s1)
            ∧ (r = count ∨ r = -1)
            ∧ (r ≠ -1 → (s1.file fd).pos = (s.file fd).pos + count
                ∧ (s1.file fd).fileLength
                    = max (s.file fd).fileLength ((s.file fd).pos + count))
            ∧ (r ≠ -1 → (s.file fd).pos + count ≤ (s.file fd).fileLength →
                (s1.file fd).fileLength = (s.file fd).fileLength)
            ∧ (s.file fd).fileLength ≤ (s1.file fd).fileLength
            ∧ (NoHole fd s → FreeCellsOk fd s → r = count))
      ∧ (∀ (ops : List FileOp) (s1 : State) (m1 : Int),
          runOps L fd ops (s, 0) = some (s1, m1) →
          (s1.file fd).fileLength = max (s.file fd).fileLength m1
            ∧ ((s.file fd).fileLength = 0 → (s1.file fd).fileLength = m1)) := by
  constructor
  · intro buf count hopen hcount hbuf hend
    exact cart_write_single L fd buf count s hM hfd hopen hcount hbuf hc0 hcl hend hl
  · intro ops s1 m1 e
    obtain ⟨h1, h2⟩ := runOps_length L fd (s.file fd).fileLength hM hfd ops s 0 s1 m1 hc0 hcl hl
      (by rw [max_eq_left (by omega)]) e
    refine ⟨h1, ?_⟩
    intro hz
    rw [h1, hz, max_eq_right h2]

/-- C4, at a concrete input: on the new file "a", `cart_write(0, "x", 1)` returns 1 and
leaves cursor and length at 1; after the calls write "x", seek 0, write "yz" the length
is 2, the greatest cursor position a write reached. -/
theorem cart_write_length_witness :
    (∃ s1, cart_write demoLimits (0 : Nat) [120] 1 (openedA demoLimits) = .ok (1, s1)
        ∧ (s1.file 0).pos = 1 ∧ (s1.file 0).fileLength = 1)
      ∧ (∃ s1, runOps demoLimits 0 [FileOp.write [120], FileOp.seek 0, FileOp.write [121, 122]]
            (openedA demoLimits, 0) = some (s1, 2)
          ∧ (s1.file 0).fileLength = 2) := by
  obtain ⟨hA, hB⟩ := cart_write_length demoLimits 0 (openedA demoLimits) rfl (by decide)
    (by decide) (by decide) (by decide)
  constructor
  · obtain ⟨r, s1, e, _, hfacts, _, _, hsucc⟩ :=
      hA [120] 1 (by decide) (by decide) (by decide) (by decide)
    have hf0 := (openedA_state demoLimits (by decide) (by decide)).2.1
    have hr : r = 1 := hsucc (by unfold NoHole; decide)
      (by intro i _ _; rw [hf0]; simp [zeroFile])
    subst hr
    have hp : ((openedA demoLimits).file 0).pos = 0 := by decide
    have hl : ((openedA demoLimits).file 0).fileLength = 0 := by decide
    obtain ⟨h1, h2⟩ := hfacts (by decide)
    rw [hp] at h1 h2
    rw [hl] at h2
    exact ⟨s1, e, by simpa using h1, by simpa using h2⟩
  · have hrun : ∃ s1, runOps demoLimits 0
        [FileOp.write [120], FileOp.seek 0, FileOp.write [121, 122]]
        (openedA demoLimits, 0) = some (s1, 2) := ⟨_, rfl⟩
    obtain ⟨s1, e⟩ := hrun
    exact ⟨s1, e, (hB _ s1 2 e).2 (by decide)⟩

/-! ## Command encoder -/

theorem createOpcode_sum (ky1 ky2 rt1 ct1 fm1 : Nat) (h1 : ky1 < 256) (h2 : ky2 < 256)
    (h3 : rt1 < 2) (h4 : ct1 < 65536) (h5 : fm1 < 65536) :
    createOpcode ky1 ky2 rt1 ct1 fm1
      = ky1 * 2 ^ 56 + ky2 * 2 ^ 48 + rt1 * 2 ^ 47 + ct1 * 2 ^ 31 + fm1 * 2 ^ 15 := by
  unfold createOpcode
  have e1 : (ky1 <<< 56) % 18446744073709551616 = ky1 * 2 ^ 56 := by
    rw [Nat.shiftLeft_eq]; omega
  have e2 : (ky2 <<< 48) % 18446744073709551616 = ky2 * 2 ^ 48 := by
    rw [Nat.shiftLeft_eq]; omega
  have e3 : (rt1 <<< 47) % 18446744073709551616 = rt1 * 2 ^ 47 := by
    rw [Nat.shiftLeft_eq]; omega
  have e4 : (ct1 <<< 31) % 18446744073709551616 = ct1 * 2 ^ 31 := by
    rw [Nat.shiftLeft_eq]; omega
  have e5 : (fm1 <<< 15) % 18446744073709551616 = fm1 * 2 ^ 15 := by
    rw [Nat.shiftLeft_eq]; omega
  rw [e1, e2, e3, e4, e5]
  have s1 : ky1 * 2 ^ 56 ||| ky2 * 2 ^ 48 = ky1 * 2 ^ 56 + ky2 * 2 ^ 48 := by
    have := Nat.mul_add_lt_is_or (i := 56) (b := ky2 * 2 ^ 48) (by omega) ky1
    rw [Nat.mul_comm (2 ^ 56) ky1] at this
    exact this.symm
  have s2 : (ky1 * 2 ^ 56 + ky2 * 2 ^ 48) ||| rt1 * 2 ^ 47
      = ky1 * 2 ^ 56 + ky2 * 2 ^ 48 + rt1 * 2 ^ 47 := by
    have := Nat.mul_add_lt_is_or (i := 48) (b := rt1 * 2 ^ 47) (by omega) (ky1 * 2 ^ 8 + ky2)
    have e : 2 ^ 48 * (ky1 * 2 ^ 8 + ky2) = ky1 * 2 ^ 56 + ky2 * 2 ^ 48 := by ring
    rw [e] at this
    exact this.symm
  have s3 : (ky1 * 2 ^ 56 + ky2 * 2 ^ 48 + rt1 * 2 ^ 47) ||| ct1 * 2 ^ 31
      = ky1 * 2 ^ 56 + ky2 * 2 ^ 48 + rt1 * 2 ^ 47 + ct1 * 2 ^ 31 := by
    have := Nat.mul_add_lt_is_or (i := 47) (b := ct1 * 2 ^ 31) (by omega)
      (ky1 * 2 ^ 9 + ky2 * 2 + rt1)
    have e : 2 ^ 47 * (ky1 * 2 ^ 9 + ky2 * 2 + rt1)
        = ky1 * 2 ^ 56 + ky2 * 2 ^ 48 + rt1 * 2 ^ 47 := by ring
    rw [e] at this
    exact this.symm
  have s4 : (ky1 * 2 ^ 56 + ky2 * 2 ^ 48 + rt1 * 2 ^ 47 + ct1 * 2 ^ 31) ||| fm1 * 2 ^ 15
      = ky1 * 2 ^ 56 + ky2 * 2 ^ 48 + rt1 * 2 ^ 47 + ct1 * 2 ^ 31 + fm1 * 2 ^ 15 := by
    have := Nat.mul_add_lt_is_or (i := 31) (b := fm1 * 2 ^ 15) (by omega)
      (ky1 * 2 ^ 25 + ky2 * 2 ^ 17 + rt1 * 2 ^ 16 + ct1)
    have e : 2 ^ 31 * (ky1 * 2 ^ 25 + ky2 * 2 ^ 17 + rt1 * 2 ^ 16 + ct1)
        = ky1 * 2 ^ 56 + ky2 * 2 ^ 48 + rt1 * 2 ^ 47 + ct1 * 2 ^ 31 := by ring
    rw [e] at this
    exact this.symm
  rw [s1, s2, s3, s4]

/-- C13 (register layout). For operands within their fields (`ky1`, `ky2` below 2^8,
`rt1` below 2, `ct1`, `fm1` below 2^16) `createOpcode` is the 64-bit value
`ky1 * 2^56 + ky2 * 2^48 + rt1 * 2^47 + ct1 * 2^31 + fm1 * 2^15`: `ky1` in bits 63..56,
`ky2` in bits 55..48, `rt1` in bit 47, `ct1` in bits 46..31, `fm1` in bits 30..15, the low
15 bits zero; each operand is recovered by shifting and masking. -/
theorem createOpcode_layout (ky1 ky2 rt1 ct1 fm1 : Nat) (h1 : ky1 < 2 ^ 8) (h2 : ky2 < 2 ^ 8)
    (h3 : rt1 < 2) (h4 : ct1 < 2 ^ 16) (h5 : fm1 < 2 ^ 16) :
    createOpcode ky1 ky2 rt1 ct1 fm1
        = ky1 * 2 ^ 56 + ky2 * 2 ^ 48 + rt1 * 2 ^ 47 + ct1 * 2 ^ 31 + fm1 * 2 ^ 15
      ∧ createOpcode ky1 ky2 rt1 ct1 fm1 < 2 ^ 64
      ∧ createOpcode ky1 ky2 rt1 ct1 fm1 >>> 56 = ky1
      ∧ (createOpcode ky1 ky2 rt1 ct1 fm1 >>> 48) % 2 ^ 8 = ky2
      ∧ (createOpcode ky1 ky2 rt1 ct1 fm1 >>> 47) % 2 = rt1
      ∧ (createOpcode ky1 ky2 rt1 ct1 fm1 >>> 31) % 2 ^ 16 = ct1
      ∧ (createOpcode ky1 ky2 rt1 ct1 fm1 >>> 15) % 2 ^ 16 = fm1
      ∧ createOpcode ky1 ky2 rt1 ct1 fm1 % 2 ^ 15 = 0 := by
  rw [createOpcode_sum ky1 ky2 rt1 ct1 fm1 (by omega) (by omega) h3 (by omega) (by omega)]
  simp only [Nat.shiftRight_eq_div_pow]
  refine ⟨trivial, ?_, ?_, ?_, ?_, ?_, ?_, ?_⟩ <;> omega

/-- C13, at a concrete input: the WRFRME command for cartridge 5, frame 1023. -/
theorem createOpcode_layout_witness :
    createOpcode 4 0 0 5 1023 = 4 * 2 ^ 56 + 5 * 2 ^ 31 + 1023 * 2 ^ 15
      ∧ (createOpcode 4 0 0 5 1023 >>> 31) % 2 ^ 16 = 5 := by
  obtain ⟨h, _, _, _, _, h6, _⟩ :=
    createOpcode_layout 4 0 0 5 1023 (by decide) (by decide) (by decide) (by decide) (by decide)
  exact ⟨by rw [h]; norm_num, h6⟩

theorem createOpcode_low_bits (ky1 ky2 rt1 ct1 fm1 : Nat) :
    createOpcode ky1 ky2 rt1 ct1 fm1 % 2 ^ 15 = 0 := by
  have h64 : (18446744073709551616 : Nat) = 2 ^ 64 := by norm_num
  apply Nat.eq_of_testBit_eq
  intro i
  unfold createOpcode
  rw [h64]
  simp only [Nat.testBit_mod_two_pow, Nat.testBit_or, Nat.testBit_shiftLeft, Nat.zero_testBit]
  by_cases hi : i < 15
  · have g1 : ¬ (i ≥ 56) := by omega
    have g2 : ¬ (i ≥ 48) := by omega
    have g3 : ¬ (i ≥ 47) := by omega
    have g4 : ¬ (i ≥ 31) := by omega
    have g5 : ¬ (i ≥ 15) := by omega
    simp [g1, g2, g3, g4, g5]
  · simp [hi]

theorem createOpcode_ky1_mod (ky1 ky2 rt1 ct1 fm1 : Nat) :
    createOpcode ky1 ky2 rt1 ct1 fm1 = createOpcode (ky1 % 2 ^ 8) ky2 rt1 ct1 fm1 := by
  unfold createOpcode
  have e : (ky1 <<< 56) % 18446744073709551616 = ((ky1 % 2 ^ 8) <<< 56) % 18446744073709551616 := by
    rw [Nat.shiftLeft_eq, Nat.shiftLeft_eq]; omega
  rw [e]

theorem createOpcode_bits (a b c d e i : Nat) :
    (createOpcode a b c d e).testBit i = true
      ↔ i < 64 ∧ ((56 ≤ i ∧ a.testBit (i - 56) = true) ∨ (48 ≤ i ∧ b.testBit (i - 48) = true)
          ∨ (47 ≤ i ∧ c.testBit (i - 47) = true) ∨ (31 ≤ i ∧ d.testBit (i - 31) = true)
          ∨ (15 ≤ i ∧ e.testBit (i - 15) = true)) := by
  have h64 : (18446744073709551616 : Nat) = 2 ^ 64 := by norm_num
  unfold createOpcode
  rw [h64]
  simp only [Nat.testBit_mod_two_pow, Nat.testBit_or, Nat.testBit_shiftLeft, Bool.or_eq_true,
    Bool.and_eq_true, decide_eq_true_eq, ge_iff_le]
  tauto

/-- C17, as stated, fails: the operand `ky2 = 256` is wider than its 8-bit field; the
register is not that of `ky2 mod 2^8 = 0`, and bit 56, which belongs to `ky1`, is set. -/
theorem createOpcode_masks_counterexample :
    createOpcode 0 256 0 0 0 ≠ createOpcode (0 % 2 ^ 8) (256 % 2 ^ 8) (0 % 2) (0 % 2 ^ 16) (0 % 2 ^ 16)
      ∧ createOpcode 0 256 0 0 0 >>> 56 = 1 := by
  decide

/-- C17, amended. `createOpcode` masks no operand: it is the OR of the operands shifted
left by 56, 48, 47, 31 and 15 within 64 bits, so bit `i` of the result is set exactly
when `i < 64` and bit `i - 56` of `ky1`, bit `i - 48` of `ky2`, bit `i - 47` of `rt1`,
bit `i - 31` of `ct1` or bit `i - 15` of `fm1` is set (the index not negative). Hence for
every `ky1`, and for `ky2`, `rt1`, `ct1`, `fm1` within their fields, it equals
`createOpcode` of the operands reduced to their field widths; for all operands the low 15
bits are zero; and for `ky2 = 256` it differs from `createOpcode` of the reduced
operands. -/
theorem createOpcode_masks_in_range (ky1 ky2 rt1 ct1 fm1 : Nat) (h2 : ky2 < 2 ^ 8)
    (h3 : rt1 < 2) (h4 : ct1 < 2 ^ 16) (h5 : fm1 < 2 ^ 16) :
    createOpcode ky1 ky2 rt1 ct1 fm1
        = createOpcode (ky1 % 2 ^ 8) (ky2 % 2 ^ 8) (rt1 % 2) (ct1 % 2 ^ 16) (fm1 % 2 ^ 16)
      ∧ (∀ a b c d e : Nat, createOpcode a b c d e % 2 ^ 15 = 0)
      ∧ (∀ a b c d e i : Nat, (createOpcode a b c d e).testBit i = true
          ↔ i < 64 ∧ ((56 ≤ i ∧ a.testBit (i - 56) = true)
              ∨ (48 ≤ i ∧ b.testBit (i - 48) = true)
              ∨ (47 ≤ i ∧ c.testBit (i - 47) = true)
              ∨ (31 ≤ i ∧ d.testBit (i - 31) = true)
              ∨ (15 ≤ i ∧ e.testBit (i - 15) = true)))
      ∧ createOpcode 0 256 0 0 0
          ≠ createOpcode (0 % 2 ^ 8) (256 % 2 ^ 8) (0 % 2) (0 % 2 ^ 16) (0 % 2 ^ 16) := by
  refine ⟨?_, createOpcode_low_bits, createOpcode_bits, by decide⟩
  rw [Nat.mod_eq_of_lt h2, Nat.mod_eq_of_lt h3, Nat.mod_eq_of_lt h4, Nat.mod_eq_of_lt h5]
  exact createOpcode_ky1_mod ky1 ky2 rt1 ct1 fm1

/-- C17 amended, at a concrete input: `ky1 = 258` is cut to 2. -/
theorem createOpcode_masks_in_range_witness :
    createOpcode 258 0 0 5 7 = createOpcode 2 0 0 5 7 := by
  have h := (createOpcode_masks_in_range 258 0 0 5 7 (by decide) (by decide) (by decide)
    (by decide)).1
  simpa using h

/-! ## Handles outside the table -/

/-- C12 (out-of-range handles). For a handle `fd < 0` or `fd >= CART_MAX_TOTAL_FILES`,
none of `cart_read`, `cart_write`, `cart_seek`, `cart_close` returns the failure value:
each first evaluates `file[fd].isOpen`, an access outside the table, before any test of
the range of `fd` (`cart_close` has no such test, and that of `cart_seek` lets
`fd = CART_MAX_TOTAL_FILES` pass). -/
theorem handle_out_of_range (L : DriverLimits) (fd : Int) (s : State)
    (h : fd < 0 ∨ (L.CART_MAX_TOTAL_FILES : Int) ≤ fd) :
    (∀ count, cart_read L fd count s = .error .outOfBounds)
      ∧ (∀ buf count, cart_write L fd buf count s = .error .outOfBounds)
      ∧ (∀ loc, cart_seek L fd loc s = .error .outOfBounds)
      ∧ cart_close L fd s = .error .outOfBounds := by
  refine ⟨?_, ?_, ?_, ?_⟩
  · intro count; unfold cart_read; rw [if_pos h]
  · intro buf count; unfold cart_write; rw [if_pos h]
  · intro loc; unfold cart_seek; rw [if_pos h]
  · unfold cart_close; rw [if_pos h]

/-- C12, at a concrete input: the handle 1024 on a table of 1024 records, after
power-on. -/
theorem handle_out_of_range_witness :
    cart_read demoLimits 1024 0 (poweredOn demoLimits) = .error .outOfBounds
      ∧ cart_seek demoLimits 1024 0 (poweredOn demoLimits) = .error .outOfBounds
      ∧ cart_close demoLimits 1024 (poweredOn demoLimits) = .error .outOfBounds := by
  have h := handle_out_of_range demoLimits 1024 (poweredOn demoLimits) (by decide)
  exact ⟨h.1 0, h.2.2.1 0, h.2.2.2⟩

/-! ## Device session -/

theorem cart_poweron_carts_bus : ∀ (n i : Nat) (s : State),
    (cart_poweron_carts n i s).bus = s.bus ++ cartCommands n i
      ∧ (cart_poweron_carts n i s).initialize_status = s.initialize_status := by
  intro n
  induction n with
  | zero => intro i s; simp [cart_poweron_carts, cartCommands]
  | succ n ih =>
    intro i s
    unfold cart_poweron_carts cartCommands
    obtain ⟨h1, h2⟩ := ih (i + 1)
      (((s.io (createOpcode CART_OP_LDCART 0 0 i 0) nullBuf).1.io
        (createOpcode CART_OP_BZERO 0 0 0 0) nullBuf).1)
    refine ⟨?_, ?_⟩
    · rw [h1]; simp [State.io]
    · rw [h2]; rfl

theorem cartCommands_length : ∀ (n i : Nat), (cartCommands n i).length = 2 * n := by
  intro n
  induction n with
  | zero => intro i; rfl
  | succ n ih => intro i; simp [cartCommands, ih (i + 1)]; omega

theorem cartCommands_get : ∀ (n i j : Nat), j < n →
    (cartCommands n i)[2 * j]? = some ⟨createOpcode CART_OP_LDCART 0 0 (i + j) 0, nullBuf⟩
      ∧ (cartCommands n i)[2 * j + 1]?
          = some ⟨createOpcode CART_OP_BZERO 0 0 0 0, nullBuf⟩ := by
  intro n
  induction n with
  | zero => intro i j h; omega
  | succ n ih =>
    intro i j h
    cases j with
    | zero => simp [cartCommands]
    | succ j =>
      obtain ⟨h1, h2⟩ := ih (i + 1) j (by omega)
      have e1 : 2 * (j + 1) = (2 * j) + 1 + 1 := by ring
      have e2 : 2 * (j + 1) + 1 = (2 * j + 1) + 1 + 1 := by ring
      have e3 : i + (j + 1) = i + 1 + j := by ring
      constructor
      · rw [e1, e3]; simpa [cartCommands] using h1
      · rw [e2]; simpa [cartCommands] using h2

theorem cart_read_loop_status (L : DriverLimits) (fd : Nat) (count : Int) :
    ∀ (fuel : Nat) (s : State) (out : List Nat) (remaining : Int) (r : Int)
      (bytes : List Nat) (s1 : State),
      cart_read_loop L fd count fuel s out remaining = .ok (r, bytes, s1) →
      s1.initialize_status = s.initialize_status := by
  intro fuel
  induction fuel with
  | zero =>
    intro s out remaining r bytes s1 h
    simp only [cart_read_loop] at h
    split_ifs at h
    injection h with h; injection h with _ h; injection h with _ h
    rw [← h]
  | succ fuel ih =>
    intro s out remaining r bytes s1 h
    simp only [cart_read_loop] at h
    split_ifs at h
    all_goals first
      | exact (ih _ _ _ _ _ _ h).trans rfl
      | (injection h with h; injection h with _ h; injection h with _ h; rw [← h])

theorem cart_write_loop_status (L : DriverLimits) (fd : Nat) (count : Int) :
    ∀ (fuel : Nat) (s : State) (buf : List Nat) (remaining : Int) (r : Int) (s1 : State),
      cart_write_loop L fd count fuel s buf remaining = .ok (r, s1) →
      s1.initialize_status = s.initialize_status := by
  intro fuel
  induction fuel with
  | zero =>
    intro s buf remaining r s1 h
    simp only [cart_write_loop] at h
    split_ifs at h
    injection h with h; injection h with _ h
    rw [← h]
  | succ fuel ih =>
    intro s buf remaining r s1 h
    rw [cart_write_loop] at h
    dsimp only at h
    by_cases c1 : remaining > 0
    · rw [if_pos c1] at h
      by_cases c2 : L.CART_MAX_TOTAL_FILES = 0
      · rw [if_pos c2] at h; cases h
      · rw [if_neg c2] at h
        by_cases c3 : i32 ((s.file fd).pos / (L.CART_MAX_TOTAL_FILES : Int)) < 0
            ∨ FILE_FRAMES ≤ i32 ((s.file fd).pos / (L.CART_MAX_TOTAL_FILES : Int))
        · rw [if_pos c3] at h; cases h
        · rw [if_neg c3] at h
          by_cases c4 : i32 ((s.file fd).pos / (L.CART_MAX_TOTAL_FILES : Int))
                ≥ (s.file fd).frame_num
              ∧ ((s.file fd).fileFrame
                  (i32 ((s.file fd).pos / (L.CART_MAX_TOTAL_FILES : Int))).toNat).cart_id > 63
          · rw [if_pos c4] at h
            injection h with h; injection h with _ h; rw [← h]
          · rw [if_neg c4] at h
            by_cases c5 :
                (if remaining < CART_FRAME_SIZE
                      - i32 ((s.file fd).pos % (L.CART_MAX_TOTAL_FILES : Int)) then remaining
                  else CART_FRAME_SIZE
                      - i32 ((s.file fd).pos % (L.CART_MAX_TOTAL_FILES : Int))) < 0
                ∨ i32 ((s.file fd).pos % (L.CART_MAX_TOTAL_FILES : Int)) < 0
                ∨ CART_FRAME_SIZE < i32 ((s.file fd).pos % (L.CART_MAX_TOTAL_FILES : Int))
                    + (if remaining < CART_FRAME_SIZE
                          - i32 ((s.file fd).pos % (L.CART_MAX_TOTAL_FILES : Int)) then remaining
                      else CART_FRAME_SIZE
                          - i32 ((s.file fd).pos % (L.CART_MAX_TOTAL_FILES : Int)))
                ∨ (buf.length : Int)
                    < (if remaining < CART_FRAME_SIZE
                          - i32 ((s.file fd).pos % (L.CART_MAX_TOTAL_FILES : Int)) then remaining
                      else CART_FRAME_SIZE
                          - i32 ((s.file fd).pos % (L.CART_MAX_TOTAL_FILES : Int)))
            · rw [if_pos c5] at h; cases h
            · rw [if_neg c5] at h
              have e := ih _ _ _ _ _ h
              by_cases c6 : i32 ((s.file fd).pos / (L.CART_MAX_TOTAL_FILES : Int))
                  ≥ (s.file fd).frame_num
              · rw [if_pos c6] at e; exact e.trans rfl
              · rw [if_neg c6] at e; exact e.trans rfl
    · rw [if_neg c1] at h
      injection h with h; injection h with _ h; rw [← h]

theorem calls_keep_status (L : DriverLimits) (s s1 : State) :
    (∀ path h, cart_open L path s = .ok (h, s1) → s1.initialize_status = s.initialize_status)
      ∧ (∀ fd r, cart_close L fd s = .ok (r, s1) → s1.initialize_status = s.initialize_status)
      ∧ (∀ fd loc r, cart_seek L fd loc s = .ok (r, s1) →
          s1.initialize_status = s.initialize_status)
      ∧ (∀ fd count r bytes, cart_read L fd count s = .ok (r, bytes, s1) →
          s1.initialize_status = s.initialize_status)
      ∧ (∀ fd buf count r, cart_write L fd buf count s = .ok (r, s1) →
          s1.initialize_status = s.initialize_status) := by
  refine ⟨?_, ?_, ?_, ?_, ?_⟩
  · intro path h e
    unfold cart_open at e
    cases hl : cart_open_loop L s.file L.CART_MAX_TOTAL_FILES 0 with
    | error err => simp [hl] at e
    | ok x =>
      cases x with
      | none => simp [hl] at e
      | some x =>
        simp only [hl] at e
        by_cases hp : L.CART_MAX_PATH_LENGTH < strlen path + 1
        · rw [if_pos hp] at e; cases e
        · rw [if_neg hp] at e
          simp only [Except.ok.injEq, Prod.mk.injEq] at e
          rw [← e.2]
          rfl
  · intro fd r e
    unfold cart_close at e
    dsimp only at e
    split_ifs at e <;> (cases e <;> rfl)
  · intro fd loc r e
    unfold cart_seek at e
    dsimp only at e
    split_ifs at e <;> (cases e <;> rfl)
  · intro fd count r bytes e
    unfold cart_read at e
    dsimp only at e
    split_ifs at e <;> first
      | exact cart_read_loop_status L _ _ _ _ _ _ _ _ _ e
      | (cases e <;> rfl)
  · intro fd buf count r e
    unfold cart_write at e
    dsimp only at e
    split_ifs at e <;> first
      | exact cart_write_loop_status L _ _ _ _ _ _ _ _ e
      | (cases e <;> rfl)

/-- C18 (bring-up command sequence). With a name array of at least one byte, a call of
`cart_poweron` in a state where `initialize_status` is 0 (as the process starts it)
returns 0, appends to the bus log INITMS followed by the 128 commands LDCART(0), BZERO,
LDCART(1), BZERO, ..., LDCART(63), BZERO, and sets `initialize_status` to 1; a call in a
state where it is not 0 returns 0 and appends those 128 commands only; no other call of
the driver changes `initialize_status`; and `cart_poweroff` returns 0 and appends the one
command POWOFF. -/
theorem cart_poweron_commands (L : DriverLimits) (s : State)
    (hP : 0 < L.CART_MAX_PATH_LENGTH) :
    (s.initialize_status = 0 → ∃ s1, cart_poweron L s = .ok (0, s1)
        ∧ s1.bus = s.bus ++ ⟨createOpcode CART_OP_INITMS 0 0 0 0, nullBuf⟩ :: cartCommands 64 0
        ∧ s1.initialize_status = 1)
      ∧ (s.initialize_status ≠ 0 → ∃ s1, cart_poweron L s = .ok (0, s1)
        ∧ s1.bus = s.bus ++ cartCommands 64 0
        ∧ s1.initialize_status = s.initialize_status)
      ∧ (cartCommands 64 0).length = 128
      ∧ (∀ j, j < 64 →
          (cartCommands 64 0)[2 * j]? = some ⟨createOpcode CART_OP_LDCART 0 0 j 0, nullBuf⟩
            ∧ (cartCommands 64 0)[2 * j + 1]?
                = some ⟨createOpcode CART_OP_BZERO 0 0 0 0, nullBuf⟩
            ∧ createOpcode CART_OP_LDCART 0 0 j 0 >>> 56 = CART_OP_LDCART
            ∧ (createOpcode CART_OP_LDCART 0 0 j 0 >>> 31) % 65536 = j)
      ∧ ((cart_poweroff s).1 = 0
          ∧ (cart_poweroff s).2.bus
              = s.bus ++ [⟨createOpcode CART_OP_POWOFF 0 0 0 0, nullBuf⟩])
      ∧ (bootState s.dev).initialize_status = 0
      ∧ (∀ s1 : State,
          (∀ path h, cart_open L path s = .ok (h, s1) →
              s1.initialize_status = s.initialize_status)
            ∧ (∀ fd r, cart_close L fd s = .ok (r, s1) →
              s1.initialize_status = s.initialize_status)
            ∧ (∀ fd loc r, cart_seek L fd loc s = .ok (r, s1) →
              s1.initialize_status = s.initialize_status)
            ∧ (∀ fd count r bytes, cart_read L fd count s = .ok (r, bytes, s1) →
              s1.initialize_status = s.initialize_status)
            ∧ (∀ fd buf count r, cart_write L fd buf count s = .ok (r, s1) →
              s1.initialize_status = s.initialize_status)) := by
  have hc : ¬ (0 < L.CART_MAX_TOTAL_FILES ∧ L.CART_MAX_PATH_LENGTH = 0) := by omega
  have h64 : CART_MAX_CARTRIDGES.toNat = 64 := by decide
  refine ⟨?_, ?_, cartCommands_length 64 0, ?_, ⟨rfl, rfl⟩, rfl, calls_keep_status L s⟩
  · intro h0
    unfold cart_poweron
    simp only [h0, hc, if_true, if_false, h64]
    refine ⟨_, rfl, ?_, ?_⟩
    · rw [(cart_poweron_carts_bus 64 0 _).1]
      simp [State.io]
    · rw [(cart_poweron_carts_bus 64 0 _).2]
  · intro h0
    unfold cart_poweron
    simp only [h0, hc, if_false, h64]
    refine ⟨_, rfl, ?_, ?_⟩
    · rw [(cart_poweron_carts_bus 64 0 _).1]
    · rw [(cart_poweron_carts_bus 64 0 _).2]
  · intro j hj
    obtain ⟨g1, g2⟩ := cartCommands_get 64 0 j hj
    obtain ⟨d1, d2, _⟩ := createOpcode_decode CART_OP_LDCART j 0 (by omega) (by decide)
      (by decide)
    rw [Nat.zero_add] at g1
    exact ⟨g1, g2, d1, d2⟩

/-- C18, at a concrete input: the first `cart_poweron` of a process makes 129 bus calls,
the first of them INITMS. -/
theorem cart_poweron_commands_witness :
    ∃ s1, cart_poweron demoLimits (bootState zeroDevice) = .ok (0, s1)
      ∧ s1.bus.length = 129
      ∧ (s1.bus[0]?).map (fun c => c.reg) = some (createOpcode CART_OP_INITMS 0 0 0 0) := by
  obtain ⟨h, _, hl, _⟩ := cart_poweron_commands demoLimits (bootState zeroDevice) (by decide)
  obtain ⟨s1, e, hb, _⟩ := h rfl
  refine ⟨s1, e, ?_, ?_⟩
  · rw [hb]; simp [bootState, hl]
  · rw [hb]; simp [bootState]

theorem cart_poweron_ok (L : DriverLimits) (s : State) (hP : 0 < L.CART_MAX_PATH_LENGTH) :
    ∃ s1, cart_poweron L s = .ok (0, s1)
      ∧ s1.nextCartID = s.nextCartID ∧ s1.nextFrameID = s.nextFrameID
      ∧ (∀ x, s1.file x
          = if x < L.CART_MAX_TOTAL_FILES then resetFile (s.file x) else s.file x) := by
  have hc : ¬ (0 < L.CART_MAX_TOTAL_FILES ∧ L.CART_MAX_PATH_LENGTH = 0) := by omega
  unfold cart_poweron
  simp only [hc, if_false]
  refine ⟨_, rfl, ?_, ?_, ?_⟩
  · simp only [(cart_poweron_carts_file _ _ _).2.1]
    split <;> rfl
  · simp only [(cart_poweron_carts_file _ _ _).2.2]
    split <;> rfl
  · intro x
    have hsf : (if s.initialize_status = 0 then
        { (s.io (createOpcode CART_OP_INITMS 0 0 0 0) nullBuf).1 with initialize_status := 1 }
      else s).file x = s.file x := by
      split <;> rfl
    simp only [(cart_poweron_carts_file _ _ _).1, hsf]

/-- C19, as stated, fails: after `cart_poweron(); cart_open("a"); cart_write(0, "x", 1)`
one frame has been allocated and the allocator stands at (0, 1); a second `cart_poweron`
returns 0 and leaves it at (0, 1), not (0, 0). -/
theorem cart_poweron_allocator_counterexample :
    (wroteA demoLimits).nextCartID = 0 ∧ (wroteA demoLimits).nextFrameID = 1
      ∧ ∃ s1, cart_poweron demoLimits (wroteA demoLimits) = .ok (0, s1)
          ∧ s1.nextCartID = 0 ∧ s1.nextFrameID = 1 := by
  have h1 : (wroteA demoLimits).nextCartID = 0 := by decide
  have h2 : (wroteA demoLimits).nextFrameID = 1 := by decide
  obtain ⟨s1, e, g1, g2, _⟩ := cart_poweron_ok demoLimits (wroteA demoLimits) (by decide)
  exact ⟨h1, h2, s1, e, g1.trans h1, g2.trans h2⟩

/-- C19, amended. With a name array of at least one byte, every call of `cart_poweron`,
from any state, returns 0 and leaves every record of the table closed, with an empty
name, cursor 0, length 0 and an empty extent map (`frame_num = 0`, first cell (0, 0));
records beyond the table and the allocator's counters `nextCartID`, `nextFrameID` are
left as they were. -/
theorem cart_poweron_resets_files (L : DriverLimits) (s : State)
    (hP : 0 < L.CART_MAX_PATH_LENGTH) :
    ∃ s1, cart_poweron L s = .ok (0, s1)
      ∧ (∀ x, x < L.CART_MAX_TOTAL_FILES →
          (s1.file x).isOpen = 0 ∧ (s1.file x).fileName 0 = 0 ∧ (s1.file x).pos = 0
            ∧ (s1.file x).fileLength = 0 ∧ (s1.file x).frame_num = 0
            ∧ (s1.file x).fileFrame 0 = ⟨0, 0⟩
            ∧ (∀ i, 0 < i → (s1.file x).fileFrame i = (s.file x).fileFrame i
                ∧ (s1.file x).fileName i = (s.file x).fileName i))
      ∧ (∀ x, L.CART_MAX_TOTAL_FILES ≤ x → s1.file x = s.file x)
      ∧ s1.nextCartID = s.nextCartID ∧ s1.nextFrameID = s.nextFrameID := by
  obtain ⟨s1, e, g1, g2, hf⟩ := cart_poweron_ok L s hP
  refine ⟨s1, e, ?_, ?_, g1, g2⟩
  · intro x hx
    rw [hf x, if_pos hx]
    refine ⟨rfl, ?_, rfl, rfl, rfl, ?_, ?_⟩
    · simp [resetFile, strcpy]
    · simp [resetFile]
    · intro i hi
      have hi0 : ¬ i = 0 := by omega
      constructor
      · simp [resetFile, hi0]
      · simp [resetFile, strcpy, hi0]
  · intro x hx
    rw [hf x, if_neg (by omega)]

/-- C19 amended, at a concrete input: `cart_poweron` after a one-byte file was written. -/
theorem cart_poweron_resets_files_witness :
    ∃ s1, cart_poweron demoLimits (wroteA demoLimits) = .ok (0, s1)
      ∧ (s1.file 0).fileLength = 0 ∧ (s1.file 0).frame_num = 0
      ∧ s1.nextFrameID = (wroteA demoLimits).nextFrameID := by
  obtain ⟨s1, e, hf, _, _, hn⟩ :=
    cart_poweron_resets_files demoLimits (wroteA demoLimits) (by decide)
  obtain ⟨_, _, _, h4, h5, _⟩ := hf 0 (by decide)
  exact ⟨s1, e, h4, h5, hn⟩

/-! ## The invariant of the driver -/

theorem DriverInv_of_files (s s1 : State) (hi : DriverInv s)
    (hc : s1.nextCartID = s.nextCartID) (hf : s1.nextFrameID = s.nextFrameID)
    (hx : ∀ x, (0 ≤ (s1.file x).pos ∧ (s1.file x).pos ≤ (s1.file x).fileLength
        ∧ (s1.file x).fileLength ≤ (s1.file x).frame_num * 1024
        ∧ (s1.file x).fileLength ≤ 102400)
      ∧ (((s1.file x).frame_num = (s.file x).frame_num
          ∧ (s1.file x).fileFrame = (s.file x).fileFrame)
        ∨ (s1.file x).frame_num = 0)) :
    DriverInv s1 := by
  obtain ⟨a0, a1, a2, _, hent, hdist, hmono⟩ := hi
  refine ⟨by rw [hc]; exact a0, by rw [hf]; exact a1, by rw [hf]; exact a2,
    fun x => (hx x).1, ?_, ?_, ?_⟩
  · intro x i hi
    rcases (hx x).2 with ⟨e1, e2⟩ | e0
    · rw [e2, hc, hf]; exact hent x i (by rw [← e1]; exact hi)
    · rw [e0] at hi; omega
  · intro x y i j hi hj hne
    rcases (hx x).2 with ⟨e1, e2⟩ | e0
    · rcases (hx y).2 with ⟨g1, g2⟩ | g0
      · rw [e2, g2]
        exact hdist x y i j (by rw [← e1]; exact hi) (by rw [← g1]; exact hj) hne
      · rw [g0] at hj; omega
    · rw [e0] at hi; omega
  · intro x i j hij hj
    rcases (hx x).2 with ⟨e1, e2⟩ | e0
    · rw [e2]; exact hmono x i j hij (by rw [← e1]; exact hj)
    · rw [e0] at hj; omega

theorem DriverInv_boot (d : Device) : DriverInv (bootState d) := by
  refine ⟨le_refl _, le_refl _, ?_, ?_, ?_, ?_, ?_⟩
  · show (0 : Int) ≤ 1023
    omega
  · intro x
    refine ⟨le_refl _, le_refl _, ?_, ?_⟩
    · show (0 : Int) ≤ 0 * 1024
      omega
    · show (0 : Int) ≤ 102400
      omega
  · intro x i hi
    have : ((bootState d).file x).frame_num = 0 := rfl
    omega
  · intro x y i j hi
    have : ((bootState d).file x).frame_num = 0 := rfl
    omega
  · intro x i j _ hj
    have : ((bootState d).file x).frame_num = 0 := rfl
    omega

theorem DriverInv_setFile (s : State) (x : Nat) (f : file_info) (hi : DriverInv s)
    (hn : f.frame_num = (s.file x).frame_num) (hff : f.fileFrame = (s.file x).fileFrame)
    (hp : 0 ≤ f.pos ∧ f.pos ≤ f.fileLength ∧ f.fileLength ≤ f.frame_num * 1024
      ∧ f.fileLength ≤ 102400) :
    DriverInv (s.setFile x f) := by
  refine DriverInv_of_files s (s.setFile x f) hi rfl rfl ?_
  intro y
  by_cases hy : y = x
  · subst hy
    rw [setFile_file_same]
    exact ⟨hp, Or.inl ⟨hn, hff⟩⟩
  · rw [setFile_file_other _ _ _ _ hy]
    exact ⟨hi.2.2.2.1 y, Or.inl ⟨rfl, rfl⟩⟩

theorem DriverInv_alloc (s s1 : State) (fd : Nat) (hi : DriverInv s)
    (hother : ∀ y, y ≠ fd → s1.file y = s.file y)
    (hfn : (s1.file fd).frame_num = (s.file fd).frame_num + 1)
    (hfr : ∀ i, (s1.file fd).fileFrame i
      = if i = (s.file fd).frame_num.toNat then ⟨s.nextCartID, s.nextFrameID⟩
        else (s.file fd).fileFrame i)
    (hnc : s1.nextCartID = if s.nextFrameID = 1023 then s.nextCartID + 1 else s.nextCartID)
    (hnf : s1.nextFrameID = if s.nextFrameID = 1023 then 0 else s.nextFrameID + 1)
    (hpl : 0 ≤ (s1.file fd).pos ∧ (s1.file fd).pos ≤ (s1.file fd).fileLength
      ∧ (s1.file fd).fileLength ≤ (s1.file fd).frame_num * 1024
      ∧ (s1.file fd).fileLength ≤ 102400) :
    DriverInv s1 := by
  obtain ⟨a0, a1, a2, hfile, hent, hdist, hmono⟩ := hi
  have hfn0 : 0 ≤ (s.file fd).frame_num := by
    have := hfile fd
    omega
  have hlin : s1.nextCartID * 1024 + s1.nextFrameID
      = s.nextCartID * 1024 + s.nextFrameID + 1 := by
    rw [hnc, hnf]
    split <;> omega
  have hc1 : 0 ≤ s1.nextCartID := by
    rw [hnc]
    split <;> omega
  have hf1 : 0 ≤ s1.nextFrameID ∧ s1.nextFrameID ≤ 1023 := by
    rw [hnf]
    split <;> omega
  have hdesc : ∀ x (i : Nat), (i : Int) < (s1.file x).frame_num →
      (x = fd ∧ i = (s.file fd).frame_num.toNat
          ∧ ((s1.file x).fileFrame i).cart_id = s.nextCartID
          ∧ ((s1.file x).fileFrame i).frame_id = s.nextFrameID
          ∧ ((s1.file x).fileFrame i).lin = s.nextCartID * 1024 + s.nextFrameID)
        ∨ ((i : Int) < (s.file x).frame_num
          ∧ (s1.file x).fileFrame i = (s.file x).fileFrame i) := by
    intro x i hlt
    by_cases hx : x = fd
    · subst hx
      by_cases hix : i = (s.file x).frame_num.toNat
      · left
        rw [hfr i, if_pos hix]
        exact ⟨rfl, hix, rfl, rfl, rfl⟩
      · right
        rw [hfr i, if_neg hix]
        rw [hfn] at hlt
        exact ⟨by omega, rfl⟩
    · right
      rw [hother x hx] at hlt ⊢
      exact ⟨hlt, rfl⟩
  refine ⟨hc1, hf1.1, hf1.2, ?_, ?_, ?_, ?_⟩
  · intro x
    by_cases hx : x = fd
    · subst hx; exact hpl
    · rw [hother x hx]; exact hfile x
  · intro x i hlt
    rcases hdesc x i hlt with ⟨_, _, e1, e2, e3⟩ | ⟨h1, h2⟩
    · rw [e1, e2, e3]
      omega
    · rw [h2]
      have := hent x i h1
      omega
  · intro x y i j hx hy hne
    rcases hdesc x i hx with ⟨x1, x2, _, _, x3⟩ | ⟨x1, x2⟩
    · rcases hdesc y j hy with ⟨y1, y2, _, _, y3⟩ | ⟨y1, y2⟩
      · exfalso
        rcases hne with h | h
        · exact h (x1.trans y1.symm)
        · exact h (x2.trans y2.symm)
      · rw [x3, y2]
        have := (hent y j y1).2.2.2
        omega
    · rcases hdesc y j hy with ⟨y1, y2, _, _, y3⟩ | ⟨y1, y2⟩
      · rw [x2, y3]
        have := (hent x i x1).2.2.2
        omega
      · rw [x2, y2]
        exact hdist x y i j x1 y1 hne
  · intro x i j hij hj
    rcases hdesc x j hj with ⟨y1, y2, _, _, y3⟩ | ⟨y1, y2⟩
    · have hi1 : (i : Int) < (s1.file x).frame_num := by omega
      rcases hdesc x i hi1 with ⟨_, x2, _, _, _⟩ | ⟨x1, x2⟩
      · omega
      · rw [x2, y3]
        have := (hent x i x1).2.2.2
        omega
    · have hi1 : (i : Int) < (s1.file x).frame_num := by omega
      rcases hdesc x i hi1 with ⟨x0, x2, _, _, _⟩ | ⟨x1, x2⟩
      · subst x0
        omega
      · rw [x2, y2]
        exact hmono x i j hij y1

theorem writeRound_DriverInv (fd : Nat) (s : State) (buf : List Nat) (remaining : Int)
    (hr : 0 < remaining) (hi : DriverInv s) (hp1 : (s.file fd).pos < 102400) :
    DriverInv (writeRound fd s buf remaining) := by
  obtain ⟨hp0, hpl, hlf, hl1⟩ := hi.2.2.2.1 fd
  obtain ⟨hc0, hc1, hc2⟩ := chunkSize_pos (s.file fd).pos remaining hr
  obtain ⟨w1, w2, _, _, w5, w6, w7, w8, _⟩ :=
    writeRound_fields fd s buf remaining hr hp0 hp1 (by omega) hl1
  obtain ⟨f1, f2⟩ := allocRound_frames fd s
  obtain ⟨n1, n2⟩ := allocRound_next fd s
  by_cases hc : (s.file fd).pos / 1024 ≥ (s.file fd).frame_num
  · have hidx : ((s.file fd).pos / 1024).toNat = (s.file fd).frame_num.toNat := by omega
    refine DriverInv_alloc s _ fd hi (fun y hy => writeRound_file_other fd y s buf remaining hy)
      ?_ ?_ ?_ ?_ ?_
    · rw [w5, f1, if_pos hc]
    · intro i
      rw [w6, f2 i, ← hidx]
      simp only [hc, true_and]
    · rw [w7, n1, if_pos hc]
    · rw [w8, n2, if_pos hc]
    · rw [w1, w2, w5, f1, if_pos hc]
      omega
  · refine DriverInv_of_files s _ hi ?_ ?_ ?_
    · rw [w7, n1, if_neg hc]
    · rw [w8, n2, if_neg hc]
    · intro x
      by_cases hx : x = fd
      · subst hx
        refine ⟨?_, Or.inl ⟨?_, ?_⟩⟩
        · rw [w1, w2, w5, f1, if_neg hc]
          omega
        · rw [w5, f1, if_neg hc]
        · rw [w6]
          funext i
          rw [f2 i]
          simp only [hc, false_and, if_false]
      · rw [writeRound_file_other fd x s buf remaining hx]
        exact ⟨hi.2.2.2.1 x, Or.inl ⟨rfl, rfl⟩⟩

theorem readRound_DriverInv (fd : Nat) (s : State) (remaining : Int)
    (hr : 0 < remaining) (hi : DriverInv s)
    (hrem : remaining ≤ (s.file fd).fileLength - (s.file fd).pos) :
    DriverInv (readRound fd s remaining) := by
  obtain ⟨hp0, hpl, hlf, hl1⟩ := hi.2.2.2.1 fd
  obtain ⟨hc0, hc1, hc2⟩ := chunkSize_pos (s.file fd).pos remaining hr
  obtain ⟨r1, r2, _, _, r5, r6, r7, r8, _⟩ :=
    readRound_fields fd s remaining hr hp0 (by omega)
  refine DriverInv_of_files s _ hi r7 r8 ?_
  intro x
  by_cases hx : x = fd
  · subst hx
    refine ⟨?_, Or.inl ⟨r5, r6⟩⟩
    rw [r1, r2, r5]
    omega
  · rw [readRound_file_other fd x s remaining hx]
    exact ⟨hi.2.2.2.1 x, Or.inl ⟨rfl, rfl⟩⟩

theorem write_step_chunk (L : DriverLimits) (fd : Nat) (count : Int) (fuel : Nat) (s : State)
    (buf : List Nat) (remaining : Int)
    (hM : L.CART_MAX_TOTAL_FILES = 1024)
    (hr : 0 < remaining) (hbuf : chunkSize (s.file fd).pos remaining ≤ buf.length)
    (hp0 : 0 ≤ (s.file fd).pos) (hp1 : (s.file fd).pos < 102400)
    (hok : ¬ ((s.file fd).pos / 1024 ≥ (s.file fd).frame_num
      ∧ ((s.file fd).fileFrame ((s.file fd).pos / 1024).toNat).cart_id > 63)) :
    cart_write_loop L fd count (fuel + 1) s buf remaining
      = cart_write_loop L fd count fuel (writeRound fd s buf remaining)
          (buf.drop (chunkSize (s.file fd).pos remaining).toNat)
          (remaining - chunkSize (s.file fd).pos remaining) := by
  obtain ⟨hc0, hc1, hc2⟩ := chunkSize_pos (s.file fd).pos remaining hr
  have hidx : i32 ((s.file fd).pos / 1024) = (s.file fd).pos / 1024 :=
    i32_of_range _ (by omega) (by omega)
  have hoff : i32 ((s.file fd).pos % 1024) = (s.file fd).pos % 1024 :=
    i32_of_range _ (by omega) (by omega)
  have hb : ¬ ((s.file fd).pos / 1024 < 0 ∨ FILE_FRAMES ≤ (s.file fd).pos / 1024) := by
    unfold FILE_FRAMES; omega
  have hcs : (if remaining < CART_FRAME_SIZE - (s.file fd).pos % 1024 then remaining
      else CART_FRAME_SIZE - (s.file fd).pos % 1024) = chunkSize (s.file fd).pos remaining := rfl
  have hsz : ¬ (chunkSize (s.file fd).pos remaining < 0 ∨ (s.file fd).pos % 1024 < 0
      ∨ CART_FRAME_SIZE < (s.file fd).pos % 1024 + chunkSize (s.file fd).pos remaining
      ∨ (buf.length : Int) < chunkSize (s.file fd).pos remaining) := by
    unfold CART_FRAME_SIZE; omega
  rw [cart_write_loop]
  simp only [hM, hr, if_true, Nat.cast_ofNat, hidx, hoff, hcs]
  rw [if_neg (by decide), if_neg hb, if_neg hok, if_neg hsz]
  rfl

theorem write_step_short (L : DriverLimits) (fd : Nat) (count : Int) (fuel : Nat) (s : State)
    (buf : List Nat) (remaining : Int)
    (hM : L.CART_MAX_TOTAL_FILES = 1024)
    (hr : 0 < remaining) (hbuf : (buf.length : Int) < chunkSize (s.file fd).pos remaining)
    (hp0 : 0 ≤ (s.file fd).pos) (hp1 : (s.file fd).pos < 102400)
    (hok : ¬ ((s.file fd).pos / 1024 ≥ (s.file fd).frame_num
      ∧ ((s.file fd).fileFrame ((s.file fd).pos / 1024).toNat).cart_id > 63)) :
    cart_write_loop L fd count (fuel + 1) s buf remaining = .error .outOfBounds := by
  have hidx : i32 ((s.file fd).pos / 1024) = (s.file fd).pos / 1024 :=
    i32_of_range _ (by omega) (by omega)
  have hoff : i32 ((s.file fd).pos % 1024) = (s.file fd).pos % 1024 :=
    i32_of_range _ (by omega) (by omega)
  have hb : ¬ ((s.file fd).pos / 1024 < 0 ∨ FILE_FRAMES ≤ (s.file fd).pos / 1024) := by
    unfold FILE_FRAMES; omega
  have hcs : (if remaining < CART_FRAME_SIZE - (s.file fd).pos % 1024 then remaining
      else CART_FRAME_SIZE - (s.file fd).pos % 1024) = chunkSize (s.file fd).pos remaining := rfl
  have hsz : (chunkSize (s.file fd).pos remaining < 0 ∨ (s.file fd).pos % 1024 < 0
      ∨ CART_FRAME_SIZE < (s.file fd).pos % 1024 + chunkSize (s.file fd).pos remaining
      ∨ (buf.length : Int) < chunkSize (s.file fd).pos remaining) :=
    Or.inr (Or.inr (Or.inr hbuf))
  rw [cart_write_loop]
  simp only [hM, hr, if_true, Nat.cast_ofNat, hidx, hoff, hcs]
  rw [if_neg (by decide), if_neg hb, if_neg hok, if_pos hsz]

theorem write_loop_DriverInv (L : DriverLimits) (fd : Nat) (count : Int)
    (hM : L.CART_MAX_TOTAL_FILES = 1024) :
    ∀ (fuel : Nat) (s : State) (buf : List Nat) (remaining r : Int) (s1 : State),
      DriverInv s → cart_write_loop L fd count fuel s buf remaining = .ok (r, s1) →
      DriverInv s1 := by
  intro fuel
  induction fuel with
  | zero =>
    intro s buf remaining r s1 hi h
    rw [cart_write_loop] at h
    by_cases hr : remaining > 0
    · rw [if_pos hr] at h
      cases h
    · rw [if_neg hr] at h
      simp only [Except.ok.injEq, Prod.mk.injEq] at h
      rw [← h.2]
      exact hi
  | succ fuel ih =>
    intro s buf remaining r s1 hi h
    by_cases hr : remaining > 0
    · obtain ⟨hp0, hpl, hlf, hl1⟩ := hi.2.2.2.1 fd
      by_cases hp : (s.file fd).pos = 102400
      · rw [write_step_oob L fd count fuel s buf remaining hM hr hp] at h
        cases h
      · have hp1 : (s.file fd).pos < 102400 := by omega
        by_cases hstop : (s.file fd).pos / 1024 ≥ (s.file fd).frame_num
            ∧ ((s.file fd).fileFrame ((s.file fd).pos / 1024).toNat).cart_id > 63
        · rw [write_step_stop L fd count fuel s buf remaining hM hr hp0 hp1 hstop] at h
          simp only [Except.ok.injEq, Prod.mk.injEq] at h
          rw [← h.2]
          exact hi
        · by_cases hb : chunkSize (s.file fd).pos remaining ≤ buf.length
          · rw [write_step_chunk L fd count fuel s buf remaining hM hr hb hp0 hp1 hstop] at h
            exact ih _ _ _ r s1 (writeRound_DriverInv fd s buf remaining hr hi hp1) h
          · rw [write_step_short L fd count fuel s buf remaining hM hr (by omega) hp0 hp1
              hstop] at h
            cases h
    · rw [cart_write_loop, if_neg hr] at h
      simp only [Except.ok.injEq, Prod.mk.injEq] at h
      rw [← h.2]
      exact hi

theorem read_loop_DriverInv (L : DriverLimits) (fd : Nat) (count : Int)
    (hM : L.CART_MAX_TOTAL_FILES = 1024) :
    ∀ (fuel : Nat) (s : State) (out : List Nat) (remaining r : Int) (bytes : List Nat)
      (s1 : State),
      DriverInv s → remaining ≤ (s.file fd).fileLength - (s.file fd).pos →
      cart_read_loop L fd count fuel s out remaining = .ok (r, bytes, s1) →
      DriverInv s1 := by
  intro fuel
  induction fuel with
  | zero =>
    intro s out remaining r bytes s1 hi _ h
    rw [cart_read_loop] at h
    by_cases hr : remaining > 0
    · rw [if_pos hr] at h
      cases h
    · rw [if_neg hr] at h
      simp only [Except.ok.injEq, Prod.mk.injEq] at h
      rw [← h.2.2]
      exact hi
  | succ fuel ih =>
    intro s out remaining r bytes s1 hi hrem h
    by_cases hr : remaining > 0
    · obtain ⟨hp0, hpl, hlf, hl1⟩ := hi.2.2.2.1 fd
      obtain ⟨hc0, hc1, hc2⟩ := chunkSize_pos (s.file fd).pos remaining hr
      have hp1 : (s.file fd).pos < 102400 := by omega
      obtain ⟨r1, r2, _⟩ := readRound_fields fd s remaining hr hp0 hp1
      rw [read_step L fd count fuel s out remaining hM hr hp0 hp1] at h
      refine ih _ _ _ r bytes s1 (readRound_DriverInv fd s remaining hr hi hrem) ?_ h
      rw [r1, r2]
      omega
    · rw [cart_read_loop, if_neg hr] at h
      simp only [Except.ok.injEq, Prod.mk.injEq] at h
      rw [← h.2.2]
      exact hi

theorem cart_open_DriverInv (L : DriverLimits) (s s1 : State) (path : List Nat) (h : Int)
    (hi : DriverInv s) (e : cart_open L path s = .ok (h, s1)) : DriverInv s1 := by
  unfold cart_open at e
  cases hl : cart_open_loop L s.file L.CART_MAX_TOTAL_FILES 0 with
  | error err => simp [hl] at e
  | ok x =>
    cases x with
    | none => simp [hl] at e
    | some x =>
      simp only [hl] at e
      by_cases hp : L.CART_MAX_PATH_LENGTH < strlen path + 1
      · rw [if_pos hp] at e; cases e
      · rw [if_neg hp] at e
        simp only [Except.ok.injEq, Prod.mk.injEq] at e
        rw [← e.2]
        obtain ⟨hp0, hpl, hlf, hl1⟩ := hi.2.2.2.1 x
        refine DriverInv_setFile s x _ hi rfl rfl ⟨le_refl _, le_refl _, ?_, ?_⟩
        · show (0 : Int) ≤ (s.file x).frame_num * 1024
          omega
        · show (0 : Int) ≤ 102400
          omega

theorem cart_close_DriverInv (L : DriverLimits) (s s1 : State) (fd r : Int)
    (hi : DriverInv s) (e : cart_close L fd s = .ok (r, s1)) : DriverInv s1 := by
  unfold cart_close at e
  dsimp only at e
  by_cases c1 : fd < 0 ∨ (L.CART_MAX_TOTAL_FILES : Int) ≤ fd
  · rw [if_pos c1] at e; cases e
  · rw [if_neg c1] at e
    by_cases c2 : (s.file fd.toNat).isOpen = 0
    · rw [if_pos c2] at e
      simp only [Except.ok.injEq, Prod.mk.injEq] at e
      rw [← e.2]; exact hi
    · rw [if_neg c2] at e
      simp only [Except.ok.injEq, Prod.mk.injEq] at e
      rw [← e.2]
      exact DriverInv_setFile s _ _ hi rfl rfl (hi.2.2.2.1 _)

theorem cart_seek_DriverInv (L : DriverLimits) (s s1 : State) (fd : Int) (loc : Nat) (r : Int)
    (hi : DriverInv s) (e : cart_seek L fd loc s = .ok (r, s1)) : DriverInv s1 := by
  unfold cart_seek at e
  dsimp only at e
  by_cases c1 : fd < 0 ∨ (L.CART_MAX_TOTAL_FILES : Int) ≤ fd
  · rw [if_pos c1] at e; cases e
  · rw [if_neg c1] at e
    by_cases c2 : (s.file fd.toNat).isOpen = 0
    · rw [if_pos c2] at e
      simp only [Except.ok.injEq, Prod.mk.injEq] at e
      rw [← e.2]; exact hi
    · rw [if_neg c2] at e
      by_cases c3 : fd > (L.CART_MAX_TOTAL_FILES : Int) ∨ fd < 0
      · rw [if_pos c3] at e
        simp only [Except.ok.injEq, Prod.mk.injEq] at e
        rw [← e.2]; exact hi
      · rw [if_neg c3] at e
        by_cases c4 : u32 loc > u32 (s.file fd.toNat).fileLength
        · rw [if_pos c4] at e
          simp only [Except.ok.injEq, Prod.mk.injEq] at e
          rw [← e.2]; exact hi
        · rw [if_neg c4] at e
          simp only [Except.ok.injEq, Prod.mk.injEq] at e
          rw [← e.2]
          obtain ⟨hp0, hpl, hlf, hl1⟩ := hi.2.2.2.1 fd.toNat
          have hu : u32 (s.file fd.toNat).fileLength = (s.file fd.toNat).fileLength :=
            u32_of_range _ (by omega) (by omega)
          rw [hu] at c4
          have h0 : 0 ≤ u32 (loc : Int) := by unfold u32; omega
          refine DriverInv_setFile s _ _ hi rfl rfl ⟨h0, ?_, hlf, hl1⟩
          show u32 (loc : Int) ≤ (s.file fd.toNat).fileLength
          omega

theorem cart_read_DriverInv (L : DriverLimits) (hM : L.CART_MAX_TOTAL_FILES = 1024)
    (s s1 : State) (fd count r : Int) (bytes : List Nat)
    (hi : DriverInv s) (e : cart_read L fd count s = .ok (r, bytes, s1)) : DriverInv s1 := by
  unfold cart_read at e
  dsimp only at e
  by_cases c1 : fd < 0 ∨ (L.CART_MAX_TOTAL_FILES : Int) ≤ fd
  · rw [if_pos c1] at e; cases e
  · rw [if_neg c1] at e
    by_cases c2 : (s.file fd.toNat).isOpen = 0
    · rw [if_pos c2] at e
      simp only [Except.ok.injEq, Prod.mk.injEq] at e
      rw [← e.2.2]; exact hi
    · rw [if_neg c2] at e
      by_cases c3 : fd ≥ (L.CART_MAX_TOTAL_FILES : Int) ∨ fd < 0
      · rw [if_pos c3] at e
        simp only [Except.ok.injEq, Prod.mk.injEq] at e
        rw [← e.2.2]; exact hi
      · rw [if_neg c3] at e
        by_cases c4 : count < 0
        · rw [if_pos c4] at e
          simp only [Except.ok.injEq, Prod.mk.injEq] at e
          rw [← e.2.2]; exact hi
        · rw [if_neg c4] at e
          obtain ⟨hp0, hpl, hlf, hl1⟩ := hi.2.2.2.1 fd.toNat
          have hinit : i32 (u32 (s.file fd.toNat).fileLength - (s.file fd.toNat).pos)
              = (s.file fd.toNat).fileLength - (s.file fd.toNat).pos := by
            rw [u32_of_range _ (by omega) (by omega)]
            exact i32_of_range _ (by omega) (by omega)
          rw [hinit] at e
          refine read_loop_DriverInv L fd.toNat _ hM _ s [] _ r bytes s1 hi ?_ e
          split <;> omega

theorem cart_write_DriverInv (L : DriverLimits) (hM : L.CART_MAX_TOTAL_FILES = 1024)
    (s s1 : State) (fd : Int) (buf : List Nat) (count r : Int)
    (hi : DriverInv s) (e : cart_write L fd buf count s = .ok (r, s1)) : DriverInv s1 := by
  unfold cart_write at e
  dsimp only at e
  by_cases c1 : fd < 0 ∨ (L.CART_MAX_TOTAL_FILES : Int) ≤ fd
  · rw [if_pos c1] at e; cases e
  · rw [if_neg c1] at e
    by_cases c2 : (s.file fd.toNat).isOpen = 0
    · rw [if_pos c2] at e
      simp only [Except.ok.injEq, Prod.mk.injEq] at e
      rw [← e.2]; exact hi
    · rw [if_neg c2] at e
      by_cases c3 : fd ≥ (L.CART_MAX_TOTAL_FILES : Int) ∨ fd < 0
      · rw [if_pos c3] at e
        simp only [Except.ok.injEq, Prod.mk.injEq] at e
        rw [← e.2]; exact hi
      · rw [if_neg c3] at e
        by_cases c4 : count < 0
        · rw [if_pos c4] at e
          simp only [Except.ok.injEq, Prod.mk.injEq] at e
          rw [← e.2]; exact hi
        · rw [if_neg c4] at e
          exact write_loop_DriverInv L fd.toNat count hM _ s buf count r s1 hi e

theorem cart_poweron_DriverInv (L : DriverLimits) (hM : L.CART_MAX_TOTAL_FILES = 1024)
    (s s1 : State) (r : Int)
    (hi : DriverInv s) (e : cart_poweron L s = .ok (r, s1)) : DriverInv s1 := by
  by_cases hP : 0 < L.CART_MAX_PATH_LENGTH
  · obtain ⟨s2, e2, hc, hf, hfile⟩ := cart_poweron_ok L s hP
    rw [e2] at e
    simp only [Except.ok.injEq, Prod.mk.injEq] at e
    rw [← e.2]
    refine DriverInv_of_files s s2 hi hc hf ?_
    intro x
    rw [hfile x]
    by_cases hx : x < L.CART_MAX_TOTAL_FILES
    · rw [if_pos hx]
      refine ⟨⟨le_refl _, le_refl _, ?_, ?_⟩, Or.inr rfl⟩
      · show (0 : Int) ≤ 0 * 1024
        omega
      · show (0 : Int) ≤ 102400
        omega
    · rw [if_neg hx]
      exact ⟨hi.2.2.2.1 x, Or.inl ⟨rfl, rfl⟩⟩
  · have hc : 0 < L.CART_MAX_TOTAL_FILES ∧ L.CART_MAX_PATH_LENGTH = 0 := by omega
    unfold cart_poweron at e
    simp only [hc, and_self, if_true] at e
    cases e

theorem cart_poweroff_DriverInv (s : State) (hi : DriverInv s) :
    DriverInv (cart_poweroff s).2 :=
  DriverInv_of_files s _ hi rfl rfl (fun x => ⟨hi.2.2.2.1 x, Or.inl ⟨rfl, rfl⟩⟩)

theorem reachable_DriverInv (L : DriverLimits) (hM : L.CART_MAX_TOTAL_FILES = 1024)
    (s : State) (h : Reachable L s) : DriverInv s := by
  induction h with
  | start d => exact DriverInv_boot d
  | poweron s s1 r _ e ih => exact cart_poweron_DriverInv L hM s s1 r ih e
  | poweroff s _ ih => exact cart_poweroff_DriverInv s ih
  | «open» s s1 path h _ e ih => exact cart_open_DriverInv L s s1 path h ih e
  | close s s1 fd r _ e ih => exact cart_close_DriverInv L s s1 fd r ih e
  | read s s1 fd count r bytes _ e ih => exact cart_read_DriverInv L hM s s1 fd count r bytes ih e
  | write s s1 fd buf count r _ e ih => exact cart_write_DriverInv L hM s s1 fd buf count r ih e
  | seek s s1 fd loc r _ e ih => exact cart_seek_DriverInv L s s1 fd loc r ih e

/-! ## Reachable states -/

theorem stateOf_ok {α : Type} (x : Except Fault (α × State)) (r : α) (s1 : State)
    (h : x = .ok (r, s1)) : stateOf x = s1 := by
  rw [h]
  rfl

theorem reachable_poweredOn (L : DriverLimits) (hP : 0 < L.CART_MAX_PATH_LENGTH) :
    Reachable L (poweredOn L) := by
  obtain ⟨s1, e, _⟩ := cart_poweron_ok L (bootState zeroDevice) hP
  have h : poweredOn L = s1 := stateOf_ok _ _ _ e
  rw [h]
  exact Reachable.poweron _ _ _ (Reachable.start zeroDevice) e

theorem reachable_openedA (L : DriverLimits) (hM : 0 < L.CART_MAX_TOTAL_FILES)
    (hP : 2 ≤ L.CART_MAX_PATH_LENGTH) : Reachable L (openedA L) :=
  Reachable.open _ _ _ _ (reachable_poweredOn L (by omega)) (openedA_state L hM hP).1

theorem reachable_wroteA : Reachable demoLimits (wroteA demoLimits) := by
  have e : cart_write demoLimits 0 [120] 1 (openedA demoLimits)
      = .ok (1, wroteA demoLimits) := rfl
  exact Reachable.write _ _ _ _ _ _ (reachable_openedA demoLimits (by decide) (by decide)) e

theorem reachable_rewoundA : Reachable demoLimits (rewoundA demoLimits) := by
  have e : cart_seek demoLimits 0 0 (wroteA demoLimits)
      = .ok (0, rewoundA demoLimits) := rfl
  exact Reachable.seek _ _ _ _ _ reachable_wroteA e

/-! ## Invariants of the reachable states -/

/-- C14 (cursor invariant I1). With `CART_MAX_TOTAL_FILES` equal to the frame size, in every
state reached from the start of the process by calls of `cart_poweron`, `cart_poweroff`,
`cart_open`, `cart_close`, `cart_read`, `cart_write` and `cart_seek` that return, every
record of the file table, open or not, has `0 <= pos <= fileLength`. -/
theorem cursor_within_length (L : DriverLimits) (hM : L.CART_MAX_TOTAL_FILES = 1024)
    (s : State) (h : Reachable L s) (x : Nat) :
    0 ≤ (s.file x).pos ∧ (s.file x).pos ≤ (s.file x).fileLength := by
  obtain ⟨h0, h1, _⟩ := (reachable_DriverInv L hM s h).2.2.2.1 x
  exact ⟨h0, h1⟩

/-- C14 at a concrete input: the state after `cart_poweron(); cart_open("a");
cart_write(0, "x", 1)` is reachable, and there file 0 has cursor 1 and length 1. -/
theorem cursor_within_length_witness :
    Reachable demoLimits (wroteA demoLimits)
      ∧ ((wroteA demoLimits).file 0).pos = 1 ∧ ((wroteA demoLimits).file 0).fileLength = 1
      ∧ 0 ≤ ((wroteA demoLimits).file 0).pos
      ∧ ((wroteA demoLimits).file 0).pos ≤ ((wroteA demoLimits).file 0).fileLength :=
  ⟨reachable_wroteA, by decide, by decide,
    cursor_within_length demoLimits rfl (wroteA demoLimits) reachable_wroteA 0⟩

theorem write_loop_round (L : DriverLimits) (fd : Nat) (count : Int) (fuel : Nat) (s : State)
    (buf : List Nat) (remaining : Int) (hM : L.CART_MAX_TOTAL_FILES = 1024)
    (hr : 0 < remaining) (hp0 : 0 ≤ (s.file fd).pos) (hp2 : (s.file fd).pos ≤ 102400) :
    cart_write_loop L fd count (fuel + 1) s buf remaining = .error .outOfBounds
      ∨ cart_write_loop L fd count (fuel + 1) s buf remaining = .ok (-1, s)
      ∨ ((s.file fd).pos < 102400
          ∧ chunkSize (s.file fd).pos remaining ≤ buf.length
          ∧ cart_write_loop L fd count (fuel + 1) s buf remaining
            = cart_write_loop L fd count fuel (writeRound fd s buf remaining)
                (buf.drop (chunkSize (s.file fd).pos remaining).toNat)
                (remaining - chunkSize (s.file fd).pos remaining)) := by
  by_cases hp : (s.file fd).pos = 102400
  · exact Or.inl (write_step_oob L fd count fuel s buf remaining hM hr hp)
  · have hp1 : (s.file fd).pos < 102400 := by omega
    by_cases hstop : (s.file fd).pos / 1024 ≥ (s.file fd).frame_num
        ∧ ((s.file fd).fileFrame ((s.file fd).pos / 1024).toNat).cart_id > 63
    · exact Or.inr (Or.inl (write_step_stop L fd count fuel s buf remaining hM hr hp0 hp1 hstop))
    · by_cases hb : chunkSize (s.file fd).pos remaining ≤ buf.length
      · exact Or.inr (Or.inr ⟨hp1, hb,
          write_step_chunk L fd count fuel s buf remaining hM hr hb hp0 hp1 hstop⟩)
      · exact Or.inl
          (write_step_short L fd count fuel s buf remaining hM hr (by omega) hp0 hp1 hstop)

theorem cart_read_clamped (L : DriverLimits) (fd : Nat) (count : Int) (s : State)
    (hfd : fd < L.CART_MAX_TOTAL_FILES) (hopen : (s.file fd).isOpen ≠ 0)
    (hcount : 0 ≤ count) (hc0 : 0 ≤ (s.file fd).pos)
    (hcl : (s.file fd).pos ≤ (s.file fd).fileLength)
    (hl : (s.file fd).fileLength ≤ 102400) :
    ∃ c, 0 ≤ c ∧ c ≤ count ∧ c ≤ (s.file fd).fileLength - (s.file fd).pos
      ∧ cart_read L fd count s = cart_read_loop L fd c c.toNat s [] c := by
  have h4 : ¬ ((fd : Int) < 0 ∨ (L.CART_MAX_TOTAL_FILES : Int) ≤ (fd : Int)) := by omega
  have h5 : ¬ ((fd : Int) ≥ (L.CART_MAX_TOTAL_FILES : Int) ∨ (fd : Int) < 0) := by omega
  have hneg : ¬ count < 0 := by omega
  have hinit : i32 (u32 (s.file fd).fileLength - (s.file fd).pos)
      = (s.file fd).fileLength - (s.file fd).pos := by
    rw [u32_of_range _ (by omega) (by omega)]
    exact i32_of_range _ (by omega) (by omega)
  refine ⟨if count > (s.file fd).fileLength - (s.file fd).pos
      then (s.file fd).fileLength - (s.file fd).pos else count, ?_, ?_, ?_, ?_⟩
  · split <;> omega
  · split <;> omega
  · split <;> omega
  · unfold cart_read
    simp only [Int.toNat_ofNat, hinit]
    rw [if_neg h4, if_neg hopen, if_neg h5, if_neg hneg]

/-- C15 (no-holes invariant I2). With `CART_MAX_TOTAL_FILES` equal to the frame size:
every state reached by calls of the driver satisfies `DriverInv`; in a state with
`DriverInv` every record has `fileLength <= frame_num * 1024`, so a placement exists for
every frame index `i` with `i * 1024 < fileLength`, and the frame index `pos / 1024` that
`cart_write` computes is at most `frame_num`. A round of the loop of `cart_write` started
in such a state faults, or returns -1 with the state unchanged, or goes on from
`writeRound`, which again has `DriverInv`, keeps the placements below `frame_num` and
appends a placement, the allocator's counters, exactly when the index equals `frame_num`,
at that index. `cart_read` on an open record of the table enters its loop with a count of
at most `fileLength - pos`, and a round of that loop with `0 < remaining <= fileLength -
pos` uses an index below `frame_num`, goes on from `readRound`, which has `DriverInv`, and
leaves at most `fileLength - pos` bytes to read. -/
theorem extent_map_no_holes (L : DriverLimits) (hM : L.CART_MAX_TOTAL_FILES = 1024) :
    (∀ s, Reachable L s → DriverInv s)
      ∧ (∀ s, DriverInv s → ∀ x,
          (s.file x).fileLength ≤ (s.file x).frame_num * 1024
            ∧ (∀ i : Nat, (i : Int) * 1024 < (s.file x).fileLength →
                (i : Int) < (s.file x).frame_num)
            ∧ (s.file x).pos / 1024 ≤ (s.file x).frame_num)
      ∧ (∀ s fd count fuel buf remaining, DriverInv s → 0 < remaining →
          cart_write_loop L fd count (fuel + 1) s buf remaining = .error .outOfBounds
            ∨ cart_write_loop L fd count (fuel + 1) s buf remaining = .ok (-1, s)
            ∨ (cart_write_loop L fd count (fuel + 1) s buf remaining
                  = cart_write_loop L fd count fuel (writeRound fd s buf remaining)
                      (buf.drop (chunkSize (s.file fd).pos remaining).toNat)
                      (remaining - chunkSize (s.file fd).pos remaining)
                ∧ DriverInv (writeRound fd s buf remaining)
                ∧ ((writeRound fd s buf remaining).file fd).frame_num
                    = (if (s.file fd).pos / 1024 = (s.file fd).frame_num
                        then (s.file fd).frame_num + 1 else (s.file fd).frame_num)
                ∧ (∀ i : Nat, (i : Int) < (s.file fd).frame_num →
                    ((writeRound fd s buf remaining).file fd).fileFrame i
                      = (s.file fd).fileFrame i)
                ∧ ((s.file fd).pos / 1024 = (s.file fd).frame_num →
                    ((writeRound fd s buf remaining).file fd).fileFrame
                        (s.file fd).frame_num.toNat
                      = ⟨s.nextCartID, s.nextFrameID⟩)))
      ∧ (∀ s fd count, DriverInv s → fd < L.CART_MAX_TOTAL_FILES →
          (s.file fd).isOpen ≠ 0 → 0 ≤ count →
          ∃ c, 0 ≤ c ∧ c ≤ count ∧ c ≤ (s.file fd).fileLength - (s.file fd).pos
            ∧ cart_read L fd count s = cart_read_loop L fd c c.toNat s [] c)
      ∧ (∀ s fd count fuel out remaining, DriverInv s → 0 < remaining →
          remaining ≤ (s.file fd).fileLength - (s.file fd).pos →
          (s.file fd).pos / 1024 < (s.file fd).frame_num
            ∧ cart_read_loop L fd count (fuel + 1) s out remaining
                = cart_read_loop L fd count fuel (readRound fd s remaining)
                    (out ++ readRoundBytes fd s remaining)
                    (remaining - chunkSize (s.file fd).pos remaining)
            ∧ DriverInv (readRound fd s remaining)
            ∧ remaining - chunkSize (s.file fd).pos remaining
                ≤ ((readRound fd s remaining).file fd).fileLength
                  - ((readRound fd s remaining).file fd).pos) := by
  refine ⟨fun s h => reachable_DriverInv L hM s h, ?_, ?_, ?_, ?_⟩
  · intro s hi x
    obtain ⟨hp0, hpl, hlf, hl1⟩ := hi.2.2.2.1 x
    refine ⟨hlf, ?_, ?_⟩
    · intro i h
      omega
    · omega
  · intro s fd count fuel buf remaining hi hr
    obtain ⟨hp0, hpl, hlf, hl1⟩ := hi.2.2.2.1 fd
    rcases write_loop_round L fd count fuel s buf remaining hM hr hp0 (by omega) with
      h | h | ⟨hp1, _, h⟩
    · exact Or.inl h
    · exact Or.inr (Or.inl h)
    · refine Or.inr (Or.inr ⟨h, writeRound_DriverInv fd s buf remaining hr hi hp1, ?_, ?_, ?_⟩)
      · obtain ⟨_, _, _, _, w5, _⟩ :=
          writeRound_fields fd s buf remaining hr hp0 hp1 (by omega) hl1
        rw [w5, (allocRound_frames fd s).1]
        by_cases hc : (s.file fd).pos / 1024 ≥ (s.file fd).frame_num
        · rw [if_pos hc, if_pos (by omega)]
        · rw [if_neg hc, if_neg (by omega)]
      · intro i hlt
        obtain ⟨_, _, _, _, _, w6, _⟩ :=
          writeRound_fields fd s buf remaining hr hp0 hp1 (by omega) hl1
        rw [w6, (allocRound_frames fd s).2 i]
        have hne : ¬ ((s.file fd).pos / 1024 ≥ (s.file fd).frame_num
            ∧ i = ((s.file fd).pos / 1024).toNat) := by omega
        rw [if_neg hne]
      · intro heq
        obtain ⟨_, _, _, _, _, w6, _⟩ :=
          writeRound_fields fd s buf remaining hr hp0 hp1 (by omega) hl1
        rw [w6, (allocRound_frames fd s).2 _]
        have hyes : (s.file fd).pos / 1024 ≥ (s.file fd).frame_num
            ∧ (s.file fd).frame_num.toNat = ((s.file fd).pos / 1024).toNat := by
          rw [heq]
          exact ⟨le_refl _, rfl⟩
        rw [if_pos hyes]
  · intro s fd count hi hfd hopen hcount
    obtain ⟨hp0, hpl, hlf, hl1⟩ := hi.2.2.2.1 fd
    exact cart_read_clamped L fd count s hfd hopen hcount hp0 hpl hl1
  · intro s fd count fuel out remaining hi hr hrem
    obtain ⟨hp0, hpl, hlf, hl1⟩ := hi.2.2.2.1 fd
    obtain ⟨hc0, hc1, hc2⟩ := chunkSize_pos (s.file fd).pos remaining hr
    have hp1 : (s.file fd).pos < 102400 := by omega
    obtain ⟨r1, r2, _⟩ := readRound_fields fd s remaining hr hp0 hp1
    refine ⟨by omega, read_step L fd count fuel s out remaining hM hr hp0 hp1,
      readRound_DriverInv fd s remaining hr hi hrem, ?_⟩
    rw [r1, r2]
    omega

/-- C15 at concrete inputs: after `cart_poweron(); cart_open("a"); cart_write(0, "x", 1)`
file 0 has length 1 and one placement, and its cursor's frame index 0 is at most 1; after
a further `cart_seek(0, 0)` a one-byte round of the loop of `cart_read` uses index 0,
below the one placement. -/
theorem extent_map_no_holes_witness :
    (((wroteA demoLimits).file 0).fileLength ≤ ((wroteA demoLimits).file 0).frame_num * 1024
        ∧ (∀ i : Nat, (i : Int) * 1024 < ((wroteA demoLimits).file 0).fileLength →
            (i : Int) < ((wroteA demoLimits).file 0).frame_num)
        ∧ ((wroteA demoLimits).file 0).pos / 1024 ≤ ((wroteA demoLimits).file 0).frame_num)
      ∧ ((wroteA demoLimits).file 0).frame_num = 1
      ∧ ((rewoundA demoLimits).file 0).pos / 1024 < ((rewoundA demoLimits).file 0).frame_num :=
  ⟨(extent_map_no_holes demoLimits rfl).2.1 (wroteA demoLimits)
      ((extent_map_no_holes demoLimits rfl).1 _ reachable_wroteA) 0,
    by decide,
    ((extent_map_no_holes demoLimits rfl).2.2.2.2 (rewoundA demoLimits) 0 1 0 [] 1
      ((extent_map_no_holes demoLimits rfl).1 _ reachable_rewoundA) (by decide)
      (by decide)).1⟩

theorem cart_write_allocates (L : DriverLimits) (fd : Nat) (b : Nat) (s : State)
    (hM : L.CART_MAX_TOTAL_FILES = 1024) (hfd : fd < L.CART_MAX_TOTAL_FILES)
    (hopen : (s.file fd).isOpen ≠ 0) (hi : DriverInv s)
    (hend : (s.file fd).pos = (s.file fd).frame_num * 1024)
    (hp1 : (s.file fd).pos < 102400)
    (hcell : ((s.file fd).fileFrame (s.file fd).frame_num.toNat).cart_id ≤ 63) :
    cart_write L fd [b] 1 s = .ok (1, writeRound fd s [b] 1)
      ∧ ((writeRound fd s [b] 1).file fd).fileFrame (s.file fd).frame_num.toNat
          = ⟨s.nextCartID, s.nextFrameID⟩
      ∧ ((writeRound fd s [b] 1).file fd).frame_num = (s.file fd).frame_num + 1
      ∧ (writeRound fd s [b] 1).nextCartID
          = (if s.nextFrameID = 1023 then s.nextCartID + 1 else s.nextCartID)
      ∧ (writeRound fd s [b] 1).nextFrameID
          = (if s.nextFrameID = 1023 then 0 else s.nextFrameID + 1) := by
  obtain ⟨hp0, hpl, hlf, hl1⟩ := hi.2.2.2.1 fd
  have hidx : (s.file fd).pos / 1024 = (s.file fd).frame_num := by omega
  have hc : (s.file fd).pos / 1024 ≥ (s.file fd).frame_num := by omega
  have hok : ¬ ((s.file fd).pos / 1024 ≥ (s.file fd).frame_num
      ∧ ((s.file fd).fileFrame ((s.file fd).pos / 1024).toNat).cart_id > 63) := by
    rw [hidx]
    omega
  have hcs : chunkSize (s.file fd).pos 1 = 1 := by
    unfold chunkSize CART_FRAME_SIZE
    split_ifs <;> omega
  obtain ⟨_, _, _, _, w5, w6, w7, w8, _⟩ :=
    writeRound_fields fd s [b] 1 (by omega) hp0 hp1 (by omega) hl1
  obtain ⟨f1, f2⟩ := allocRound_frames fd s
  obtain ⟨n1, n2⟩ := allocRound_next fd s
  refine ⟨?_, ?_, ?_, ?_, ?_⟩
  · have e1 : (1 : Int).toNat = 0 + 1 := rfl
    rw [cart_write_eq_loop L fd [b] 1 s hfd hopen (by omega), e1,
      write_step_chunk L fd 1 0 s [b] 1 hM (by omega) (by rw [hcs]; simp) hp0 hp1 hok, hcs,
      sub_self, write_loop_zero]
  · rw [w6, f2 _, if_pos ⟨hc, by rw [hidx]⟩]
  · rw [w5, f1, if_pos hc]
  · rw [w7, n1, if_pos hc]
  · rw [w8, n2, if_pos hc]

/-- C11 (allocation uniqueness). With `CART_MAX_TOTAL_FILES` equal to the frame size, in
every state reached by calls of the driver: no two placements of the extent maps, of one
file or of two, name the same (cartridge, frame); within a file the placements are in
strictly increasing lexicographic order; every placement lies strictly below the
allocator's counters; and a one-byte `cart_write` to an open record of the table whose
cursor stands at the end of its extent map (below the 100th frame, the free cell holding
a cartridge number of at most 63) returns 1, stores the allocator's present counters
`(nextCartID, nextFrameID)` as the new placement, and advances the frame counter by one,
from 1023 to 0 with the cartridge counter advanced by one, the state after it being
reached again. -/
theorem allocation_unique (L : DriverLimits) (hM : L.CART_MAX_TOTAL_FILES = 1024)
    (s : State) (h : Reachable L s) :
    (∀ x y (i j : Nat), (i : Int) < (s.file x).frame_num → (j : Int) < (s.file y).frame_num →
        (x ≠ y ∨ i ≠ j) →
        ¬ (((s.file x).fileFrame i).cart_id = ((s.file y).fileFrame j).cart_id
          ∧ ((s.file x).fileFrame i).frame_id = ((s.file y).fileFrame j).frame_id))
      ∧ (∀ x (i j : Nat), i < j → (j : Int) < (s.file x).frame_num →
          ((s.file x).fileFrame i).cart_id < ((s.file x).fileFrame j).cart_id
            ∨ (((s.file x).fileFrame i).cart_id = ((s.file x).fileFrame j).cart_id
              ∧ ((s.file x).fileFrame i).frame_id < ((s.file x).fileFrame j).frame_id))
      ∧ (∀ x (i : Nat), (i : Int) < (s.file x).frame_num →
          ((s.file x).fileFrame i).cart_id < s.nextCartID
            ∨ (((s.file x).fileFrame i).cart_id = s.nextCartID
              ∧ ((s.file x).fileFrame i).frame_id < s.nextFrameID))
      ∧ (∀ (fd b : Nat), fd < L.CART_MAX_TOTAL_FILES → (s.file fd).isOpen ≠ 0 →
          (s.file fd).pos = (s.file fd).frame_num * 1024 → (s.file fd).pos < 102400 →
          ((s.file fd).fileFrame (s.file fd).frame_num.toNat).cart_id ≤ 63 →
          ∃ s1, cart_write L fd [b] 1 s = .ok (1, s1) ∧ Reachable L s1
            ∧ (s1.file fd).fileFrame (s.file fd).frame_num.toNat
                = ⟨s.nextCartID, s.nextFrameID⟩
            ∧ (s1.file fd).frame_num = (s.file fd).frame_num + 1
            ∧ s1.nextCartID = (if s.nextFrameID = 1023 then s.nextCartID + 1 else s.nextCartID)
            ∧ s1.nextFrameID = (if s.nextFrameID = 1023 then 0 else s.nextFrameID + 1)) := by
  have hi := reachable_DriverInv L hM s h
  obtain ⟨a0, a1, a2, hfile, hent, hdist, hmono⟩ := hi
  refine ⟨?_, ?_, ?_, ?_⟩
  · intro x y i j hx hy hne heq
    apply hdist x y i j hx hy hne
    unfold frame_info.lin
    rw [heq.1, heq.2]
  · intro x i j hij hj
    have hlt := hmono x i j hij hj
    have hbi := hent x i (by omega)
    have hbj := hent x j hj
    unfold frame_info.lin at hlt
    omega
  · intro x i hx
    have hb := hent x i hx
    unfold frame_info.lin at hb
    omega
  · intro fd b hfd hopen hend hp1 hcell
    obtain ⟨e, g1, g2, g3, g4⟩ :=
      cart_write_allocates L fd b s hM hfd hopen (reachable_DriverInv L hM s h) hend hp1 hcell
    have e1 : cart_write L (fd : Int) [b] 1 s = .ok (1, writeRound fd s [b] 1) := e
    exact ⟨_, e, Reachable.write s _ fd [b] 1 1 h e1, g1, g2, g3, g4⟩

/-- C11 at a concrete input: after `cart_poweron(); cart_open("a"); cart_write(0, "x", 1)`
the one placement of file 0 is (0, 0), below the allocator's counters (0, 1); and in the
state before that write, the one-byte write stores the counters (0, 0) as placement 0 and
advances the allocator to (0, 1). -/
theorem allocation_unique_witness :
    Reachable demoLimits (wroteA demoLimits)
      ∧ ((((wroteA demoLimits).file 0).fileFrame 0).cart_id < (wroteA demoLimits).nextCartID
        ∨ ((((wroteA demoLimits).file 0).fileFrame 0).cart_id = (wroteA demoLimits).nextCartID
          ∧ (((wroteA demoLimits).file 0).fileFrame 0).frame_id
              < (wroteA demoLimits).nextFrameID))
      ∧ ∃ s1, cart_write demoLimits 0 [120] 1 (openedA demoLimits) = .ok (1, s1)
          ∧ ((s1.file 0).fileFrame 0).cart_id = 0 ∧ ((s1.file 0).fileFrame 0).frame_id = 0
          ∧ (s1.file 0).frame_num = 1 ∧ s1.nextCartID = 0 ∧ s1.nextFrameID = 1 := by
  refine ⟨reachable_wroteA,
    (allocation_unique demoLimits rfl (wroteA demoLimits) reachable_wroteA).2.2.1 0 0
      (by decide), ?_⟩
  obtain ⟨s1, e, _, g1, g2, g3, g4⟩ :=
    (allocation_unique demoLimits rfl (openedA demoLimits)
      (reachable_openedA demoLimits (by decide) (by decide))).2.2.2 0 120 (by decide)
      (by decide) (by decide) (by decide) (by decide)
  have h0 : ((openedA demoLimits).file 0).frame_num.toNat = 0 := by decide
  have hc : (openedA demoLimits).nextCartID = 0 := by decide
  have hf : (openedA demoLimits).nextFrameID = 0 := by decide
  rw [h0, hc, hf] at g1
  refine ⟨s1, e, ?_, ?_, ?_, ?_, ?_⟩
  · rw [g1]
  · rw [g1]
  · rw [g2]; decide
  · rw [g3, hc, hf]; decide
  · rw [g4, hf]; decide

/-! ## Progress of the transfer loops -/

theorem write_loop_nonpos (L : DriverLimits) (fd : Nat) (count : Int) (fuel : Nat) (s : State)
    (buf : List Nat) (remaining : Int) (hr : ¬ remaining > 0) :
    cart_write_loop L fd count fuel s buf remaining = .ok (count, s) := by
  cases fuel with
  | zero => rw [cart_write_loop, if_neg hr]
  | succ n => rw [cart_write_loop, if_neg hr]

theorem read_loop_nonpos (L : DriverLimits) (fd : Nat) (count : Int) (fuel : Nat) (s : State)
    (out : List Nat) (remaining : Int) (hr : ¬ remaining > 0) :
    cart_read_loop L fd count fuel s out remaining = .ok (count, out, s) := by
  cases fuel with
  | zero => rw [cart_read_loop, if_neg hr]
  | succ n => rw [cart_read_loop, if_neg hr]

theorem write_loop_fuel (L : DriverLimits) (fd : Nat) (count : Int)
    (hM : L.CART_MAX_TOTAL_FILES = 1024) :
    ∀ (fuel : Nat) (s : State) (buf : List Nat) (remaining : Int),
      0 ≤ (s.file fd).pos → (s.file fd).pos ≤ 102400 →
      0 ≤ (s.file fd).fileLength → (s.file fd).fileLength ≤ 102400 →
      (0 < remaining → ((s.file fd).pos % 1024 + remaining + 1023) / 1024 ≤ fuel) →
      cart_write_loop L fd count fuel s buf remaining ≠ .error .noProgress
        ∧ ∀ fuel1, fuel ≤ fuel1 →
          cart_write_loop L fd count fuel1 s buf remaining
            = cart_write_loop L fd count fuel s buf remaining := by
  intro fuel
  induction fuel with
  | zero =>
    intro s buf remaining hp0 hp2 hl0 hl1 hb
    have hr : ¬ remaining > 0 := by
      intro h
      have := hb h
      omega
    constructor
    · rw [write_loop_nonpos L fd count 0 s buf remaining hr]
      intro h
      cases h
    · intro fuel1 _
      rw [write_loop_nonpos L fd count fuel1 s buf remaining hr,
        write_loop_nonpos L fd count 0 s buf remaining hr]
  | succ n ih =>
    intro s buf remaining hp0 hp2 hl0 hl1 hb
    by_cases hr : remaining > 0
    · by_cases hp : (s.file fd).pos = 102400
      · constructor
        · rw [write_step_oob L fd count n s buf remaining hM hr hp]
          intro h
          cases h
        · intro fuel1 hf
          obtain ⟨m, rfl⟩ : ∃ m, fuel1 = m + 1 := ⟨fuel1 - 1, by omega⟩
          rw [write_step_oob L fd count n s buf remaining hM hr hp,
            write_step_oob L fd count m s buf remaining hM hr hp]
      · have hp1 : (s.file fd).pos < 102400 := by omega
        by_cases hstop : (s.file fd).pos / 1024 ≥ (s.file fd).frame_num
            ∧ ((s.file fd).fileFrame ((s.file fd).pos / 1024).toNat).cart_id > 63
        · constructor
          · rw [write_step_stop L fd count n s buf remaining hM hr hp0 hp1 hstop]
            intro h
            cases h
          · intro fuel1 hf
            obtain ⟨m, rfl⟩ : ∃ m, fuel1 = m + 1 := ⟨fuel1 - 1, by omega⟩
            rw [write_step_stop L fd count n s buf remaining hM hr hp0 hp1 hstop,
              write_step_stop L fd count m s buf remaining hM hr hp0 hp1 hstop]
        · by_cases hbuf : chunkSize (s.file fd).pos remaining ≤ buf.length
          · obtain ⟨hc0, hc1, hc2⟩ := chunkSize_pos (s.file fd).pos remaining hr
            obtain ⟨w1, w2, _⟩ := writeRound_fields fd s buf remaining hr hp0 hp1 hl0 hl1
            have hnext := ih (writeRound fd s buf remaining)
              (buf.drop (chunkSize (s.file fd).pos remaining).toNat)
              (remaining - chunkSize (s.file fd).pos remaining)
              (by rw [w1]; omega) (by rw [w1]; omega) (by rw [w2]; omega)
              (by rw [w2]; omega)
              (by
                intro h
                have := hb hr
                rw [w1]
                have hcs : chunkSize (s.file fd).pos remaining
                    = 1024 - (s.file fd).pos % 1024 := by
                  unfold chunkSize CART_FRAME_SIZE
                  unfold chunkSize CART_FRAME_SIZE at h
                  split_ifs at h ⊢ <;> omega
                omega)
            constructor
            · rw [write_step_chunk L fd count n s buf remaining hM hr hbuf hp0 hp1 hstop]
              exact hnext.1
            · intro fuel1 hf
              obtain ⟨m, rfl⟩ : ∃ m, fuel1 = m + 1 := ⟨fuel1 - 1, by omega⟩
              rw [write_step_chunk L fd count n s buf remaining hM hr hbuf hp0 hp1 hstop,
                write_step_chunk L fd count m s buf remaining hM hr hbuf hp0 hp1 hstop]
              exact hnext.2 m (by omega)
          · have hsh : (buf.length : Int) < chunkSize (s.file fd).pos remaining := by omega
            constructor
            · rw [write_step_short L fd count n s buf remaining hM hr hsh hp0 hp1 hstop]
              intro h
              cases h
            · intro fuel1 hf
              obtain ⟨m, rfl⟩ : ∃ m, fuel1 = m + 1 := ⟨fuel1 - 1, by omega⟩
              rw [write_step_short L fd count n s buf remaining hM hr hsh hp0 hp1 hstop,
                write_step_short L fd count m s buf remaining hM hr hsh hp0 hp1 hstop]
    · constructor
      · rw [write_loop_nonpos L fd count _ s buf remaining hr]
        intro h
        cases h
      · intro fuel1 _
        rw [write_loop_nonpos L fd count fuel1 s buf remaining hr,
          write_loop_nonpos L fd count _ s buf remaining hr]

theorem read_loop_fuel (L : DriverLimits) (fd : Nat) (count : Int)
    (hM : L.CART_MAX_TOTAL_FILES = 1024) :
    ∀ (fuel : Nat) (s : State) (out : List Nat) (remaining : Int),
      0 ≤ (s.file fd).pos → (s.file fd).pos + remaining ≤ 102400 →
      (0 < remaining → ((s.file fd).pos % 1024 + remaining + 1023) / 1024 ≤ fuel) →
      cart_read_loop L fd count fuel s out remaining ≠ .error .noProgress
        ∧ ∀ fuel1, fuel ≤ fuel1 →
          cart_read_loop L fd count fuel1 s out remaining
            = cart_read_loop L fd count fuel s out remaining := by
  intro fuel
  induction fuel with
  | zero =>
    intro s out remaining hp0 hp2 hb
    have hr : ¬ remaining > 0 := by
      intro h
      have := hb h
      omega
    constructor
    · rw [read_loop_nonpos L fd count 0 s out remaining hr]
      intro h
      cases h
    · intro fuel1 _
      rw [read_loop_nonpos L fd count fuel1 s out remaining hr,
        read_loop_nonpos L fd count 0 s out remaining hr]
  | succ n ih =>
    intro s out remaining hp0 hp2 hb
    by_cases hr : remaining > 0
    · have hp1 : (s.file fd).pos < 102400 := by omega
      obtain ⟨hc0, hc1, hc2⟩ := chunkSize_pos (s.file fd).pos remaining hr
      obtain ⟨r1, _⟩ := readRound_fields fd s remaining hr hp0 hp1
      have hnext := ih (readRound fd s remaining) (out ++ readRoundBytes fd s remaining)
        (remaining - chunkSize (s.file fd).pos remaining)
        (by rw [r1]; omega) (by rw [r1]; omega)
        (by
          intro h
          have := hb hr
          rw [r1]
          have hcs : chunkSize (s.file fd).pos remaining
              = 1024 - (s.file fd).pos % 1024 := by
            unfold chunkSize CART_FRAME_SIZE
            unfold chunkSize CART_FRAME_SIZE at h
            split_ifs at h ⊢ <;> omega
          omega)
      constructor
      · rw [read_step L fd count n s out remaining hM hr hp0 hp1]
        exact hnext.1
      · intro fuel1 hf
        obtain ⟨m, rfl⟩ : ∃ m, fuel1 = m + 1 := ⟨fuel1 - 1, by omega⟩
        rw [read_step L fd count n s out remaining hM hr hp0 hp1,
          read_step L fd count m s out remaining hM hr hp0 hp1]
        exact hnext.2 m (by omega)
    · constructor
      · rw [read_loop_nonpos L fd count _ s out remaining hr]
        intro h
        cases h
      · intro fuel1 _
        rw [read_loop_nonpos L fd count fuel1 s out remaining hr,
          read_loop_nonpos L fd count _ s out remaining hr]

/-- C20 (bounded progress of the transfer loops). With `CART_MAX_TOTAL_FILES` equal to the
frame size, let record `fd` have `0 <= pos <= fileLength <= 102400`. (1) In a round of
either loop with `remaining > 0` the offset `pos % CART_MAX_TOTAL_FILES` lies in
`[0, 1024)`, the size computed by `cart_write` and the size computed by `cart_read` are
both `chunkSize pos remaining`, with `1 <= size <= remaining`, `size <= 1024 - offset`,
so `offset + size <= 1024`, and `remaining - size` is smaller than `remaining` and not
negative. (2) A round of the loop of `cart_write` faults, returns -1, or goes on with
`remaining - size` from a state that satisfies the same bounds; (3) a round of the loop
of `cart_read` with `remaining <= fileLength - pos` goes on likewise. (4) The first
argument of the loop functions counts rounds, and `noProgress` is the result of a loop
that has rounds left to do when the count is used up: with
`N = ceil((pos % 1024 + count) / 1024)`, the loop of `cart_write` started with `count`
does not need more than `N` rounds, it gives the same result for every bound from `N`
on, and `cart_write` on an open record of the table is that loop with bound `N`;
(5) `cart_read` on an open record of the table is its loop, started with a count `c` of
at most `count`, with bound `N`, and does not need more than `N` rounds. -/
theorem transfer_loops_progress (L : DriverLimits) (hM : L.CART_MAX_TOTAL_FILES = 1024)
    (s : State) (fd : Nat) (hp0 : 0 ≤ (s.file fd).pos)
    (hpl : (s.file fd).pos ≤ (s.file fd).fileLength)
    (hl1 : (s.file fd).fileLength ≤ 102400) :
    (∀ remaining : Int, 0 < remaining →
        i32 ((s.file fd).pos % (L.CART_MAX_TOTAL_FILES : Int)) = (s.file fd).pos % 1024
          ∧ 0 ≤ (s.file fd).pos % 1024 ∧ (s.file fd).pos % 1024 < CART_FRAME_SIZE
          ∧ (if remaining < CART_FRAME_SIZE - (s.file fd).pos % 1024 then remaining
              else CART_FRAME_SIZE - (s.file fd).pos % 1024)
              = chunkSize (s.file fd).pos remaining
          ∧ (if CART_FRAME_SIZE - (s.file fd).pos % 1024 < remaining
              then CART_FRAME_SIZE - (s.file fd).pos % 1024 else remaining)
              = chunkSize (s.file fd).pos remaining
          ∧ 1 ≤ chunkSize (s.file fd).pos remaining
          ∧ chunkSize (s.file fd).pos remaining ≤ remaining
          ∧ chunkSize (s.file fd).pos remaining ≤ CART_FRAME_SIZE - (s.file fd).pos % 1024
          ∧ (s.file fd).pos % 1024 + chunkSize (s.file fd).pos remaining ≤ 1024
          ∧ remaining - chunkSize (s.file fd).pos remaining < remaining
          ∧ 0 ≤ remaining - chunkSize (s.file fd).pos remaining)
      ∧ (∀ (count : Int) (fuel : Nat) (buf : List Nat) (remaining : Int), 0 < remaining →
          cart_write_loop L fd count (fuel + 1) s buf remaining = .error .outOfBounds
            ∨ cart_write_loop L fd count (fuel + 1) s buf remaining = .ok (-1, s)
            ∨ (cart_write_loop L fd count (fuel + 1) s buf remaining
                  = cart_write_loop L fd count fuel (writeRound fd s buf remaining)
                      (buf.drop (chunkSize (s.file fd).pos remaining).toNat)
                      (remaining - chunkSize (s.file fd).pos remaining)
                ∧ 0 ≤ ((writeRound fd s buf remaining).file fd).pos
                ∧ ((writeRound fd s buf remaining).file fd).pos
                    ≤ ((writeRound fd s buf remaining).file fd).fileLength
                ∧ ((writeRound fd s buf remaining).file fd).fileLength ≤ 102400))
      ∧ (∀ (count : Int) (fuel : Nat) (out : List Nat) (remaining : Int), 0 < remaining →
          remaining ≤ (s.file fd).fileLength - (s.file fd).pos →
          cart_read_loop L fd count (fuel + 1) s out remaining
              = cart_read_loop L fd count fuel (readRound fd s remaining)
                  (out ++ readRoundBytes fd s remaining)
                  (remaining - chunkSize (s.file fd).pos remaining)
            ∧ 0 ≤ ((readRound fd s remaining).file fd).pos
            ∧ ((readRound fd s remaining).file fd).pos
                ≤ ((readRound fd s remaining).file fd).fileLength
            ∧ ((readRound fd s remaining).file fd).fileLength ≤ 102400
            ∧ remaining - chunkSize (s.file fd).pos remaining
                ≤ ((readRound fd s remaining).file fd).fileLength
                  - ((readRound fd s remaining).file fd).pos)
      ∧ (∀ (count : Int) (buf : List Nat), 0 ≤ count →
          cart_write_loop L fd count (((s.file fd).pos % 1024 + count + 1023) / 1024).toNat
              s buf count ≠ .error .noProgress
            ∧ (∀ fuel, (((s.file fd).pos % 1024 + count + 1023) / 1024).toNat ≤ fuel →
                cart_write_loop L fd count fuel s buf count
                  = cart_write_loop L fd count
                      (((s.file fd).pos % 1024 + count + 1023) / 1024).toNat s buf count)
            ∧ (fd < L.CART_MAX_TOTAL_FILES → (s.file fd).isOpen ≠ 0 →
                cart_write L fd buf count s
                  = cart_write_loop L fd count
                      (((s.file fd).pos % 1024 + count + 1023) / 1024).toNat s buf count))
      ∧ (∀ count : Int, 0 ≤ count → fd < L.CART_MAX_TOTAL_FILES → (s.file fd).isOpen ≠ 0 →
          ∃ c, 0 ≤ c ∧ c ≤ count ∧ c ≤ (s.file fd).fileLength - (s.file fd).pos
            ∧ cart_read L fd count s
                = cart_read_loop L fd c
                    (((s.file fd).pos % 1024 + count + 1023) / 1024).toNat s [] c
            ∧ cart_read_loop L fd c
                (((s.file fd).pos % 1024 + count + 1023) / 1024).toNat s [] c
                ≠ .error .noProgress) := by
  refine ⟨?_, ?_, ?_, ?_, ?_⟩
  · intro remaining hr
    obtain ⟨hc0, hc1, hc2⟩ := chunkSize_pos (s.file fd).pos remaining hr
    have hoff : i32 ((s.file fd).pos % (L.CART_MAX_TOTAL_FILES : Int))
        = (s.file fd).pos % 1024 := by
      rw [hM]
      exact i32_of_range _ (by omega) (by omega)
    have hrd : (if CART_FRAME_SIZE - (s.file fd).pos % 1024 < remaining
        then CART_FRAME_SIZE - (s.file fd).pos % 1024 else remaining)
        = chunkSize (s.file fd).pos remaining := by
      unfold chunkSize
      split_ifs <;> omega
    have hle : chunkSize (s.file fd).pos remaining
        ≤ CART_FRAME_SIZE - (s.file fd).pos % 1024 := by
      unfold CART_FRAME_SIZE
      omega
    refine ⟨hoff, by omega, by unfold CART_FRAME_SIZE; omega, rfl, hrd, by omega, hc1, hle,
      hc2, by omega, by omega⟩
  · intro count fuel buf remaining hr
    rcases write_loop_round L fd count fuel s buf remaining hM hr hp0 (by omega) with
      h | h | ⟨hp1, _, h⟩
    · exact Or.inl h
    · exact Or.inr (Or.inl h)
    · obtain ⟨hc0, hc1, hc2⟩ := chunkSize_pos (s.file fd).pos remaining hr
      obtain ⟨w1, w2, _⟩ := writeRound_fields fd s buf remaining hr hp0 hp1 (by omega) hl1
      refine Or.inr (Or.inr ⟨h, ?_, ?_, ?_⟩)
      · rw [w1]; omega
      · rw [w1, w2]; omega
      · rw [w2]; omega
  · intro count fuel out remaining hr hrem
    obtain ⟨hc0, hc1, hc2⟩ := chunkSize_pos (s.file fd).pos remaining hr
    have hp1 : (s.file fd).pos < 102400 := by omega
    obtain ⟨r1, r2, _⟩ := readRound_fields fd s remaining hr hp0 hp1
    refine ⟨read_step L fd count fuel s out remaining hM hr hp0 hp1, ?_, ?_, ?_, ?_⟩
    · rw [r1]; omega
    · rw [r1, r2]; omega
    · rw [r2]; omega
    · rw [r1, r2]; omega
  · intro count buf hcount
    obtain ⟨g1, g2⟩ := write_loop_fuel L fd count hM
      (((s.file fd).pos % 1024 + count + 1023) / 1024).toNat s buf count hp0 (by omega)
      (by omega) hl1 (by intro _; omega)
    refine ⟨g1, g2, ?_⟩
    intro hfd hopen
    rw [cart_write_eq_loop L fd buf count s hfd hopen hcount]
    by_cases hz : count > 0
    · exact g2 count.toNat (by omega)
    · rw [write_loop_nonpos L fd count _ s buf count hz,
        write_loop_nonpos L fd count _ s buf count hz]
  · intro count hcount hfd hopen
    obtain ⟨c, hc0, hc1, hc2, e⟩ := cart_read_clamped L fd count s hfd hopen hcount hp0 hpl hl1
    refine ⟨c, hc0, hc1, hc2, ?_, ?_⟩
    · rw [e]
      by_cases hz : c > 0
      · obtain ⟨_, g2⟩ := read_loop_fuel L fd c hM
          (((s.file fd).pos % 1024 + c + 1023) / 1024).toNat s [] c hp0 (by omega)
          (by intro _; omega)
        rw [g2 c.toNat (by omega),
          g2 (((s.file fd).pos % 1024 + count + 1023) / 1024).toNat (by omega)]
      · rw [read_loop_nonpos L fd c _ s [] c hz, read_loop_nonpos L fd c _ s [] c hz]
    · by_cases hz : c > 0
      · obtain ⟨g1, g2⟩ := read_loop_fuel L fd c hM
          (((s.file fd).pos % 1024 + c + 1023) / 1024).toNat s [] c hp0 (by omega)
          (by intro _; omega)
        rw [g2 (((s.file fd).pos % 1024 + count + 1023) / 1024).toNat (by omega)]
        exact g1
      · rw [read_loop_nonpos L fd c _ s [] c hz]
        intro h
        cases h

/-- C20 at a concrete input: after `cart_poweron(); cart_open("a"); cart_write(0, "x", 1);
cart_seek(0, 0)` file 0 has cursor 0 and length 1; a round with 2000 bytes to go moves
between 1 and 1024 of them, and `cart_write(0, buf, 2000)` is its loop bounded by
`ceil(2000 / 1024) = 2` rounds. -/
theorem transfer_loops_progress_witness :
    (0 ≤ ((rewoundA demoLimits).file 0).pos
        ∧ ((rewoundA demoLimits).file 0).pos ≤ ((rewoundA demoLimits).file 0).fileLength
        ∧ ((rewoundA demoLimits).file 0).fileLength ≤ 102400)
      ∧ (1 ≤ chunkSize ((rewoundA demoLimits).file 0).pos 2000
        ∧ chunkSize ((rewoundA demoLimits).file 0).pos 2000 ≤ 2000
        ∧ ((rewoundA demoLimits).file 0).pos % 1024
            + chunkSize ((rewoundA demoLimits).file 0).pos 2000 ≤ 1024)
      ∧ cart_write demoLimits 0 (List.replicate 2000 7) 2000 (rewoundA demoLimits)
          = cart_write_loop demoLimits 0 2000 2 (rewoundA demoLimits)
              (List.replicate 2000 7) 2000 := by
  have hp0 : 0 ≤ ((rewoundA demoLimits).file 0).pos := by decide
  have hpl : ((rewoundA demoLimits).file 0).pos ≤ ((rewoundA demoLimits).file 0).fileLength := by
    decide
  have hl1 : ((rewoundA demoLimits).file 0).fileLength ≤ 102400 := by decide
  obtain ⟨hA, _, _, hD, _⟩ :=
    transfer_loops_progress demoLimits rfl (rewoundA demoLimits) 0 hp0 hpl hl1
  obtain ⟨_, _, _, _, _, a1, a2, _, a3, _⟩ := hA 2000 (by decide)
  have hN : ((((rewoundA demoLimits).file 0).pos % 1024 + 2000 + 1023) / 1024).toNat = 2 := by
    decide
  have hw := (hD 2000 (List.replicate 2000 7) (by decide)).2.2 (by decide) (by decide)
  rw [hN] at hw
  exact ⟨⟨hp0, hpl, hl1⟩, ⟨a1, a2, a3⟩, hw⟩

/-! ## The allocator across power cycles -/

theorem writeRound_alloc (fd : Nat) (s : State) (buf : List Nat) (remaining : Int)
    (hr : 0 < remaining) (hi : DriverInv s) (hp1 : (s.file fd).pos < 102400) :
    (writeRound fd s buf remaining).nextCartID * 1024
        + (writeRound fd s buf remaining).nextFrameID
        - ((writeRound fd s buf remaining).file fd).frame_num
      = s.nextCartID * 1024 + s.nextFrameID - (s.file fd).frame_num := by
  obtain ⟨hp0, hpl, hlf, hl1⟩ := hi.2.2.2.1 fd
  obtain ⟨_, _, _, _, w5, _, w7, w8, _⟩ :=
    writeRound_fields fd s buf remaining hr hp0 hp1 (by omega) hl1
  obtain ⟨f1, _⟩ := allocRound_frames fd s
  obtain ⟨n1, n2⟩ := allocRound_next fd s
  rw [w5, w7, w8, f1, n1, n2]
  by_cases hc : (s.file fd).pos / 1024 ≥ (s.file fd).frame_num
  · rw [if_pos hc, if_pos hc, if_pos hc]
    split <;> omega
  · rw [if_neg hc, if_neg hc, if_neg hc]

theorem write_loop_alloc (L : DriverLimits) (fd : Nat) (count : Int)
    (hM : L.CART_MAX_TOTAL_FILES = 1024) :
    ∀ (fuel : Nat) (s : State) (buf : List Nat) (remaining r : Int) (s1 : State),
      DriverInv s → cart_write_loop L fd count fuel s buf remaining = .ok (r, s1) →
      s1.nextCartID * 1024 + s1.nextFrameID - (s1.file fd).frame_num
        = s.nextCartID * 1024 + s.nextFrameID - (s.file fd).frame_num := by
  intro fuel
  induction fuel with
  | zero =>
    intro s buf remaining r s1 hi h
    rw [cart_write_loop] at h
    by_cases hr : remaining > 0
    · rw [if_pos hr] at h
      cases h
    · rw [if_neg hr] at h
      simp only [Except.ok.injEq, Prod.mk.injEq] at h
      rw [← h.2]
  | succ fuel ih =>
    intro s buf remaining r s1 hi h
    by_cases hr : remaining > 0
    · obtain ⟨hp0, hpl, hlf, hl1⟩ := hi.2.2.2.1 fd
      rcases write_loop_round L fd count fuel s buf remaining hM hr hp0 (by omega) with
        e | e | ⟨hp1, _, e⟩
      · rw [e] at h
        cases h
      · rw [e] at h
        simp only [Except.ok.injEq, Prod.mk.injEq] at h
        rw [← h.2]
      · rw [e] at h
        rw [ih _ _ _ r s1 (writeRound_DriverInv fd s buf remaining hr hi hp1) h]
        exact writeRound_alloc fd s buf remaining hr hi hp1
    · rw [cart_write_loop, if_neg hr] at h
      simp only [Except.ok.injEq, Prod.mk.injEq] at h
      rw [← h.2]

theorem cart_open_first (L : DriverLimits) (path : List Nat) (s : State)
    (hM : 0 < L.CART_MAX_TOTAL_FILES) (hP : strlen path + 1 ≤ L.CART_MAX_PATH_LENGTH)
    (hz : (s.file 0).fileName 0 = 0) :
    cart_open L path s
      = .ok (0, s.setFile 0
          { s.file 0 with
            fileName := strcpy (s.file 0).fileName path
            fileLength := 0, pos := 0, isOpen := 1 }) := by
  obtain ⟨m, hm⟩ : ∃ m, L.CART_MAX_TOTAL_FILES = m + 1 := ⟨L.CART_MAX_TOTAL_FILES - 1, by omega⟩
  have hloop : cart_open_loop L s.file L.CART_MAX_TOTAL_FILES 0 = .ok (some 0) := by
    rw [hm, cart_open_loop]
    have h0 : ¬ L.CART_MAX_PATH_LENGTH ≤ 0 := by omega
    simp only [h0, hz, if_true, if_false]
  have hlen : ¬ L.CART_MAX_PATH_LENGTH < strlen path + 1 := by omega
  unfold cart_open
  simp only [hloop, hlen, if_false]
  rfl

theorem power_cycle (L : DriverLimits) (hM : L.CART_MAX_TOTAL_FILES = 1024)
    (hP : 2 ≤ L.CART_MAX_PATH_LENGTH) (s : State) (hs : Reachable L s)
    (hcells : ∀ i : Nat, i < 100 → ((s.file 0).fileFrame i).cart_id ≤ 63)
    (n : Nat) (hn : n ≤ 100) (hroom : s.nextCartID * 1024 + s.nextFrameID + n ≤ 65536) :
    ∃ p o w, cart_poweron L s = .ok (0, p) ∧ cart_open L [97] p = .ok (0, o)
      ∧ cart_write L 0 (List.replicate (n * 1024) 0) ((n : Int) * 1024) o
          = .ok ((n : Int) * 1024, w)
      ∧ Reachable L w
      ∧ w.nextCartID * 1024 + w.nextFrameID = s.nextCartID * 1024 + s.nextFrameID + n
      ∧ (∀ i : Nat, i < 100 → ((w.file 0).fileFrame i).cart_id ≤ 63)
      ∧ (w.file 0).isOpen ≠ 0 ∧ (w.file 0).pos = (n : Int) * 1024
      ∧ (w.file 0).frame_num = n := by
  obtain ⟨p, ep, pc, pf, pfile⟩ := cart_poweron_ok L s (by omega)
  have hpr : Reachable L p := Reachable.poweron s p 0 hs ep
  have hp0 : p.file 0 = resetFile (s.file 0) := by
    rw [pfile 0, if_pos (by omega)]
  have hz : (p.file 0).fileName 0 = 0 := by
    rw [hp0]
    simp [resetFile, strcpy]
  have hlen : strlen [97] + 1 ≤ L.CART_MAX_PATH_LENGTH := by
    have : strlen [97] = 1 := by decide
    omega
  have eo := cart_open_first L [97] p (by omega) hlen hz
  have hor := Reachable.open p _ [97] 0 hpr eo
  have hoi := reachable_DriverInv L hM _ hor
  have hof : (p.setFile 0
      { p.file 0 with
        fileName := strcpy (p.file 0).fileName [97]
        fileLength := 0, pos := 0, isOpen := 1 }).file 0
      = { p.file 0 with
        fileName := strcpy (p.file 0).fileName [97]
        fileLength := 0, pos := 0, isOpen := 1 } := setFile_file_same _ _ _
  generalize ho : p.setFile 0
      { p.file 0 with
        fileName := strcpy (p.file 0).fileName [97]
        fileLength := 0, pos := 0, isOpen := 1 } = o at eo hor hoi hof
  have o1 : (o.file 0).pos = 0 := by rw [hof]
  have o2 : (o.file 0).fileLength = 0 := by rw [hof]
  have o3 : (o.file 0).frame_num = 0 := by rw [hof, hp0]; rfl
  have o4 : (o.file 0).isOpen ≠ 0 := by
    rw [hof]
    show (1 : Int) ≠ 0
    omega
  have o5 : ∀ i : Nat, i < 100 → ((o.file 0).fileFrame i).cart_id ≤ 63 := by
    intro i hi
    rw [hof, hp0]
    show ((resetFile (s.file 0)).fileFrame i).cart_id ≤ 63
    unfold resetFile
    by_cases h0 : i = 0
    · simp [h0]
    · simp only [h0, if_false]
      exact hcells i hi
  have oc : o.nextCartID = s.nextCartID := by rw [← ho]; exact pc
  have onf : o.nextFrameID = s.nextFrameID := by rw [← ho]; exact pf
  have hinv : WriteInv 0 o ((n : Int) * 1024) := by
    refine ⟨⟨by omega, by omega⟩, ?_, ⟨hoi.1, hoi.2.1, hoi.2.2.1, ?_, ?_⟩, by omega, by omega,
      by omega, by omega, ?_⟩
    · intro i _ hi
      exact o5 i hi
    · intro i hi
      omega
    · intro i j hi
      omega
    · rw [oc, onf, o1, o3]
      omega
  have hbuf : (n : Int) * 1024 ≤ ((List.replicate (n * 1024) 0).length : Int) := by
    rw [List.length_replicate]
    push_cast
    omega
  obtain ⟨w, ew, hwinv, w1, _, w3, w4, _⟩ :=
    cart_write_full L 0 (List.replicate (n * 1024) 0) ((n : Int) * 1024) o hM (by omega) o4
      (by omega) hbuf hinv
  have ew1 : cart_write L 0 (List.replicate (n * 1024) 0) ((n : Int) * 1024) o
      = .ok ((n : Int) * 1024, w) := ew
  have hwr : Reachable L w := Reachable.write o w 0 _ _ _ hor ew1
  have hfn : (w.file 0).frame_num = n := by
    rw [w3, o1, o3]
    omega
  have halloc : w.nextCartID * 1024 + w.nextFrameID - (w.file 0).frame_num
      = o.nextCartID * 1024 + o.nextFrameID - (o.file 0).frame_num := by
    rw [cart_write_eq_loop L 0 _ _ o (by omega) o4 (by omega)] at ew
    exact write_loop_alloc L 0 _ hM _ o _ _ _ w hoi ew
  refine ⟨p, o, w, ep, eo, ew1, hwr, ?_, ?_, ?_, ?_, hfn⟩
  · rw [hfn, oc, onf, o3] at halloc
    omega
  · intro i hi
    obtain ⟨_, hfree, ⟨_, _, _, hent, _⟩, _⟩ := hwinv
    by_cases hlt : (i : Int) < (w.file 0).frame_num
    · exact (hent i hlt).2.1
    · exact hfree i (by omega) hi
  · rw [w4]
    exact o4
  · rw [w1, o1]
    omega

theorem power_cycles (L : DriverLimits) (hM : L.CART_MAX_TOTAL_FILES = 1024)
    (hP : 2 ≤ L.CART_MAX_PATH_LENGTH) :
    ∀ m : Nat, m ≤ 655 →
      ∃ s, Reachable L s ∧ s.nextCartID * 1024 + s.nextFrameID = 100 * (m : Int)
        ∧ ∀ i : Nat, i < 100 → ((s.file 0).fileFrame i).cart_id ≤ 63 := by
  intro m
  induction m with
  | zero =>
    intro _
    refine ⟨bootState zeroDevice, Reachable.start zeroDevice, rfl, ?_⟩
    intro i _
    show (0 : Int) ≤ 63
    omega
  | succ m ih =>
    intro hm
    obtain ⟨s, hs, hA, hcells⟩ := ih (by omega)
    obtain ⟨_, _, w, _, _, _, hw, hwA, hwc, _⟩ :=
      power_cycle L hM hP s hs hcells 100 (by omega) (by rw [hA]; push_cast; omega)
    refine ⟨w, hw, ?_, hwc⟩
    rw [hwA, hA]
    push_cast
    omega

/-- C16 (cartridge bound I4). With `CART_MAX_TOTAL_FILES` equal to the frame size and a
name array of at least two bytes, every placement of a reachable state has a frame index
in `[0, 1023]` and a cartridge index of at least 0, but the bound 64 on the cartridge
index does not hold: a state `s` is reached in which the allocator stands at cartridge
64, frame 0 and file 0 is open with 36 placements and its cursor at their end; there
`cart_write(0, "x", 1)` needs a new frame and does not fail: it returns 1 and appends the
placement (64, 0), and the allocator moves on to (64, 1). (The state `s` is reached by
655 rounds of `cart_poweron(); cart_open("a"); cart_write(0, buf, 102400)`, which hand
out 65500 frames since `cart_poweron` leaves the allocator as it is, followed by
`cart_poweron(); cart_open("a"); cart_write(0, buf, 36864)`.) -/
theorem cartridge_bound_not_kept (L : DriverLimits) (hM : L.CART_MAX_TOTAL_FILES = 1024)
    (hP : 2 ≤ L.CART_MAX_PATH_LENGTH) :
    (∀ s, Reachable L s → ∀ x (i : Nat), (i : Int) < (s.file x).frame_num →
        0 ≤ ((s.file x).fileFrame i).cart_id ∧ 0 ≤ ((s.file x).fileFrame i).frame_id
          ∧ ((s.file x).fileFrame i).frame_id < 1024)
      ∧ ∃ s s1, Reachable L s ∧ s.nextCartID = 64 ∧ s.nextFrameID = 0
          ∧ (s.file 0).isOpen ≠ 0 ∧ (s.file 0).frame_num = 36 ∧ (s.file 0).pos = 36864
          ∧ cart_write L 0 [120] 1 s = .ok (1, s1) ∧ Reachable L s1
          ∧ (s1.file 0).frame_num = 37
          ∧ ((s1.file 0).fileFrame 36).cart_id = 64 ∧ ((s1.file 0).fileFrame 36).frame_id = 0
          ∧ s1.nextCartID = 64 ∧ s1.nextFrameID = 1 := by
  constructor
  · intro s hs x i hi
    obtain ⟨h1, h2, h3, _⟩ := (reachable_DriverInv L hM s hs).2.2.2.2.1 x i hi
    exact ⟨h1, h2, by omega⟩
  · obtain ⟨t, ht, hA, hcells⟩ := power_cycles L hM hP 655 (le_refl _)
    obtain ⟨_, _, s, _, _, _, hs, hsA, hsc, hopen, hpos, hfn⟩ :=
      power_cycle L hM hP t ht hcells 36 (by omega) (by rw [hA]; norm_num)
    have hi := reachable_DriverInv L hM s hs
    have hc : s.nextCartID = 64 := by
      have h1 := hi.2.1
      have h2 := hi.2.2.1
      rw [hA] at hsA
      push_cast at hsA
      omega
    have hf : s.nextFrameID = 0 := by
      rw [hA, hc] at hsA
      push_cast at hsA
      omega
    have hfn1 : (s.file 0).frame_num = 36 := by
      rw [hfn]
      rfl
    have hpos1 : (s.file 0).pos = 36864 := by
      rw [hpos]
      rfl
    have hn : (s.file 0).frame_num.toNat = 36 := by
      rw [hfn1]
      rfl
    obtain ⟨e, g1, g2, g3, g4⟩ :=
      cart_write_allocates L 0 120 s hM (by omega) hopen hi (by rw [hpos1, hfn1]; rfl)
        (by omega) (by rw [hn]; exact hsc 36 (by omega))
    have e1 : cart_write L 0 [120] 1 s = .ok (1, writeRound 0 s [120] 1) := e
    rw [hn, hc, hf] at g1
    refine ⟨s, _, hs, hc, hf, hopen, hfn1, hpos1, e1, Reachable.write s _ 0 [120] 1 1 hs e1,
      ?_, ?_, ?_, ?_, ?_⟩
    · rw [g2, hfn1]
      rfl
    · rw [g1]
    · rw [g1]
    · rw [g3, hf, hc]
      rfl
    · rw [g4, hf]
      rfl

/-- C16 at a concrete input: the table of 1024 records with 128-byte names. -/
theorem cartridge_bound_not_kept_witness :
    ∃ s s1, Reachable demoLimits s ∧ s.nextCartID = 64 ∧ s.nextFrameID = 0
      ∧ cart_write demoLimits 0 [120] 1 s = .ok (1, s1) ∧ Reachable demoLimits s1
      ∧ ((s1.file 0).fileFrame 36).cart_id = 64 ∧ (36 : Int) < (s1.file 0).frame_num := by
  obtain ⟨s, s1, h1, h2, h3, _, _, _, h7, h8, h9, h10, _⟩ :=
    (cartridge_bound_not_kept demoLimits rfl (by decide)).2
  exact ⟨s, s1, h1, h2, h3, h7, h8, h10, by rw [h9]; decide⟩

/-! ## The names of the file table -/

end CartLab
